import Mathlib

/-!
# The Delonghi SPI bridge (`lib/DelonghiSPI/src/delonghi.c`)

A shallow embedding of the duplex relay between the display board (LCD, which
clocks its own bus) and the power board (PB, which the bridge clocks), and
proofs of its relay, error-isolation and synchronisation properties.

Conventions of the embedding

* Bytes and counters are natural numbers; `uint8_t` arithmetic is written with
  an explicit `% 256`, `uint16_t` sizes with `% 65536`.
* The module-level globals of the C file are the fields of `Bridge`.
* Pointers into the five global buffers are `Ptr` values (buffer, offset).
* What lives outside the C file is gathered in `Env`: the constants and helpers
  of the headers (`DL_PACKETSIZE`, the two start markers, `checksum`,
  `checksumOK`, `DLO_apply_overwrites` and its two rulesets, the button codes)
  and the behaviour of the hardware (the status of every raw exchange and the
  bytes the PB answers).
* `World` is the mutable part of the surroundings: the bytes the LCD will still
  clock in, how far the PB has been read, the transfer armed on the LCD bus,
  and the log of raw exchanges and delays.
* LED toggles, `printf` and `DLL_Log` are observational only and are left out.
* The build modelled is the default one (`DELONGHI_LCD_ONLY` undefined).
-/

namespace Delonghi

/-! ## Data model -/

/-- Status codes of the HAL. -/
inductive HAL_StatusTypeDef
  | HAL_OK
  | HAL_ERROR
  | HAL_BUSY
  | HAL_TIMEOUT
  deriving DecidableEq

/-- The `DL_State` enumeration, in declaration order (`Unknown = -1`). -/
inductive DL_State
  | Unknown
  | Inited
  | Syncing_PB
  | Syncing_LCD
  | Synced_PB
  | Synced_LCD
  | Idle
  | Communicate_LCD
  | Communicating_LCD
  | Communicated_LCD
  | Communicate_PB
  | Communicating_PB
  | Communicated_PB
  | DBG_Halt
  deriving DecidableEq

/-- The `DL_DMA_MODE` enumeration. -/
inductive DL_DMA_MODE
  | Sync_First
  | Sync_Rest
  | LCD
  | PB
  deriving DecidableEq

/-- The five global byte arrays of the module. -/
inductive BufId
  | Sync
  | TxPB
  | TxLCD
  | RxPB
  | RxLCD
  deriving DecidableEq

/-- A `uint8_t *` into one of the global arrays. -/
structure Ptr where
  buf : BufId
  off : Nat
  deriving DecidableEq

/-- Pointer arithmetic `p + i`. -/
def Ptr.add (p : Ptr) (i : Nat) : Ptr := { p with off := p.off + i }

/-- What the bridge does to the outside, in program order. -/
inductive Event
  | xfer (handle : Nat) (tx : List Nat) (rx : Ptr) (len : Nat)
  | delay (ms : Nat)
  deriving DecidableEq

/-- The module-level variables of `delonghi.c` (and the loop-local `pkgcount`
of `DL_Start`, which lives as long as the loop does). -/
structure Bridge where
  DL_Buffer_Sync : List Nat
  DL_TxBuffer_PB : List Nat
  DL_TxBuffer_LCD : List Nat
  DL_RxBuffer_PB : List Nat
  DL_RxBuffer_LCD : List Nat
  DL_ChkCnt_PB : Nat
  DL_ChkCnt_LCD : Nat
  debug_enabled : Int
  state : DL_State
  DL_SPI_Handle_PB : Nat
  DL_SPI_Handle_LCD : Nat
  lastBtn : Int
  pkgcount : Int
  deriving DecidableEq

/-- The mutable surroundings of the bridge. -/
structure World where
  lcdIn : List Nat
  pbPos : Nat
  calls : Nat
  armed : Option (Ptr × Nat)
  trace : List Event
  deriving DecidableEq

/-- Everything the C file takes from its headers and from the hardware.
`hal k` is the status of the `k`-th raw exchange, `pbByte k` the `k`-th byte
the PB clocks out, `uninit` the value read from an uninitialised status local,
`DELONGHI_DEBUG` tells whether the build defines `DELONGHI_DEBUG` as `1`. -/
structure Env (R : Type) where
  DL_PACKETSIZE : Nat
  DL_PACKET_LCD_START : Nat
  DL_PACKET_PB_START : Nat
  checksum : List Nat → Nat
  checksumOK : List Nat → Bool
  DLO_apply_overwrites : List Nat → R → List Nat
  DLO_Buffer_LCD : R
  DLO_Buffer_PB : R
  DL_LCD_BTN_PWR : Nat
  DL_LCD_BTN_P : Nat
  DL_LCD_BTN_FLUSH_WATER : Nat
  DL_LCD_BTN_HOT_WATER : Nat
  DL_LCD_BTN_OK : Nat
  DL_LCD_BTN_ONE_SMALL_COFFEE : Nat
  DL_LCD_BTN_TWO_SMALL_COFFEES : Nat
  DL_LCD_BTN_ONE_BIG_COFFEE : Nat
  DELONGHI_DEBUG : Bool
  hal : Nat → HAL_StatusTypeDef
  pbByte : Nat → Nat
  uninit : HAL_StatusTypeDef

/-- How a call ends: it returns, it escalates to the global fault handler, it
waits for ever on a bus nobody clocks, or it sits in the deliberate
`while (1) {}` of the halting branch. -/
inductive Outcome (α : Type)
  | ret (a : α)
  | fatal
  | blocked
  | halted
  deriving DecidableEq

/-- Which way `_DL_Sync_PB` left its loop: through the `break` (marker seen) or
through the early `return` (gave up). -/
inductive SyncPB_Exit
  | found
  | gaveUp
  deriving DecidableEq

/-! ## Memory -/

/-- Conversion of an `int` expression to `uint16_t`. -/
def u16 (x : Int) : Nat := (x % 65536).toNat

/-- Write `bytes` into `buf` from index `off` on. -/
def storeAt (buf : List Nat) (off : Nat) (bytes : List Nat) : List Nat :=
  buf.take off ++ bytes ++ buf.drop (off + bytes.length)

/-- The array behind a buffer name. -/
def Bridge.buf (s : Bridge) : BufId → List Nat
  | .Sync => s.DL_Buffer_Sync
  | .TxPB => s.DL_TxBuffer_PB
  | .TxLCD => s.DL_TxBuffer_LCD
  | .RxPB => s.DL_RxBuffer_PB
  | .RxLCD => s.DL_RxBuffer_LCD

/-- Replace the array behind a buffer name. -/
def Bridge.setBuf (s : Bridge) (b : BufId) (v : List Nat) : Bridge :=
  match b with
  | .Sync => { s with DL_Buffer_Sync := v }
  | .TxPB => { s with DL_TxBuffer_PB := v }
  | .TxLCD => { s with DL_TxBuffer_LCD := v }
  | .RxPB => { s with DL_RxBuffer_PB := v }
  | .RxLCD => { s with DL_RxBuffer_LCD := v }

/-- The `len` bytes at `p`. -/
def Bridge.load (s : Bridge) (p : Ptr) (len : Nat) : List Nat :=
  ((s.buf p.buf).drop p.off).take len

/-- Write `bytes` at `p`. -/
def Bridge.store (s : Bridge) (p : Ptr) (bytes : List Nat) : Bridge :=
  s.setBuf p.buf (storeAt (s.buf p.buf) p.off bytes)

/-- Append an event to the log. -/
def World.log (w : World) (e : Event) : World :=
  { w with trace := w.trace ++ [e] }

/-- Modelled from the spec: `cpyPacket` of `delonghi_utils.h` is missing; the
spec describes it as the exact byte-for-byte replication of `N` bytes of `src`
into `dst`, with no effect outside `dst`. -/
def cpyPacket (N : Nat) (src dst : List Nat) : List Nat :=
  src.take N ++ dst.drop N

/-- Modelled from the spec: `HAL_Delay` is the delay primitive of the host; it
only lets time pass, which the log records. -/
def HAL_Delay (w : World) (ms : Nat) : World :=
  w.log (Event.delay ms)

/-- Modelled from the spec: `DL_Error_Handler` hands over to `_Error_Handler`,
the global fault handler of the host firmware, which the spec describes as
unrecoverable (no return into the bridge). -/
def DL_Error_Handler {α : Type} : Outcome α := Outcome.fatal

/-! ## The module's functions -/

/-- The C function `DL_Set_Debug`. -/
def DL_Set_Debug (s : Bridge) (new_debug_enabled : Int) : Bridge :=
  { s with debug_enabled := new_debug_enabled }

/-- The C function `DL_Init`. -/
def DL_Init (s : Bridge) (spi_handle_pb spi_handle_lcd : Nat) : Bridge :=
  { s with
    DL_SPI_Handle_PB := spi_handle_pb
    DL_SPI_Handle_LCD := spi_handle_lcd
    state := DL_State.Inited }

/-- The C function `DL_TransferCompletedCB`, with its two early returns. -/
def DL_TransferCompletedCB (s : Bridge) (spi_handle : Nat) : Bridge :=
  if spi_handle ≠ s.DL_SPI_Handle_LCD then
    s
  else if s.state ≠ DL_State.Communicating_LCD then
    s
  else
    { s with state := DL_State.Communicated_LCD }

/-- The C function `DL_Soft_Reboot`. -/
def DL_Soft_Reboot (s : Bridge) : Bridge :=
  { s with state := DL_State.Inited }

/-- The C function `DL_Test_Btn`. -/
def DL_Test_Btn (s : Bridge) : Bridge :=
  DL_Soft_Reboot s

/-- Modelled from the spec: `HAL_SPI_TransmitReceive_DMA` is the raw exchange
primitive of the host. The call is logged and its status is `hal k` for the
`k`-th call. A successful exchange on the handle bound as LCD is only armed
(the LCD clocks it, `_DL_DMA_wait` sees it complete); on any other handle the
bridge is the clock master and the bytes of the PB are in place at once. -/
def HAL_SPI_TransmitReceive_DMA {R : Type} (E : Env R) (s : Bridge) (w : World)
    (hspi : Nat) (pTxData pRxData : Ptr) (Size : Nat) :
    HAL_StatusTypeDef × Bridge × World :=
  let n := Size % 65536
  let w1 : World :=
    { w with
      calls := w.calls + 1
      trace := w.trace ++ [Event.xfer hspi (s.load pTxData n) pRxData n] }
  match E.hal w.calls with
  | .HAL_OK =>
    if hspi = s.DL_SPI_Handle_LCD then
      (.HAL_OK, s, { w1 with armed := some (pRxData, n) })
    else
      (.HAL_OK,
        s.store pRxData ((List.range n).map (fun i => E.pbByte (w.pbPos + i))),
        { w1 with pbPos := w.pbPos + n })
  | st => (st, s, w1)

/-- The C function `_DL_DMA_wait`: spin until the peripheral is ready. On the
LCD bus the armed transfer completes once the LCD has clocked all its bytes
(never, if the LCD sends too few); when `irq` is set the host then delivers the
completion signal. A bus the bridge clocks itself is ready at once. -/
def _DL_DMA_wait (irq : Bool) (s : Bridge) (w : World) (spi_handle : Nat) :
    Outcome (Bridge × World) :=
  if spi_handle = s.DL_SPI_Handle_LCD then
    match w.armed with
    | none => .ret (s, w)
    | some (p, len) =>
      if w.lcdIn.length < len then
        .blocked
      else
        let s1 := s.store p (w.lcdIn.take len)
        let w1 : World := { w with lcdIn := w.lcdIn.drop len, armed := none }
        .ret (if irq then DL_TransferCompletedCB s1 spi_handle else s1, w1)
  else
    .ret (s, w)

/-- The `for` loop of the `PB` case of `_DL_DMA_Transfer`; the first argument
is the number of turns left (`size - i`), `status` the local of that name. -/
def _DL_DMA_Transfer_PB_loop {R : Type} (E : Env R) (spi_handle : Nat)
    (pTxData pRxData : Ptr) :
    Nat → Nat → HAL_StatusTypeDef → Bridge → World →
      HAL_StatusTypeDef × Bridge × World
  | 0, _, status, s, w => (status, s, w)
  | left + 1, i, _, s, w =>
    match HAL_SPI_TransmitReceive_DMA E s w spi_handle
        (pTxData.add i) (pRxData.add i) 1 with
    | (status, s1, w1) =>
      if status ≠ .HAL_OK then
        (status, s1, w1)
      else
        _DL_DMA_Transfer_PB_loop E spi_handle pTxData pRxData left (i + 1)
          status s1 (HAL_Delay w1 1)

/-- The `LCD` case of `_DL_DMA_Transfer`. -/
def _DL_DMA_Transfer_LCD {R : Type} (E : Env R) (s : Bridge) (w : World)
    (spi_handle : Nat) (pTxData pRxData : Ptr) (size : Nat) :
    HAL_StatusTypeDef × Bridge × World :=
  HAL_SPI_TransmitReceive_DMA E s w spi_handle pTxData pRxData size

/-- The `PB` case of `_DL_DMA_Transfer`. -/
def _DL_DMA_Transfer_PB {R : Type} (E : Env R) (s : Bridge) (w : World)
    (spi_handle : Nat) (pTxData pRxData : Ptr) (size : Nat) :
    HAL_StatusTypeDef × Bridge × World :=
  _DL_DMA_Transfer_PB_loop E spi_handle pTxData pRxData size 0 E.uninit s w

/-- The C function `_DL_DMA_Transfer` (`size` is a `uint16_t`). The `Sync_Rest`
case calls the function again with mode `LCD` or `PB`. -/
def _DL_DMA_Transfer {R : Type} (E : Env R) (s : Bridge) (w : World)
    (spi_handle : Nat) (pTxData pRxData : Ptr) (size : Nat)
    (mode : DL_DMA_MODE) : HAL_StatusTypeDef × Bridge × World :=
  let size := size % 65536
  match mode with
  | .Sync_First =>
    HAL_SPI_TransmitReceive_DMA E s w spi_handle pTxData pRxData 1
  | .Sync_Rest =>
    if spi_handle = s.DL_SPI_Handle_LCD then
      _DL_DMA_Transfer_LCD E s w spi_handle pTxData pRxData size
    else
      _DL_DMA_Transfer_PB E s w spi_handle pTxData pRxData size
  | .LCD => _DL_DMA_Transfer_LCD E s w spi_handle pTxData pRxData size
  | .PB => _DL_DMA_Transfer_PB E s w spi_handle pTxData pRxData size

/-- The `while (1)` loop of `_DL_Sync_LCD`. The first argument bounds the
number of turns; every turn that does not leave the loop takes at least one
byte off the LCD stream, so a bound above the length of the stream is never
used up (`_DL_Sync_LCD_loop_fuel`). -/
def _DL_Sync_LCD_loop {R : Type} (E : Env R) (irq : Bool) :
    Nat → Bridge → World → Outcome (Bridge × World)
  | 0, _, _ => .blocked
  | fuel + 1, s, w =>
    match HAL_SPI_TransmitReceive_DMA E s w s.DL_SPI_Handle_LCD
        ⟨.Sync, 0⟩ ⟨.RxLCD, 0⟩ 1 with
    | (st, s1, w1) =>
      if st ≠ .HAL_OK then
        DL_Error_Handler
      else
        match _DL_DMA_wait irq s1 w1 s1.DL_SPI_Handle_LCD with
        | .ret (s2, w2) =>
          if s2.DL_RxBuffer_LCD.getD 0 0 = E.DL_PACKET_LCD_START then
            match HAL_SPI_TransmitReceive_DMA E s2 w2 s2.DL_SPI_Handle_LCD
                ⟨.Sync, 0⟩ ⟨.RxLCD, 1⟩ (u16 ((E.DL_PACKETSIZE : Int) - 1)) with
            | (st3, s3, w3) =>
              if st3 ≠ .HAL_OK then
                DL_Error_Handler
              else
                match _DL_DMA_wait irq s3 w3 s3.DL_SPI_Handle_LCD with
                | .ret (s4, w4) =>
                  if E.checksumOK s4.DL_RxBuffer_LCD then
                    .ret (s4, w4)
                  else
                    _DL_Sync_LCD_loop E irq fuel s4 w4
                | .fatal => .fatal
                | .blocked => .blocked
                | .halted => .halted
          else
            _DL_Sync_LCD_loop E irq fuel s2 w2
        | .fatal => .fatal
        | .blocked => .blocked
        | .halted => .halted

/-- The C function `_DL_Sync_LCD`. -/
def _DL_Sync_LCD {R : Type} (E : Env R) (irq : Bool) (s : Bridge) (w : World) :
    Outcome (Bridge × World) :=
  match _DL_Sync_LCD_loop E irq (w.lcdIn.length + 1)
      { s with state := DL_State.Syncing_LCD } w with
  | .ret (s1, w1) => .ret ({ s1 with state := DL_State.Synced_LCD }, w1)
  | .fatal => .fatal
  | .blocked => .blocked
  | .halted => .halted

/-- The `while (1)` loop of `_DL_Sync_PB`; `cnt` is the `uint8_t` local. The
first argument bounds the number of turns: `cnt` starts at `0`, goes up by one
per turn and the loop is left once it has reached `100`, so `101` turns are
never exceeded. -/
def _DL_Sync_PB_loop {R : Type} (E : Env R) (irq : Bool) :
    Nat → Nat → Bridge → World → Outcome (SyncPB_Exit × Bridge × World)
  | 0, _, _, _ => .blocked
  | fuel + 1, cnt, s, w =>
    match _DL_DMA_Transfer E s w s.DL_SPI_Handle_PB
        ⟨.Sync, 0⟩ ⟨.RxPB, 0⟩ 1 .Sync_First with
    | (st, s1, w1) =>
      if st ≠ .HAL_OK then
        DL_Error_Handler
      else
        match _DL_DMA_wait irq s1 w1 s1.DL_SPI_Handle_PB with
        | .ret (s2, w2) =>
          if s2.DL_RxBuffer_PB.getD 0 0 = E.DL_PACKET_PB_START then
            .ret (.found, s2, w2)
          else
            let w3 := HAL_Delay w2 1
            if cnt ≥ 100 then
              .ret (.gaveUp, s2, w3)
            else
              _DL_Sync_PB_loop E irq fuel ((cnt + 1) % 256) s2 w3
        | .fatal => .fatal
        | .blocked => .blocked
        | .halted => .halted

/-- The C function `_DL_Sync_PB`; the first component of the result tells
through which exit the function returned. -/
def _DL_Sync_PB {R : Type} (E : Env R) (irq : Bool) (s : Bridge) (w : World) :
    Outcome (SyncPB_Exit × Bridge × World) :=
  _DL_Sync_PB_loop E irq 101 0 s w

/-- The C function `_DL_Debug_LCD`; its body exists only in a build with
`DELONGHI_DEBUG == 1`. -/
def _DL_Debug_LCD {R : Type} (E : Env R) (s : Bridge) : Bridge :=
  if E.DELONGHI_DEBUG then
    let btn := s.DL_RxBuffer_LCD.getD 1 0
    let bump : Nat → Bridge := fun i =>
      { s with
        DL_TxBuffer_LCD :=
          s.DL_TxBuffer_LCD.set i ((s.DL_TxBuffer_LCD.getD i 0 + 1) % 256) }
    let r : Bridge × Bool :=
      if btn = E.DL_LCD_BTN_PWR then
        ({ s with
           DL_TxBuffer_LCD :=
             (List.range (E.DL_PACKETSIZE - 2)).foldl
               (fun b k => b.set (k + 1) 0) s.DL_TxBuffer_LCD }, true)
      else if s.lastBtn ≠ 0 ∧
          (btn = E.DL_LCD_BTN_P
            ∨ btn = E.DL_LCD_BTN_FLUSH_WATER
            ∨ btn = E.DL_LCD_BTN_HOT_WATER
            ∨ btn = E.DL_LCD_BTN_OK
            ∨ btn = E.DL_LCD_BTN_ONE_SMALL_COFFEE
            ∨ btn = E.DL_LCD_BTN_TWO_SMALL_COFFEES
            ∨ s.DL_RxBuffer_LCD.getD 2 0 = E.DL_LCD_BTN_ONE_BIG_COFFEE) then
        ({ s with lastBtn := if s.lastBtn ≥ 10 then 0 else s.lastBtn + 1 }, false)
      else if btn = E.DL_LCD_BTN_P then (bump 1, true)
      else if btn = E.DL_LCD_BTN_FLUSH_WATER then (bump 2, true)
      else if btn = E.DL_LCD_BTN_HOT_WATER then (bump 3, true)
      else if btn = E.DL_LCD_BTN_OK then (bump 4, true)
      else if btn = E.DL_LCD_BTN_ONE_SMALL_COFFEE then (bump 5, true)
      else if btn = E.DL_LCD_BTN_TWO_SMALL_COFFEES then (bump 6, true)
      else if s.DL_RxBuffer_LCD.getD 2 0 = E.DL_LCD_BTN_ONE_BIG_COFFEE then
        (bump 7, true)
      else ({ s with lastBtn := 0 }, false)
    if r.2 then
      { r.1 with
        DL_TxBuffer_LCD := r.1.DL_TxBuffer_LCD.set 8 (E.checksum r.1.DL_TxBuffer_LCD)
        lastBtn := 1 }
    else
      r.1
  else
    s

/-- The statements of `DL_Start` ahead of its loop: the checksum byte of each
of the four buffers is regenerated and `pkgcount` starts at `0`. -/
def DL_Start_init {R : Type} (E : Env R) (s : Bridge) : Bridge :=
  let s1 := { s with DL_TxBuffer_PB :=
    s.DL_TxBuffer_PB.set (E.DL_PACKETSIZE - 1) (E.checksum s.DL_TxBuffer_PB) }
  let s2 := { s1 with DL_TxBuffer_LCD :=
    s1.DL_TxBuffer_LCD.set (E.DL_PACKETSIZE - 1) (E.checksum s1.DL_TxBuffer_LCD) }
  let s3 := { s2 with DL_RxBuffer_PB :=
    s2.DL_RxBuffer_PB.set (E.DL_PACKETSIZE - 1) (E.checksum s2.DL_RxBuffer_PB) }
  let s4 := { s3 with DL_RxBuffer_LCD :=
    s3.DL_RxBuffer_LCD.set (E.DL_PACKETSIZE - 1) (E.checksum s3.DL_RxBuffer_LCD) }
  { s4 with pkgcount := 0 }

/-- One turn of the `while (1)` loop of `DL_Start`: the `switch` on `state`.
`irq` tells whether the host delivers the completion signal of an LCD transfer
that completes during this turn. -/
def DL_Start_iter {R : Type} (E : Env R) (irq : Bool) (s : Bridge) (w : World) :
    Outcome (Bridge × World) :=
  match s.state with
  | .Inited => .ret ({ s with state := .Syncing_PB }, w)
  | .Syncing_PB =>
    match _DL_Sync_PB E irq s w with
    | .ret (_, s1, w1) => .ret ({ s1 with state := .Synced_PB }, w1)
    | .fatal => .fatal
    | .blocked => .blocked
    | .halted => .halted
  | .Synced_PB => .ret ({ s with state := .Syncing_LCD }, w)
  | .Syncing_LCD =>
    match _DL_Sync_LCD E irq s w with
    | .ret (s1, w1) => .ret ({ s1 with state := .Synced_LCD }, w1)
    | .fatal => .fatal
    | .blocked => .blocked
    | .halted => .halted
  | .Synced_LCD => .ret ({ s with state := .Communicate_LCD }, w)
  | .Idle => .ret ({ s with state := .Communicate_LCD }, w)
  | .Communicate_LCD =>
    let s1 := { s with state := .Communicating_LCD }
    let s2 := { s1 with
      DL_RxBuffer_LCD := cpyPacket E.DL_PACKETSIZE s1.DL_Buffer_Sync s1.DL_RxBuffer_LCD }
    match HAL_SPI_TransmitReceive_DMA E s2 w s2.DL_SPI_Handle_LCD
        ⟨.TxLCD, 0⟩ ⟨.RxLCD, 0⟩ E.DL_PACKETSIZE with
    | (st, s3, w3) =>
      if st ≠ .HAL_OK then
        DL_Error_Handler
      else
        let s4 := { s3 with pkgcount := s3.pkgcount + 1 }
        _DL_DMA_wait irq s4 w3 s4.DL_SPI_Handle_LCD
  | .Communicating_LCD => .ret (s, w)
  | .Communicated_LCD =>
    let s1 :=
      if !E.checksumOK s.DL_RxBuffer_LCD then
        { s with DL_ChkCnt_LCD := (s.DL_ChkCnt_LCD + 1) % 256 }
      else if false then
        _DL_Debug_LCD E s
      else if true then
        let s0 := { s with
          DL_TxBuffer_PB := cpyPacket E.DL_PACKETSIZE s.DL_RxBuffer_LCD s.DL_TxBuffer_PB }
        { s0 with
          DL_TxBuffer_PB := E.DLO_apply_overwrites s0.DL_TxBuffer_PB E.DLO_Buffer_PB }
      else
        s
    .ret ({ s1 with state := .Communicate_PB }, w)
  | .Communicate_PB =>
    let s1 := { s with
      DL_RxBuffer_PB := cpyPacket E.DL_PACKETSIZE s.DL_Buffer_Sync s.DL_RxBuffer_PB }
    match _DL_DMA_Transfer E s1 w s1.DL_SPI_Handle_PB
        ⟨.TxPB, 0⟩ ⟨.RxPB, 0⟩ E.DL_PACKETSIZE .PB with
    | (st, s2, w2) =>
      if st ≠ .HAL_OK then
        DL_Error_Handler
      else
        .ret ({ s2 with state := .Communicated_PB }, w2)
  | .Communicating_PB => .ret (s, w)
  | .Communicated_PB =>
    let s1 :=
      if !E.checksumOK s.DL_RxBuffer_PB then
        { s with DL_ChkCnt_PB := (s.DL_ChkCnt_PB + 1) % 256 }
      else
        let s0 := { s with
          DL_TxBuffer_LCD := cpyPacket E.DL_PACKETSIZE s.DL_RxBuffer_PB s.DL_TxBuffer_LCD }
        { s0 with
          DL_TxBuffer_LCD := E.DLO_apply_overwrites s0.DL_TxBuffer_LCD E.DLO_Buffer_LCD }
    .ret ({ s1 with state := .Idle }, w)
  | .DBG_Halt => .halted
  | .Unknown => .halted

/-- The globals as the C file initialises them, for a frame of `N` bytes. -/
def Bridge.boot (N : Nat) : Bridge where
  DL_Buffer_Sync := [0x00, 0x00, 0x00, 0x00, 0x00, 0x00, 0x00, 0x00, 0x00, 0x00, 0x00]
  DL_TxBuffer_PB := [0xB0, 0x00, 0x80, 0x0A, 0x13, 0x03, 0x27, 0xF0, 0x75, 0x00, 0x31]
  DL_TxBuffer_LCD := [0x0B, 0x00, 0x00, 0x00, 0xD3, 0x00, 0x48, 0x07, 0x00, 0x00, 0xFF]
  DL_RxBuffer_PB := List.replicate N 0
  DL_RxBuffer_LCD := List.replicate N 0
  DL_ChkCnt_PB := 0
  DL_ChkCnt_LCD := 0
  debug_enabled := 0
  state := DL_State.Unknown
  DL_SPI_Handle_PB := 0
  DL_SPI_Handle_LCD := 0
  lastBtn := 0
  pkgcount := 0

/-! ## The `Communicate_LCD` case, statement by statement -/

/-- The statements of the `Communicate_LCD` case ahead of the exchange: the
state is set, then the LCD Rx buffer is overwritten with the sync buffer. -/
def Communicate_LCD_prologue {R : Type} (E : Env R) (s : Bridge) : Bridge :=
  let s1 := { s with state := DL_State.Communicating_LCD }
  { s1 with
    DL_RxBuffer_LCD := cpyPacket E.DL_PACKETSIZE s1.DL_Buffer_Sync s1.DL_RxBuffer_LCD }

/-- The five statements of the `Communicate_LCD` case of `DL_Start`:
`state = Communicating_LCD;`, `cpyPacket(DL_Buffer_Sync, DL_RxBuffer_LCD);`,
the `if` that issues the exchange of the LCD Tx buffer and escalates when the
host refuses it, `pkgcount++;` and `_DL_DMA_wait(DL_SPI_Handle_LCD);`. -/
inductive CaseStmt
  | setState
  | cpySync
  | issue
  | count
  | wait
  deriving DecidableEq

/-- What one statement of the `Communicate_LCD` case does; `irq` tells whether
the host delivers the completion signal of a transfer that completes while
`_DL_DMA_wait` spins. -/
def CaseStmt.exec {R : Type} (E : Env R) (irq : Bool) :
    CaseStmt → Bridge → World → Outcome (Bridge × World)
  | .setState, s, w => .ret ({ s with state := DL_State.Communicating_LCD }, w)
  | .cpySync, s, w =>
    .ret ({ s with
      DL_RxBuffer_LCD := cpyPacket E.DL_PACKETSIZE s.DL_Buffer_Sync s.DL_RxBuffer_LCD }, w)
  | .issue, s, w =>
    match HAL_SPI_TransmitReceive_DMA E s w s.DL_SPI_Handle_LCD
        ⟨.TxLCD, 0⟩ ⟨.RxLCD, 0⟩ E.DL_PACKETSIZE with
    | (st, s3, w3) =>
      if st ≠ .HAL_OK then
        DL_Error_Handler
      else
        .ret (s3, w3)
  | .count, s, w => .ret ({ s with pkgcount := s.pkgcount + 1 }, w)
  | .wait, s, w => _DL_DMA_wait irq s w s.DL_SPI_Handle_LCD

/-- The statements of the `Communicate_LCD` case in the order of the source. -/
def Communicate_LCD_stmts : List CaseStmt :=
  [.setState, .cpySync, .issue, .count, .wait]

/-- Statements one after the other; a statement that does not return ends the
sequence with its outcome. -/
def execStmts {R : Type} (E : Env R) (irq : Bool) :
    List CaseStmt → Bridge → World → Outcome (Bridge × World)
  | [], s, w => .ret (s, w)
  | c :: cs, s, w =>
    match c.exec E irq s w with
    | .ret (s1, w1) => execStmts E irq cs s1 w1
    | .fatal => .fatal
    | .blocked => .blocked
    | .halted => .halted

/-- The statements `pre`, then the completion interrupt of the LCD bus (a call
of `DL_TransferCompletedCB` with the LCD handle), then the statements `post`.
The first component of the result is the value of `state` that the callback
found. -/
def execWithIrq {R : Type} (E : Env R) (pre post : List CaseStmt)
    (s : Bridge) (w : World) : Outcome (DL_State × Bridge × World) :=
  match execStmts E false pre s w with
  | .ret (s1, w1) =>
    match execStmts E false post (DL_TransferCompletedCB s1 s1.DL_SPI_Handle_LCD) w1 with
    | .ret (s2, w2) => .ret (s1.state, s2, w2)
    | .fatal => .fatal
    | .blocked => .blocked
    | .halted => .halted
  | .fatal => .fatal
  | .blocked => .blocked
  | .halted => .halted

/-- The bridge at the end of a `Communicate_LCD` case in which the exchange was
accepted and the LCD clocked its bytes `rx`: the state is `st`, the LCD Rx
buffer holds `rx` over the copy of the sync buffer, `pkgcount` is one up. -/
def Communicate_LCD_done {R : Type} (E : Env R) (s : Bridge) (rx : List Nat)
    (st : DL_State) : Bridge :=
  { s with
    state := st
    DL_RxBuffer_LCD :=
      storeAt (cpyPacket E.DL_PACKETSIZE s.DL_Buffer_Sync s.DL_RxBuffer_LCD) 0 rx
    pkgcount := s.pkgcount + 1 }

/-- The log entry of the exchange of the LCD Tx buffer. -/
def burstEvent {R : Type} (E : Env R) (s : Bridge) : Event :=
  Event.xfer s.DL_SPI_Handle_LCD (s.DL_TxBuffer_LCD.take (E.DL_PACKETSIZE % 65536))
    ⟨BufId.RxLCD, 0⟩ (E.DL_PACKETSIZE % 65536)

/-! ## Runs of the bridge -/

/-- The operations that act on the bridge: one turn of the main loop of
`DL_Start`, the completion callback, the soft reset, `DL_Init` and
`DL_Set_Debug`. -/
inductive Op
  | iter (irq : Bool)
  | cb (spi_handle : Nat)
  | reboot
  | init (spi_handle_pb spi_handle_lcd : Nat)
  | setDebug (v : Int)
  deriving DecidableEq

/-- The operations of the main path: turns of the main loop and completion
callbacks. -/
def Op.isMain : Op → Bool
  | .iter _ => true
  | .cb _ => true
  | _ => false

/-- The effect of one operation. -/
def Op.apply {R : Type} (E : Env R) : Op → Bridge → World → Outcome (Bridge × World)
  | .iter irq, s, w => DL_Start_iter E irq s w
  | .cb h, s, w => .ret (DL_TransferCompletedCB s h, w)
  | .reboot, s, w => .ret (DL_Soft_Reboot s, w)
  | .init a b, s, w => .ret (DL_Init s a b, w)
  | .setDebug v, s, w => .ret (DL_Set_Debug s v, w)

/-- A finite sequence of operations, one after the other; an operation that
does not return ends the run with its outcome. -/
def run {R : Type} (E : Env R) : List Op → Bridge → World → Outcome (Bridge × World)
  | [], s, w => .ret (s, w)
  | op :: ops, s, w =>
    match op.apply E s w with
    | .ret (s1, w1) => run E ops s1 w1
    | .fatal => .fatal
    | .blocked => .blocked
    | .halted => .halted

/-! ## Frame conditions -/

/-- The variables that no exchange and no callback writes: `s1` has the sync
buffer, both Tx buffers, both error counters, the debug flag, both handles and
`lastBtn` of `s`. -/
def sameCore (s s1 : Bridge) : Prop :=
  s1.DL_Buffer_Sync = s.DL_Buffer_Sync ∧
  s1.DL_TxBuffer_PB = s.DL_TxBuffer_PB ∧
  s1.DL_TxBuffer_LCD = s.DL_TxBuffer_LCD ∧
  s1.DL_ChkCnt_PB = s.DL_ChkCnt_PB ∧
  s1.DL_ChkCnt_LCD = s.DL_ChkCnt_LCD ∧
  s1.debug_enabled = s.debug_enabled ∧
  s1.DL_SPI_Handle_PB = s.DL_SPI_Handle_PB ∧
  s1.DL_SPI_Handle_LCD = s.DL_SPI_Handle_LCD ∧
  s1.lastBtn = s.lastBtn

/-- The sync buffer and both Rx buffers hold at least a frame. -/
def Bridge.sized {R : Type} (E : Env R) (s : Bridge) : Prop :=
  E.DL_PACKETSIZE ≤ s.DL_Buffer_Sync.length ∧
  E.DL_PACKETSIZE ≤ s.DL_RxBuffer_PB.length ∧
  E.DL_PACKETSIZE ≤ s.DL_RxBuffer_LCD.length

/-- From `s` to `s1` only the Rx buffers, the state and `pkgcount` may have
changed, and the Rx buffers still hold a frame if they did. -/
def RxOnly {R : Type} (E : Env R) (s s1 : Bridge) : Prop :=
  sameCore s s1 ∧ (s.sized E → s1.sized E)

/-- The states of the normal cycle: every state but `Unknown`, `DBG_Halt` and
the unused `Communicating_PB`. -/
def DL_State.normal : DL_State → Bool
  | .Unknown => false
  | .DBG_Halt => false
  | .Communicating_PB => false
  | _ => true

/-! ## Outcomes under a change of the bridge -/

/-- Apply `f` to what a call returns. -/
def Outcome.map {α β : Type} (f : α → β) : Outcome α → Outcome β
  | .ret a => .ret (f a)
  | .fatal => .fatal
  | .blocked => .blocked
  | .halted => .halted

/-- Set the debug flag in the bridge that a call returns. -/
def withDebug (d : Int) (r : Bridge × World) : Bridge × World :=
  (DL_Set_Debug r.1 d, r.2)

/-- Set the debug flag in the bridge that a transfer returns. -/
def withDebugT (d : Int) (r : HAL_StatusTypeDef × Bridge × World) :
    HAL_StatusTypeDef × Bridge × World :=
  (r.1, DL_Set_Debug r.2.1 d, r.2.2)

/-- Set the debug flag in the bridge that `_DL_Sync_PB` returns. -/
def withDebugX (d : Int) (r : SyncPB_Exit × Bridge × World) :
    SyncPB_Exit × Bridge × World :=
  (r.1, DL_Set_Debug r.2.1 d, r.2.2)

/-- Both Tx buffers pass the checksum and the Rx and sync buffers hold a
frame. -/
def Bridge.txValid {R : Type} (E : Env R) (s : Bridge) : Prop :=
  E.checksumOK s.DL_TxBuffer_PB = true ∧ E.checksumOK s.DL_TxBuffer_LCD = true ∧ s.sized E

/-! ## Log entry of the PB scan -/

/-- The log entry of the one-byte probe of `_DL_Sync_PB`. -/
def probeEventPB (s : Bridge) : Event :=
  Event.xfer s.DL_SPI_Handle_PB (s.DL_Buffer_Sync.take 1) ⟨BufId.RxPB, 0⟩ 1

/-- The log of a scan of `_DL_Sync_PB` that makes `k + 1` probes, each logged as
`p`: every probe that misses is followed by the delay of one millisecond, and
the last probe is a miss exactly when the scan gives up. -/
def scanLogPB (p : Event) : Nat → SyncPB_Exit → List Event
  | 0, .found => [p]
  | 0, .gaveUp => [p, Event.delay 1]
  | k + 1, e => p :: Event.delay 1 :: scanLogPB p k e

/-! ## Log entries of the LCD scan -/

/-- The log entry of the one-byte probe of `_DL_Sync_LCD`. -/
def probeEvent (s : Bridge) : Event :=
  Event.xfer s.DL_SPI_Handle_LCD (s.DL_Buffer_Sync.take 1) ⟨BufId.RxLCD, 0⟩ 1

/-- The log entry of the exchange of the rest of a frame in `_DL_Sync_LCD`. -/
def restEvent (s : Bridge) (n : Nat) : Event :=
  Event.xfer s.DL_SPI_Handle_LCD (s.DL_Buffer_Sync.take n) ⟨BufId.RxLCD, 1⟩ n

/-! ## A concrete environment, used to instantiate the theorems -/

/-- An example environment: frames of 11 bytes, LCD frames led by `0xB0` and PB
frames by `0x0B`, a checksum byte that is the sum of the bytes before it plus
`0x55`, an overwrite hook that adds its ruleset (a number) to byte 1, every
exchange successful and a PB that answers `pb k` to the `k`-th byte. -/
def exampleEnv (pb : Nat → Nat) : Env Nat where
  DL_PACKETSIZE := 11
  DL_PACKET_LCD_START := 0xB0
  DL_PACKET_PB_START := 0x0B
  checksum := fun f => ((f.take 10).sum + 0x55) % 256
  checksumOK := fun f => f.getD 10 0 == ((f.take 10).sum + 0x55) % 256
  DLO_apply_overwrites := fun f r => f.set 1 ((f.getD 1 0 + r) % 256)
  DLO_Buffer_LCD := 0
  DLO_Buffer_PB := 1
  DL_LCD_BTN_PWR := 1
  DL_LCD_BTN_P := 2
  DL_LCD_BTN_FLUSH_WATER := 4
  DL_LCD_BTN_HOT_WATER := 8
  DL_LCD_BTN_OK := 16
  DL_LCD_BTN_ONE_SMALL_COFFEE := 32
  DL_LCD_BTN_TWO_SMALL_COFFEES := 64
  DL_LCD_BTN_ONE_BIG_COFFEE := 128
  DELONGHI_DEBUG := false
  hal := fun _ => HAL_StatusTypeDef.HAL_OK
  pbByte := pb
  uninit := HAL_StatusTypeDef.HAL_ERROR

/-- The bridge after `DL_Init` with the PB peripheral at address `1` and the
LCD peripheral at address `2`. -/
def exampleBridge : Bridge := DL_Init (Bridge.boot 11) 1 2

/-- A world in which the LCD is about to clock in `lcd`. -/
def exampleWorld (lcd : List Nat) : World where
  lcdIn := lcd
  pbPos := 0
  calls := 0
  armed := none
  trace := []

/-- A checksum-valid LCD frame of the example environment. -/
def goodLCD : List Nat :=
  [0xB0, 0x00, 0x80, 0x0A, 0x13, 0x03, 0x27, 0xF0, 0x75, 0x00, 0x31]

/-- A marker-led LCD frame with a wrong checksum byte. -/
def badLCD : List Nat :=
  [0xB0, 0x00, 0x80, 0x0A, 0x13, 0x03, 0x27, 0xF0, 0x75, 0x00, 0x32]

/-- A checksum-valid PB frame of the example environment. -/
def goodPB : List Nat :=
  [0x0B, 0x07, 0x00, 0x28, 0x0F, 0x20, 0x04, 0x00, 0xC2, 0x00, 0x84]

/-- The example environment with the raw exchange number `k` (counted from 0)
failing with `HAL_ERROR`. -/
def exampleEnvFailAt (k : Nat) (pb : Nat → Nat) : Env Nat :=
  { exampleEnv pb with
    hal := fun i => if i = k then HAL_StatusTypeDef.HAL_ERROR else HAL_StatusTypeDef.HAL_OK }

/-- The example environment with an overwrite hook that leaves the frame as it
is (an empty ruleset). -/
def exampleEnvId (pb : Nat → Nat) : Env Nat :=
  { exampleEnv pb with DLO_apply_overwrites := fun f _ => f }

/-! ## Helper lemmas -/

theorem cpyPacket_exact (N : Nat) (src dst : List Nat)
    (hsrc : src.length = N) (hdst : dst.length = N) :
    cpyPacket N src dst = src := by
  unfold cpyPacket
  rw [List.take_of_length_le (le_of_eq hsrc), List.drop_of_length_le (le_of_eq hdst)]
  simp

/-! ### Memory and signal lemmas -/

theorem storeAt_zero_one (buf : List Nat) (b : Nat) :
    storeAt buf 0 [b] = b :: buf.drop 1 := by
  simp [storeAt]

theorem storeAt_cons_one (b : Nat) (t bytes : List Nat) :
    storeAt (b :: t) 1 bytes = b :: (bytes ++ t.drop bytes.length) := by
  simp [storeAt, Nat.add_comm]

theorem store_RxLCD (s : Bridge) (off : Nat) (bytes : List Nat) :
    s.store ⟨BufId.RxLCD, off⟩ bytes =
      { s with DL_RxBuffer_LCD := storeAt s.DL_RxBuffer_LCD off bytes } := rfl

theorem store_RxPB (s : Bridge) (off : Nat) (bytes : List Nat) :
    s.store ⟨BufId.RxPB, off⟩ bytes =
      { s with DL_RxBuffer_PB := storeAt s.DL_RxBuffer_PB off bytes } := rfl

theorem CB_of_state_ne (s : Bridge) (h : Nat)
    (hs : s.state ≠ DL_State.Communicating_LCD) :
    DL_TransferCompletedCB s h = s := by
  unfold DL_TransferCompletedCB
  split
  · rfl
  · simp [hs]

theorem u16_lt (x : Int) : u16 x < 65536 := by
  unfold u16
  have h1 : x % 65536 < 65536 := Int.emod_lt_of_pos x (by norm_num)
  have h0 : 0 ≤ x % 65536 := Int.emod_nonneg x (by norm_num)
  omega

theorem u16_pred (N : Nat) (h1 : 1 ≤ N) (h2 : N ≤ 65536) :
    u16 ((N : Int) - 1) = N - 1 := by
  unfold u16
  have : ((N : Int) - 1) % 65536 = (N : Int) - 1 :=
    Int.emod_eq_of_lt (by omega) (by omega)
  rw [this]
  omega

/-! ### One turn of the LCD scan -/

/-- With every exchange successful, a turn of the scan on an empty LCD stream
waits for ever. -/
theorem sync_LCD_turn_nil {R : Type} (E : Env R) (irq : Bool)
    (hOK : ∀ k, E.hal k = HAL_StatusTypeDef.HAL_OK)
    (fuel : Nat) (s : Bridge) (w : World) (hin : w.lcdIn = []) :
    _DL_Sync_LCD_loop E irq (fuel + 1) s w = Outcome.blocked := by
  simp [_DL_Sync_LCD_loop, HAL_SPI_TransmitReceive_DMA, hOK, _DL_DMA_wait, hin]

/-- With every exchange successful, a turn of the scan that reads a byte other
than the LCD marker stores it in byte 0 and goes round again. -/
theorem sync_LCD_turn_noise {R : Type} (E : Env R) (irq : Bool)
    (hOK : ∀ k, E.hal k = HAL_StatusTypeDef.HAL_OK)
    (fuel : Nat) (s : Bridge) (w : World) (b : Nat) (rest : List Nat)
    (hst : s.state = DL_State.Syncing_LCD)
    (hin : w.lcdIn = b :: rest) (hb : b ≠ E.DL_PACKET_LCD_START) :
    _DL_Sync_LCD_loop E irq (fuel + 1) s w =
      _DL_Sync_LCD_loop E irq fuel
        { s with DL_RxBuffer_LCD := b :: s.DL_RxBuffer_LCD.drop 1 }
        { w with
          lcdIn := rest
          calls := w.calls + 1
          armed := none
          trace := w.trace ++ [probeEvent s] } := by
  have hne : s.state ≠ DL_State.Communicating_LCD := by rw [hst]; decide
  simp [_DL_Sync_LCD_loop, HAL_SPI_TransmitReceive_DMA, hOK, _DL_DMA_wait, hin,
    store_RxLCD, storeAt_zero_one, CB_of_state_ne, hne, hb, probeEvent, Bridge.load, Bridge.buf]

/-- With every exchange successful, a turn of the scan that reads the LCD
marker but finds fewer than `DL_PACKETSIZE - 1` further bytes waits for ever. -/
theorem sync_LCD_turn_short {R : Type} (E : Env R) (irq : Bool)
    (hOK : ∀ k, E.hal k = HAL_StatusTypeDef.HAL_OK)
    (fuel : Nat) (s : Bridge) (w : World) (rest : List Nat)
    (hst : s.state = DL_State.Syncing_LCD)
    (hin : w.lcdIn = E.DL_PACKET_LCD_START :: rest)
    (hlen : rest.length < u16 ((E.DL_PACKETSIZE : Int) - 1)) :
    _DL_Sync_LCD_loop E irq (fuel + 1) s w = Outcome.blocked := by
  have hne : s.state ≠ DL_State.Communicating_LCD := by rw [hst]; decide
  have hn : u16 ((E.DL_PACKETSIZE : Int) - 1) % 65536 = u16 ((E.DL_PACKETSIZE : Int) - 1) :=
    Nat.mod_eq_of_lt (u16_lt _)
  simp [_DL_Sync_LCD_loop, HAL_SPI_TransmitReceive_DMA, hOK, _DL_DMA_wait, hin,
    store_RxLCD, storeAt_zero_one, CB_of_state_ne, hne, hn, hlen]

/-- With every exchange successful, a turn of the scan that reads the LCD
marker and `n = DL_PACKETSIZE - 1` further bytes stores them behind the marker,
and then either leaves the loop (checksum right) or goes round again on what
follows those bytes (checksum wrong). -/
theorem sync_LCD_turn_marker {R : Type} (E : Env R) (irq : Bool)
    (hOK : ∀ k, E.hal k = HAL_StatusTypeDef.HAL_OK)
    (fuel : Nat) (s : Bridge) (w : World) (rest : List Nat) (n : Nat)
    (hst : s.state = DL_State.Syncing_LCD)
    (hin : w.lcdIn = E.DL_PACKET_LCD_START :: rest)
    (hn : u16 ((E.DL_PACKETSIZE : Int) - 1) = n)
    (hlen : n ≤ rest.length) :
    _DL_Sync_LCD_loop E irq (fuel + 1) s w =
      if E.checksumOK (E.DL_PACKET_LCD_START ::
          (rest.take n ++ (s.DL_RxBuffer_LCD.drop 1).drop n)) then
        Outcome.ret
          ({ s with DL_RxBuffer_LCD := E.DL_PACKET_LCD_START ::
               (rest.take n ++ (s.DL_RxBuffer_LCD.drop 1).drop n) },
           { w with
             lcdIn := rest.drop n
             calls := w.calls + 2
             armed := none
             trace := w.trace ++ [probeEvent s, restEvent s n] })
      else
        _DL_Sync_LCD_loop E irq fuel
          { s with DL_RxBuffer_LCD := E.DL_PACKET_LCD_START ::
              (rest.take n ++ (s.DL_RxBuffer_LCD.drop 1).drop n) }
          { w with
            lcdIn := rest.drop n
            calls := w.calls + 2
            armed := none
            trace := w.trace ++ [probeEvent s, restEvent s n] } := by
  have hne : s.state ≠ DL_State.Communicating_LCD := by rw [hst]; decide
  have hn2 : n % 65536 = n := by
    rw [← hn]; exact Nat.mod_eq_of_lt (u16_lt _)
  have hlen2 : ¬ rest.length < n := by omega
  have hmin : min n rest.length = n := by omega
  simp [_DL_Sync_LCD_loop, HAL_SPI_TransmitReceive_DMA, hOK, _DL_DMA_wait, hin,
    store_RxLCD, storeAt_zero_one, storeAt_cons_one, CB_of_state_ne, hne, hn, hn2, hlen2, hmin,
    probeEvent, restEvent, Bridge.load, Bridge.buf]

/-- The bound on the number of turns plays no part once it exceeds the length
of the LCD stream. -/
theorem _DL_Sync_LCD_loop_fuel {R : Type} (E : Env R) (irq : Bool)
    (hOK : ∀ k, E.hal k = HAL_StatusTypeDef.HAL_OK) :
    ∀ (len : Nat) (s : Bridge) (w : World) (f1 f2 : Nat),
      s.state = DL_State.Syncing_LCD → w.lcdIn.length ≤ len →
      w.lcdIn.length < f1 → w.lcdIn.length < f2 →
      _DL_Sync_LCD_loop E irq f1 s w = _DL_Sync_LCD_loop E irq f2 s w := by
  intro len
  induction len with
  | zero =>
    intro s w f1 f2 _ hlen h1 h2
    have hnil : w.lcdIn = [] := List.length_eq_zero.mp (by omega)
    obtain ⟨a, rfl⟩ : ∃ a, f1 = a + 1 := ⟨f1 - 1, by omega⟩
    obtain ⟨b, rfl⟩ : ∃ b, f2 = b + 1 := ⟨f2 - 1, by omega⟩
    rw [sync_LCD_turn_nil E irq hOK a s w hnil, sync_LCD_turn_nil E irq hOK b s w hnil]
  | succ len ih =>
    intro s w f1 f2 hst hlen h1 h2
    obtain ⟨a, rfl⟩ : ∃ a, f1 = a + 1 := ⟨f1 - 1, by omega⟩
    obtain ⟨b, rfl⟩ : ∃ b, f2 = b + 1 := ⟨f2 - 1, by omega⟩
    cases hin : w.lcdIn with
    | nil =>
      rw [sync_LCD_turn_nil E irq hOK a s w hin, sync_LCD_turn_nil E irq hOK b s w hin]
    | cons c rest =>
      rw [hin] at hlen h1 h2
      simp only [List.length_cons] at hlen h1 h2
      by_cases hc : c = E.DL_PACKET_LCD_START
      · subst hc
        by_cases hshort : rest.length < u16 ((E.DL_PACKETSIZE : Int) - 1)
        · rw [sync_LCD_turn_short E irq hOK a s w rest hst hin hshort,
            sync_LCD_turn_short E irq hOK b s w rest hst hin hshort]
        · rw [sync_LCD_turn_marker E irq hOK a s w rest _ hst hin rfl (by omega),
            sync_LCD_turn_marker E irq hOK b s w rest _ hst hin rfl (by omega)]
          split
          · rfl
          · apply ih
            · exact hst
            · simp only [List.length_drop]; omega
            · simp only [List.length_drop]; omega
            · simp only [List.length_drop]; omega
      · rw [sync_LCD_turn_noise E irq hOK a s w c rest hst hin hc,
          sync_LCD_turn_noise E irq hOK b s w c rest hst hin hc]
        apply ih
        · exact hst
        · simp only []; omega
        · simp only []; omega
        · simp only []; omega

/-- The scan on `noise ++ marker :: rest ++ tail`, where `noise` is free of the
marker and `marker :: rest` has the size of a frame: after `|noise| + 1` turns
the candidate is in the LCD Rx buffer and `tail` is still to come; the loop is
left if the candidate passes the checksum and goes on with `tail` if not. -/
theorem _DL_Sync_LCD_loop_candidate {R : Type} (E : Env R) (irq : Bool)
    (hOK : ∀ k, E.hal k = HAL_StatusTypeDef.HAL_OK)
    (hN2 : E.DL_PACKETSIZE ≤ 65536)
    (rest tail : List Nat) (hrest : rest.length + 1 = E.DL_PACKETSIZE) (f : Nat) :
    ∀ (noise : List Nat) (fuel : Nat) (s : Bridge) (w : World),
      s.state = DL_State.Syncing_LCD →
      s.DL_RxBuffer_LCD.length = E.DL_PACKETSIZE →
      w.lcdIn = noise ++ E.DL_PACKET_LCD_START :: rest ++ tail →
      E.DL_PACKET_LCD_START ∉ noise →
      fuel = noise.length + 1 + f →
      _DL_Sync_LCD_loop E irq fuel s w =
        if E.checksumOK (E.DL_PACKET_LCD_START :: rest) then
          Outcome.ret
            ({ s with DL_RxBuffer_LCD := E.DL_PACKET_LCD_START :: rest },
             { w with
               lcdIn := tail
               calls := w.calls + noise.length + 2
               armed := none
               trace := w.trace ++ List.replicate (noise.length + 1) (probeEvent s)
                 ++ [restEvent s (E.DL_PACKETSIZE - 1)] })
        else
          _DL_Sync_LCD_loop E irq f
            { s with DL_RxBuffer_LCD := E.DL_PACKET_LCD_START :: rest }
            { w with
              lcdIn := tail
              calls := w.calls + noise.length + 2
              armed := none
              trace := w.trace ++ List.replicate (noise.length + 1) (probeEvent s)
                ++ [restEvent s (E.DL_PACKETSIZE - 1)] } := by
  intro noise
  induction noise with
  | nil =>
    intro fuel s w hst hrx hin _ hfuel
    have hfuel2 : fuel = f + 1 := by simp at hfuel; omega
    subst hfuel2
    have hn : u16 ((E.DL_PACKETSIZE : Int) - 1) = rest.length := by
      rw [u16_pred _ (by omega) hN2]; omega
    have hin2 : w.lcdIn = E.DL_PACKET_LCD_START :: (rest ++ tail) := by simpa using hin
    rw [sync_LCD_turn_marker E irq hOK f s w (rest ++ tail) rest.length hst hin2 hn (by simp)]
    have hdrop : s.DL_RxBuffer_LCD.drop (rest.length + 1) = [] := by
      apply List.drop_of_length_le
      omega
    have hpred : E.DL_PACKETSIZE - 1 = rest.length := by omega
    simp [hdrop, hpred]
  | cons b noise ih =>
    intro fuel s w hst hrx hin hnot hfuel
    have hfuel2 : fuel = (noise.length + 1 + f) + 1 := by simp at hfuel; omega
    subst hfuel2
    have hb : b ≠ E.DL_PACKET_LCD_START := by
      intro h; apply hnot; simp [h]
    have hnot2 : E.DL_PACKET_LCD_START ∉ noise := by
      intro h; apply hnot; simp [h]
    have hin2 : w.lcdIn = b :: (noise ++ E.DL_PACKET_LCD_START :: rest ++ tail) := by
      simpa using hin
    rw [sync_LCD_turn_noise E irq hOK _ s w b _ hst hin2 hb]
    have hstep := ih (noise.length + 1 + f)
      { s with DL_RxBuffer_LCD := b :: s.DL_RxBuffer_LCD.drop 1 }
      { w with
        lcdIn := noise ++ E.DL_PACKET_LCD_START :: rest ++ tail
        calls := w.calls + 1
        armed := none
        trace := w.trace ++ [probeEvent s] }
      hst (by simp only [List.length_cons, List.length_drop]; omega)
      rfl hnot2 rfl
    simp only [List.append_assoc, List.cons_append] at hstep ⊢
    rw [hstep]
    have hc : w.calls + 1 + noise.length + 2 = w.calls + (noise.length + 1) + 2 := by omega
    simp [probeEvent, restEvent, List.replicate_succ, hc]

/-- Whatever the loop of `_DL_Sync_LCD` returns has the LCD marker in byte 0 and
passes the checksum. -/
theorem _DL_Sync_LCD_loop_valid {R : Type} (E : Env R) (irq : Bool)
    (hOK : ∀ k, E.hal k = HAL_StatusTypeDef.HAL_OK) :
    ∀ (fuel : Nat) (s : Bridge) (w : World) (s1 : Bridge) (w1 : World),
      s.state = DL_State.Syncing_LCD →
      _DL_Sync_LCD_loop E irq fuel s w = Outcome.ret (s1, w1) →
      s1.DL_RxBuffer_LCD.getD 0 0 = E.DL_PACKET_LCD_START ∧
        E.checksumOK s1.DL_RxBuffer_LCD = true := by
  intro fuel
  induction fuel with
  | zero =>
    intro s w s1 w1 _ h
    simp [_DL_Sync_LCD_loop] at h
  | succ fuel ih =>
    intro s w s1 w1 hst h
    cases hin : w.lcdIn with
    | nil =>
      rw [sync_LCD_turn_nil E irq hOK fuel s w hin] at h
      cases h
    | cons c rest =>
      by_cases hc : c = E.DL_PACKET_LCD_START
      · subst hc
        by_cases hshort : rest.length < u16 ((E.DL_PACKETSIZE : Int) - 1)
        · rw [sync_LCD_turn_short E irq hOK fuel s w rest hst hin hshort] at h
          cases h
        · rw [sync_LCD_turn_marker E irq hOK fuel s w rest _ hst hin rfl (by omega)] at h
          split at h
          · next hok =>
            injection h with h
            injection h with hs hw
            subst hs
            exact ⟨by simp, hok⟩
          · exact ih _ _ s1 w1 (by exact hst) h
      · rw [sync_LCD_turn_noise E irq hOK fuel s w c rest hst hin hc] at h
        exact ih _ _ s1 w1 (by exact hst) h

/-! ### The paced exchange -/

theorem store_buf_of_ne (s : Bridge) (p : Ptr) (bytes : List Nat) (b : BufId)
    (hb : b ≠ p.buf) : (s.store p bytes).buf b = s.buf b := by
  obtain ⟨pb, off⟩ := p
  cases b <;> cases pb <;> simp_all [Bridge.store, Bridge.setBuf, Bridge.buf]

theorem load_congr (s t : Bridge) (p : Ptr) (len : Nat)
    (h : t.buf p.buf = s.buf p.buf) : t.load p len = s.load p len := by
  simp [Bridge.load, h]

/-- A successful one-byte exchange: status, log, call count, and the buffers it
leaves alone. -/
theorem HAL_one_byte_ok {R : Type} (E : Env R) (s : Bridge) (w : World) (hspi : Nat)
    (pTx pRx : Ptr) (hok : E.hal w.calls = HAL_StatusTypeDef.HAL_OK) :
    ∃ (s1 : Bridge) (w1 : World),
      HAL_SPI_TransmitReceive_DMA E s w hspi pTx pRx 1 = (HAL_StatusTypeDef.HAL_OK, s1, w1) ∧
      w1.trace = w.trace ++ [Event.xfer hspi (s.load pTx 1) pRx 1] ∧
      w1.calls = w.calls + 1 ∧
      ∀ b, b ≠ pRx.buf → s1.buf b = s.buf b := by
  unfold HAL_SPI_TransmitReceive_DMA
  simp only [hok]
  by_cases hl : hspi = s.DL_SPI_Handle_LCD
  · simp only [hl, if_true]
    exact ⟨_, _, rfl, rfl, rfl, fun _ _ => rfl⟩
  · simp only [hl, if_false]
    exact ⟨_, _, rfl, rfl, rfl, fun b hb => store_buf_of_ne s pRx _ b hb⟩

/-- The paced loop with every exchange successful: `left` one-byte exchanges in
index order, each followed by the delay of 1 ms. -/
theorem _DL_DMA_Transfer_PB_loop_ok {R : Type} (E : Env R) (hspi : Nat) (pTx pRx : Ptr)
    (hOK : ∀ k, E.hal k = HAL_StatusTypeDef.HAL_OK)
    (halias : pTx.buf ≠ pRx.buf) :
    ∀ (left i : Nat) (st : HAL_StatusTypeDef) (s : Bridge) (w : World),
      ∃ (s1 : Bridge) (w1 : World),
        _DL_DMA_Transfer_PB_loop E hspi pTx pRx left i st s w =
          (if left = 0 then st else HAL_StatusTypeDef.HAL_OK, s1, w1) ∧
        w1.trace = w.trace ++ (List.range left).flatMap (fun j =>
          [Event.xfer hspi (s.load (pTx.add (i + j)) 1) (pRx.add (i + j)) 1,
           Event.delay 1]) ∧
        w1.calls = w.calls + left ∧
        s1.buf pTx.buf = s.buf pTx.buf := by
  intro left
  induction left with
  | zero =>
    intro i st s w
    exact ⟨s, w, by simp [_DL_DMA_Transfer_PB_loop], by simp, by simp, rfl⟩
  | succ left ih =>
    intro i st s w
    obtain ⟨s1, w1, hcall, htr, hcalls, hbuf⟩ :=
      HAL_one_byte_ok E s w hspi (pTx.add i) (pRx.add i) (hOK _)
    obtain ⟨s2, w2, hloop, htr2, hcalls2, hbuf2⟩ :=
      ih (i + 1) HAL_StatusTypeDef.HAL_OK s1 (HAL_Delay w1 1)
    have hkeep : s1.buf pTx.buf = s.buf pTx.buf := hbuf _ halias
    refine ⟨s2, w2, ?_, ?_, ?_, ?_⟩
    · simp only [_DL_DMA_Transfer_PB_loop, hcall]
      simp [hloop]
    · rw [htr2]
      simp only [HAL_Delay, World.log, htr, List.range_succ_eq_map, List.flatMap_cons,
        List.flatMap_map, List.append_assoc]
      have hl : ∀ j, s1.load (pTx.add (i + 1 + j)) 1 = s.load (pTx.add (i + Nat.succ j)) 1 := by
        intro j
        rw [show i + 1 + j = i + Nat.succ j by omega]
        exact load_congr s s1 _ 1 hkeep
      have hp : ∀ j, pRx.add (i + 1 + j) = pRx.add (i + Nat.succ j) := by
        intro j
        rw [show i + 1 + j = i + Nat.succ j by omega]
      simp [hl, hp, Function.comp]
    · rw [hcalls2]
      simp only [HAL_Delay, World.log, hcalls]
      omega
    · rw [hbuf2, hkeep]

/-- A failing raw exchange: the status is handed back, the call is logged and
counted, and the bridge is untouched. -/
theorem HAL_call_fails {R : Type} (E : Env R) (s : Bridge) (w : World) (hspi : Nat)
    (pTx pRx : Ptr) (n : Nat) (hbad : E.hal w.calls ≠ HAL_StatusTypeDef.HAL_OK) :
    HAL_SPI_TransmitReceive_DMA E s w hspi pTx pRx n =
      (E.hal w.calls, s,
        { w with
          calls := w.calls + 1
          trace := w.trace ++ [Event.xfer hspi (s.load pTx (n % 65536)) pRx (n % 65536)] }) := by
  unfold HAL_SPI_TransmitReceive_DMA
  cases hh : E.hal w.calls <;> simp_all

/-- The paced loop when the exchange for byte `i + k` is the first to fail:
`k` exchanges with their delays, then the failing exchange, then the return of
its status. -/
theorem _DL_DMA_Transfer_PB_loop_fails {R : Type} (E : Env R) (hspi : Nat) (pTx pRx : Ptr)
    (halias : pTx.buf ≠ pRx.buf) :
    ∀ (k left i : Nat) (st : HAL_StatusTypeDef) (s : Bridge) (w : World),
      k < left →
      (∀ j, j < k → E.hal (w.calls + j) = HAL_StatusTypeDef.HAL_OK) →
      E.hal (w.calls + k) ≠ HAL_StatusTypeDef.HAL_OK →
      ∃ (s1 : Bridge) (w1 : World),
        _DL_DMA_Transfer_PB_loop E hspi pTx pRx left i st s w =
          (E.hal (w.calls + k), s1, w1) ∧
        w1.trace = w.trace ++ (List.range k).flatMap (fun j =>
            [Event.xfer hspi (s.load (pTx.add (i + j)) 1) (pRx.add (i + j)) 1,
             Event.delay 1])
          ++ [Event.xfer hspi (s.load (pTx.add (i + k)) 1) (pRx.add (i + k)) 1] ∧
        w1.calls = w.calls + k + 1 := by
  intro k
  induction k with
  | zero =>
    intro left i st s w hleft _ hbad
    obtain ⟨l, rfl⟩ : ∃ l, left = l + 1 := ⟨left - 1, by omega⟩
    have hbad0 : E.hal w.calls ≠ HAL_StatusTypeDef.HAL_OK := by simpa using hbad
    refine ⟨s, { w with
        calls := w.calls + 1
        trace := w.trace ++ [Event.xfer hspi (s.load (pTx.add i) 1) (pRx.add i) 1] },
      ?_, ?_, ?_⟩
    · simp only [_DL_DMA_Transfer_PB_loop, HAL_call_fails E s w hspi _ _ 1 hbad0]
      simp [hbad0]
    · simp
    · simp
  | succ k ih =>
    intro left i st s w hleft hpre hbad
    obtain ⟨l, rfl⟩ : ∃ l, left = l + 1 := ⟨left - 1, by omega⟩
    obtain ⟨s1, w1, hcall, htr, hcalls, hbuf⟩ :=
      HAL_one_byte_ok E s w hspi (pTx.add i) (pRx.add i) (by simpa using hpre 0 (by omega))
    have hkeep : s1.buf pTx.buf = s.buf pTx.buf := hbuf _ halias
    have hcalls2 : (HAL_Delay w1 1).calls = w.calls + 1 := by
      simp [HAL_Delay, World.log, hcalls]
    obtain ⟨s2, w2, hloop, htr2, hc2⟩ :=
      ih l (i + 1) HAL_StatusTypeDef.HAL_OK s1 (HAL_Delay w1 1) (by omega)
        (by
          intro j hj
          rw [hcalls2, show w.calls + 1 + j = w.calls + (j + 1) by omega]
          exact hpre (j + 1) (by omega))
        (by
          rw [hcalls2, show w.calls + 1 + k = w.calls + (k + 1) by omega]
          exact hbad)
    rw [hcalls2, show w.calls + 1 + k = w.calls + (k + 1) by omega] at hloop
    refine ⟨s2, w2, ?_, ?_, ?_⟩
    · simp only [_DL_DMA_Transfer_PB_loop, hcall]
      simp [hloop]
    · rw [htr2]
      simp only [HAL_Delay, World.log, htr, List.range_succ_eq_map, List.flatMap_cons,
        List.flatMap_map, List.append_assoc]
      have hl : ∀ j, s1.load (pTx.add (i + 1 + j)) 1 = s.load (pTx.add (i + Nat.succ j)) 1 := by
        intro j
        rw [show i + 1 + j = i + Nat.succ j by omega]
        exact load_congr s s1 _ 1 hkeep
      have hp : ∀ j, pRx.add (i + 1 + j) = pRx.add (i + Nat.succ j) := by
        intro j
        rw [show i + 1 + j = i + Nat.succ j by omega]
      simp [hl, hp, Function.comp]
    · rw [hc2, hcalls2]
      omega

/-! ### Frame lemmas -/

theorem RxOnly_refl {R : Type} (E : Env R) (s : Bridge) : RxOnly E s s :=
  ⟨⟨rfl, rfl, rfl, rfl, rfl, rfl, rfl, rfl, rfl⟩, id⟩

theorem RxOnly_trans {R : Type} (E : Env R) (s s1 s2 : Bridge)
    (h1 : RxOnly E s s1) (h2 : RxOnly E s1 s2) : RxOnly E s s2 := by
  obtain ⟨⟨a1, a2, a3, a4, a5, a6, a7, a8, a9⟩, az⟩ := h1
  obtain ⟨⟨b1, b2, b3, b4, b5, b6, b7, b8, b9⟩, bz⟩ := h2
  exact ⟨⟨b1.trans a1, b2.trans a2, b3.trans a3, b4.trans a4, b5.trans a5, b6.trans a6,
    b7.trans a7, b8.trans a8, b9.trans a9⟩, fun h => bz (az h)⟩

theorem storeAt_length (buf : List Nat) (off : Nat) (bytes : List Nat)
    (h : off + bytes.length ≤ buf.length) :
    (storeAt buf off bytes).length = buf.length := by
  simp only [storeAt, List.length_append, List.length_take, List.length_drop]
  omega

theorem RxOnly_state {R : Type} (E : Env R) (s : Bridge) (st : DL_State) :
    RxOnly E s { s with state := st } :=
  ⟨⟨rfl, rfl, rfl, rfl, rfl, rfl, rfl, rfl, rfl⟩, id⟩

theorem RxOnly_pkgcount {R : Type} (E : Env R) (s : Bridge) (n : Int) :
    RxOnly E s { s with pkgcount := n } :=
  ⟨⟨rfl, rfl, rfl, rfl, rfl, rfl, rfl, rfl, rfl⟩, id⟩

theorem RxOnly_CB {R : Type} (E : Env R) (s : Bridge) (h : Nat) :
    RxOnly E s (DL_TransferCompletedCB s h) := by
  unfold DL_TransferCompletedCB
  split
  · exact RxOnly_refl E s
  · split
    · exact RxOnly_refl E s
    · exact RxOnly_state E s _

theorem CB_state (s : Bridge) (h : Nat) :
    (DL_TransferCompletedCB s h).state = s.state ∨
      (DL_TransferCompletedCB s h).state = DL_State.Communicated_LCD := by
  unfold DL_TransferCompletedCB
  split
  · exact Or.inl rfl
  · split
    · exact Or.inl rfl
    · exact Or.inr rfl

theorem store_state (s : Bridge) (p : Ptr) (bytes : List Nat) :
    (s.store p bytes).state = s.state := by
  obtain ⟨b, off⟩ := p
  cases b <;> rfl

theorem store_handle_LCD (s : Bridge) (p : Ptr) (bytes : List Nat) :
    (s.store p bytes).DL_SPI_Handle_LCD = s.DL_SPI_Handle_LCD := by
  obtain ⟨b, off⟩ := p
  cases b <;> rfl

/-- A write into an Rx buffer that stays inside the frame. -/
theorem RxOnly_store {R : Type} (E : Env R) (s : Bridge) (p : Ptr) (bytes : List Nat)
    (hp : p.buf = BufId.RxPB ∨ p.buf = BufId.RxLCD)
    (hin : 0 < E.DL_PACKETSIZE → p.off + bytes.length ≤ E.DL_PACKETSIZE) :
    RxOnly E s (s.store p bytes) := by
  obtain ⟨b, off⟩ := p
  simp only at hp hin
  rcases hp with rfl | rfl
  · refine ⟨⟨rfl, rfl, rfl, rfl, rfl, rfl, rfl, rfl, rfl⟩, ?_⟩
    rintro ⟨h1, h2, h3⟩
    refine ⟨h1, ?_, h3⟩
    by_cases hN : 0 < E.DL_PACKETSIZE
    · have := hin hN
      show E.DL_PACKETSIZE ≤ (storeAt s.DL_RxBuffer_PB off bytes).length
      rw [storeAt_length _ _ _ (by omega)]
      exact h2
    · omega
  · refine ⟨⟨rfl, rfl, rfl, rfl, rfl, rfl, rfl, rfl, rfl⟩, ?_⟩
    rintro ⟨h1, h2, h3⟩
    refine ⟨h1, h2, ?_⟩
    by_cases hN : 0 < E.DL_PACKETSIZE
    · have := hin hN
      show E.DL_PACKETSIZE ≤ (storeAt s.DL_RxBuffer_LCD off bytes).length
      rw [storeAt_length _ _ _ (by omega)]
      exact h3
    · omega

/-- A raw exchange into an Rx buffer followed by the wait on the same handle:
whatever comes back differs from the bridge before only in the Rx buffers and,
through the callback, in the state. -/
theorem exchange_wait_RxOnly {R : Type} (E : Env R) (irq : Bool) (s : Bridge) (w : World)
    (hspi : Nat) (pTx pRx : Ptr) (n : Nat)
    (hp : pRx.buf = BufId.RxPB ∨ pRx.buf = BufId.RxLCD)
    (hin : 0 < E.DL_PACKETSIZE → pRx.off + n % 65536 ≤ E.DL_PACKETSIZE)
    (s2 : Bridge) (w2 : World)
    (hret : _DL_DMA_wait irq
        (HAL_SPI_TransmitReceive_DMA E s w hspi pTx pRx n).2.1
        (HAL_SPI_TransmitReceive_DMA E s w hspi pTx pRx n).2.2 hspi = Outcome.ret (s2, w2))
    (hok : (HAL_SPI_TransmitReceive_DMA E s w hspi pTx pRx n).1 = HAL_StatusTypeDef.HAL_OK) :
    RxOnly E s s2 ∧ (s2.state = s.state ∨ s2.state = DL_State.Communicated_LCD) := by
  unfold HAL_SPI_TransmitReceive_DMA at hret hok
  cases hh : E.hal w.calls <;> simp only [hh] at hret hok <;> try (simp at hok)
  by_cases hl : hspi = s.DL_SPI_Handle_LCD
  · simp only [hl, if_true, _DL_DMA_wait] at hret
    split at hret
    · cases hret
    · injection hret with hret
      injection hret with hs hw
      subst hs
      have hst := RxOnly_store E s pRx (List.take (n % 65536) w.lcdIn) hp
        (by intro hN; have := hin hN; simp only [List.length_take]; omega)
      split
      · refine ⟨RxOnly_trans E _ _ _ hst (RxOnly_CB E _ _), ?_⟩
        rcases CB_state (s.store pRx (List.take (n % 65536) w.lcdIn)) s.DL_SPI_Handle_LCD
          with h | h
        · exact Or.inl (h.trans (store_state _ _ _))
        · exact Or.inr h
      · exact ⟨hst, Or.inl (store_state _ _ _)⟩
  · simp only [hl, if_false, _DL_DMA_wait, store_handle_LCD] at hret
    injection hret with hret
    injection hret with hs hw
    subst hs
    exact ⟨RxOnly_store E s pRx _ hp (by intro hN; have := hin hN; simpa using this),
      Or.inl (store_state _ _ _)⟩

theorem HAL_handles {R : Type} (E : Env R) (s : Bridge) (w : World)
    (hspi : Nat) (pTx pRx : Ptr) (n : Nat) :
    (HAL_SPI_TransmitReceive_DMA E s w hspi pTx pRx n).2.1.DL_SPI_Handle_LCD
        = s.DL_SPI_Handle_LCD ∧
    (HAL_SPI_TransmitReceive_DMA E s w hspi pTx pRx n).2.1.DL_SPI_Handle_PB
        = s.DL_SPI_Handle_PB := by
  unfold HAL_SPI_TransmitReceive_DMA
  obtain ⟨b, off⟩ := pRx
  cases E.hal w.calls
  · simp only []
    split
    · exact ⟨rfl, rfl⟩
    · cases b <;> exact ⟨rfl, rfl⟩
  all_goals exact ⟨rfl, rfl⟩

/-- The form of `exchange_wait_RxOnly` that fits the loops: the result of the
exchange is named. -/
theorem exchange_wait_RxOnly_named {R : Type} (E : Env R) (irq : Bool) (s : Bridge) (w : World)
    (hspi : Nat) (pTx pRx : Ptr) (n : Nat)
    (hp : pRx.buf = BufId.RxPB ∨ pRx.buf = BufId.RxLCD)
    (hin : 0 < E.DL_PACKETSIZE → pRx.off + n % 65536 ≤ E.DL_PACKETSIZE)
    (st : HAL_StatusTypeDef) (s1 s2 : Bridge) (w1 w2 : World)
    (hcall : HAL_SPI_TransmitReceive_DMA E s w hspi pTx pRx n = (st, s1, w1))
    (hok : st = HAL_StatusTypeDef.HAL_OK)
    (hret : _DL_DMA_wait irq s1 w1 hspi = Outcome.ret (s2, w2)) :
    RxOnly E s s2 ∧ (s2.state = s.state ∨ s2.state = DL_State.Communicated_LCD) := by
  apply exchange_wait_RxOnly E irq s w hspi pTx pRx n hp hin s2 w2
  · rw [hcall]; exact hret
  · rw [hcall]; exact hok

theorem wait_not_halted (irq : Bool) (s : Bridge) (w : World) (h : Nat) :
    _DL_DMA_wait irq s w h ≠ Outcome.halted ∧ _DL_DMA_wait irq s w h ≠ Outcome.fatal := by
  unfold _DL_DMA_wait
  split
  · split
    · exact ⟨by simp, by simp⟩
    · split <;> exact ⟨by simp, by simp⟩
  · exact ⟨by simp, by simp⟩

theorem u16_pred_le (N : Nat) (h1 : 0 < N) : 1 + u16 ((N : Int) - 1) % 65536 ≤ N := by
  have h2 : u16 ((N : Int) - 1) % 65536 ≤ u16 ((N : Int) - 1) := Nat.mod_le _ _
  have h3 : u16 ((N : Int) - 1) ≤ N - 1 := by
    unfold u16
    omega
  omega

/-- The loop of `_DL_Sync_LCD` never halts, and what it returns differs from the
bridge it started on only in the Rx buffers and the state. -/
theorem _DL_Sync_LCD_loop_RxOnly {R : Type} (E : Env R) (irq : Bool) :
    ∀ (fuel : Nat) (s : Bridge) (w : World),
      _DL_Sync_LCD_loop E irq fuel s w ≠ Outcome.halted ∧
      ∀ (s9 : Bridge) (w9 : World),
        _DL_Sync_LCD_loop E irq fuel s w = Outcome.ret (s9, w9) → RxOnly E s s9 := by
  intro fuel
  induction fuel with
  | zero =>
    intro s w
    simp [_DL_Sync_LCD_loop]
  | succ fuel ih =>
    intro s w
    rw [_DL_Sync_LCD_loop]
    have hH := HAL_handles E s w s.DL_SPI_Handle_LCD ⟨BufId.Sync, 0⟩ ⟨BufId.RxLCD, 0⟩ 1
    generalize hcall : HAL_SPI_TransmitReceive_DMA E s w s.DL_SPI_Handle_LCD
      ⟨BufId.Sync, 0⟩ ⟨BufId.RxLCD, 0⟩ 1 = r at hH
    obtain ⟨st, s1, w1⟩ := r
    simp only at hH ⊢
    by_cases hst : st = HAL_StatusTypeDef.HAL_OK
    · simp only [hst, ne_eq, not_true_eq_false, if_false, hH.1]
      have hW := wait_not_halted irq s1 w1 s.DL_SPI_Handle_LCD
      cases hwait : _DL_DMA_wait irq s1 w1 s.DL_SPI_Handle_LCD with
      | ret p =>
        obtain ⟨s2, w2⟩ := p
        have h12 := (exchange_wait_RxOnly_named E irq s w s.DL_SPI_Handle_LCD _ _ 1
          (Or.inr rfl) (by intro hN; simp; omega) st s1 s2 w1 w2 hcall hst hwait).1
        simp only []
        split
        · have hH2 := HAL_handles E s2 w2 s2.DL_SPI_Handle_LCD ⟨BufId.Sync, 0⟩
            ⟨BufId.RxLCD, 1⟩ (u16 ((E.DL_PACKETSIZE : Int) - 1))
          generalize hcall2 : HAL_SPI_TransmitReceive_DMA E s2 w2 s2.DL_SPI_Handle_LCD
            ⟨BufId.Sync, 0⟩ ⟨BufId.RxLCD, 1⟩ (u16 ((E.DL_PACKETSIZE : Int) - 1)) = r2 at hH2
          obtain ⟨st3, s3, w3⟩ := r2
          simp only at hH2 ⊢
          by_cases hst3 : st3 = HAL_StatusTypeDef.HAL_OK
          · simp only [hst3, ne_eq, not_true_eq_false, if_false, hH2.1]
            have hW2 := wait_not_halted irq s3 w3 s2.DL_SPI_Handle_LCD
            cases hwait2 : _DL_DMA_wait irq s3 w3 s2.DL_SPI_Handle_LCD with
            | ret p2 =>
              obtain ⟨s4, w4⟩ := p2
              have h24 := (exchange_wait_RxOnly_named E irq s2 w2 s2.DL_SPI_Handle_LCD _ _
                (u16 ((E.DL_PACKETSIZE : Int) - 1))
                (Or.inr rfl) (by intro hN; exact u16_pred_le _ hN)
                st3 s3 s4 w3 w4 hcall2 hst3 hwait2).1
              have h14 := RxOnly_trans E _ _ _ h12 h24
              simp only []
              split
              · refine ⟨by simp, ?_⟩
                intro s9 w9 h
                injection h with h
                injection h with hs hw
                subst hs
                exact h14
              · refine ⟨(ih s4 w4).1, ?_⟩
                intro s9 w9 h
                exact RxOnly_trans E _ _ _ h14 ((ih s4 w4).2 s9 w9 h)
            | fatal => exact absurd hwait2 hW2.2
            | blocked => simp
            | halted => exact absurd hwait2 hW2.1
          · simp [hst3, DL_Error_Handler]
        · refine ⟨(ih s2 w2).1, ?_⟩
          intro s9 w9 h
          exact RxOnly_trans E _ _ _ h12 ((ih s2 w2).2 s9 w9 h)
      | fatal => exact absurd hwait hW.2
      | blocked => simp
      | halted => exact absurd hwait hW.1
    · simp [hst, DL_Error_Handler]

theorem HAL_RxOnly {R : Type} (E : Env R) (s : Bridge) (w : World)
    (hspi : Nat) (pTx pRx : Ptr) (n : Nat)
    (hp : pRx.buf = BufId.RxPB ∨ pRx.buf = BufId.RxLCD)
    (hin : 0 < E.DL_PACKETSIZE → pRx.off + n % 65536 ≤ E.DL_PACKETSIZE) :
    RxOnly E s (HAL_SPI_TransmitReceive_DMA E s w hspi pTx pRx n).2.1 := by
  unfold HAL_SPI_TransmitReceive_DMA
  cases E.hal w.calls
  · simp only []
    split
    · exact RxOnly_refl E s
    · exact RxOnly_store E s pRx _ hp (by intro hN; have := hin hN; simpa using this)
  all_goals exact RxOnly_refl E s

/-- The paced loop writes nothing but the Rx buffer it is given. -/
theorem _DL_DMA_Transfer_PB_loop_RxOnly {R : Type} (E : Env R) (hspi : Nat) (pTx pRx : Ptr)
    (hp : pRx.buf = BufId.RxPB ∨ pRx.buf = BufId.RxLCD) :
    ∀ (left i : Nat) (st : HAL_StatusTypeDef) (s : Bridge) (w : World),
      (0 < E.DL_PACKETSIZE → pRx.off + i + left ≤ E.DL_PACKETSIZE) →
      RxOnly E s (_DL_DMA_Transfer_PB_loop E hspi pTx pRx left i st s w).2.1 := by
  intro left
  induction left with
  | zero =>
    intro i st s w _
    exact RxOnly_refl E s
  | succ left ih =>
    intro i st s w hin
    rw [_DL_DMA_Transfer_PB_loop]
    have h1 := HAL_RxOnly E s w hspi (pTx.add i) (pRx.add i) 1
      (by simpa [Ptr.add] using hp)
      (by intro hN; have := hin hN; simp [Ptr.add]; omega)
    generalize HAL_SPI_TransmitReceive_DMA E s w hspi (pTx.add i) (pRx.add i) 1 = r at h1
    obtain ⟨st1, s1, w1⟩ := r
    simp only at h1 ⊢
    split
    · exact h1
    · exact RxOnly_trans E _ _ _ h1
        (ih (i + 1) st1 s1 (HAL_Delay w1 1) (by intro hN; have := hin hN; omega))

/-- The loop of `_DL_Sync_PB` never halts, and what it returns differs from the
bridge it started on only in the Rx buffers and the state. -/
theorem _DL_Sync_PB_loop_RxOnly {R : Type} (E : Env R) (irq : Bool) :
    ∀ (fuel cnt : Nat) (s : Bridge) (w : World),
      _DL_Sync_PB_loop E irq fuel cnt s w ≠ Outcome.halted ∧
      ∀ (e : SyncPB_Exit) (s9 : Bridge) (w9 : World),
        _DL_Sync_PB_loop E irq fuel cnt s w = Outcome.ret (e, s9, w9) → RxOnly E s s9 := by
  intro fuel
  induction fuel with
  | zero =>
    intro cnt s w
    simp [_DL_Sync_PB_loop]
  | succ fuel ih =>
    intro cnt s w
    rw [_DL_Sync_PB_loop]
    simp only [_DL_DMA_Transfer]
    have hH := HAL_handles E s w s.DL_SPI_Handle_PB ⟨BufId.Sync, 0⟩ ⟨BufId.RxPB, 0⟩ 1
    generalize hcall : HAL_SPI_TransmitReceive_DMA E s w s.DL_SPI_Handle_PB
      ⟨BufId.Sync, 0⟩ ⟨BufId.RxPB, 0⟩ 1 = r at hH
    obtain ⟨st, s1, w1⟩ := r
    simp only at hH ⊢
    by_cases hst : st = HAL_StatusTypeDef.HAL_OK
    · simp only [hst, ne_eq, not_true_eq_false, if_false, hH.2]
      have hW := wait_not_halted irq s1 w1 s.DL_SPI_Handle_PB
      cases hwait : _DL_DMA_wait irq s1 w1 s.DL_SPI_Handle_PB with
      | ret p =>
        obtain ⟨s2, w2⟩ := p
        have h12 := (exchange_wait_RxOnly_named E irq s w s.DL_SPI_Handle_PB _ _ 1
          (Or.inl rfl) (by intro hN; simp; omega) st s1 s2 w1 w2 hcall hst hwait).1
        simp only []
        split
        · refine ⟨by simp, ?_⟩
          intro e s9 w9 h
          injection h with h
          injection h with he h
          injection h with hs hw
          subst hs
          exact h12
        · split
          · refine ⟨by simp, ?_⟩
            intro e s9 w9 h
            injection h with h
            injection h with he h
            injection h with hs hw
            subst hs
            exact h12
          · refine ⟨(ih _ s2 _).1, ?_⟩
            intro e s9 w9 h
            exact RxOnly_trans E _ _ _ h12 ((ih _ s2 _).2 e s9 w9 h)
      | fatal => exact absurd hwait hW.2
      | blocked => simp
      | halted => exact absurd hwait hW.1
    · simp [hst, DL_Error_Handler]

/-! ### One turn of the main loop -/

theorem _DL_Sync_LCD_RxOnly {R : Type} (E : Env R) (irq : Bool) (s : Bridge) (w : World) :
    _DL_Sync_LCD E irq s w ≠ Outcome.halted ∧
    ∀ (s9 : Bridge) (w9 : World),
      _DL_Sync_LCD E irq s w = Outcome.ret (s9, w9) →
        RxOnly E s s9 ∧ s9.state = DL_State.Synced_LCD := by
  unfold _DL_Sync_LCD
  have h := _DL_Sync_LCD_loop_RxOnly E irq (w.lcdIn.length + 1)
    { s with state := DL_State.Syncing_LCD } w
  cases hl : _DL_Sync_LCD_loop E irq (w.lcdIn.length + 1)
      { s with state := DL_State.Syncing_LCD } w with
  | ret p =>
    obtain ⟨s1, w1⟩ := p
    refine ⟨by simp, ?_⟩
    intro s9 w9 h9
    injection h9 with h9
    injection h9 with hs hw
    subst hs
    exact ⟨RxOnly_trans E _ _ _ (RxOnly_state E s _)
      (RxOnly_trans E _ _ _ (h.2 s1 w1 hl) (RxOnly_state E s1 _)), rfl⟩
  | fatal => simp
  | blocked => simp
  | halted => exact absurd hl h.1

theorem cpyPacket_length (N : Nat) (src dst : List Nat)
    (h1 : N ≤ src.length) (h2 : N ≤ dst.length) :
    (cpyPacket N src dst).length = dst.length := by
  simp only [cpyPacket, List.length_append, List.length_take, List.length_drop]
  omega

theorem RxOnly_cpy_LCD {R : Type} (E : Env R) (s : Bridge) :
    RxOnly E s { s with
      DL_RxBuffer_LCD := cpyPacket E.DL_PACKETSIZE s.DL_Buffer_Sync s.DL_RxBuffer_LCD } := by
  refine ⟨⟨rfl, rfl, rfl, rfl, rfl, rfl, rfl, rfl, rfl⟩, ?_⟩
  rintro ⟨h1, h2, h3⟩
  refine ⟨h1, h2, ?_⟩
  show E.DL_PACKETSIZE ≤ (cpyPacket E.DL_PACKETSIZE s.DL_Buffer_Sync s.DL_RxBuffer_LCD).length
  rw [cpyPacket_length _ _ _ h1 h3]
  exact h3

theorem RxOnly_cpy_PB {R : Type} (E : Env R) (s : Bridge) :
    RxOnly E s { s with
      DL_RxBuffer_PB := cpyPacket E.DL_PACKETSIZE s.DL_Buffer_Sync s.DL_RxBuffer_PB } := by
  refine ⟨⟨rfl, rfl, rfl, rfl, rfl, rfl, rfl, rfl, rfl⟩, ?_⟩
  rintro ⟨h1, h2, h3⟩
  refine ⟨h1, ?_, h3⟩
  show E.DL_PACKETSIZE ≤ (cpyPacket E.DL_PACKETSIZE s.DL_Buffer_Sync s.DL_RxBuffer_PB).length
  rw [cpyPacket_length _ _ _ h1 h2]
  exact h2

/-- The `Communicate_LCD` case never halts; what it returns differs from the
bridge before only in the LCD Rx buffer, `pkgcount` and the state, which is
`Communicating_LCD` or `Communicated_LCD`. -/
theorem iter_Communicate_LCD {R : Type} (E : Env R) (irq : Bool) (s : Bridge) (w : World)
    (hst : s.state = DL_State.Communicate_LCD) :
    DL_Start_iter E irq s w ≠ Outcome.halted ∧
    ∀ (s9 : Bridge) (w9 : World), DL_Start_iter E irq s w = Outcome.ret (s9, w9) →
      RxOnly E s s9 ∧
      (s9.state = DL_State.Communicating_LCD ∨ s9.state = DL_State.Communicated_LCD) := by
  have hpro : RxOnly E s (Communicate_LCD_prologue E s) :=
    RxOnly_trans E _ _ _ (RxOnly_state E s _) (RxOnly_cpy_LCD E _)
  simp only [DL_Start_iter, hst, HAL_SPI_TransmitReceive_DMA]
  cases E.hal w.calls
  · simp only [if_true, ne_eq, not_true_eq_false, if_false, _DL_DMA_wait]
    split
    · simp
    · refine ⟨by simp, ?_⟩
      intro s9 w9 h
      injection h with h
      injection h with hs hw
      subst hs
      have hstore : RxOnly E (Communicate_LCD_prologue E s)
          (Bridge.store { Communicate_LCD_prologue E s with
              pkgcount := (Communicate_LCD_prologue E s).pkgcount + 1 }
            ⟨BufId.RxLCD, 0⟩ (List.take (E.DL_PACKETSIZE % 65536) w.lcdIn)) :=
        RxOnly_trans E _ _ _ (RxOnly_pkgcount E _ _)
          (RxOnly_store E _ _ _ (Or.inr rfl)
            (by intro hN; simp only [List.length_take]
                have := Nat.mod_le E.DL_PACKETSIZE 65536
                omega))
      split
      · refine ⟨RxOnly_trans E _ _ _ hpro (RxOnly_trans E _ _ _ hstore (RxOnly_CB E _ _)), ?_⟩
        rcases CB_state (Bridge.store { Communicate_LCD_prologue E s with
              pkgcount := (Communicate_LCD_prologue E s).pkgcount + 1 }
            ⟨BufId.RxLCD, 0⟩ (List.take (E.DL_PACKETSIZE % 65536) w.lcdIn))
          s.DL_SPI_Handle_LCD with h | h
        · exact Or.inl h
        · exact Or.inr h
      · exact ⟨RxOnly_trans E _ _ _ hpro hstore, Or.inl rfl⟩
  all_goals simp [DL_Error_Handler]

/-- One turn of the main loop from a state of the normal cycle: it never
enters the halting branch, it ends in a state of the normal cycle, and outside
the two relay cases it writes nothing but the Rx buffers, `pkgcount` and the
state. -/
theorem iter_facts {R : Type} (E : Env R) (irq : Bool) (s : Bridge) (w : World)
    (hn : s.state.normal = true) :
    DL_Start_iter E irq s w ≠ Outcome.halted ∧
    ∀ (s9 : Bridge) (w9 : World), DL_Start_iter E irq s w = Outcome.ret (s9, w9) →
      s9.state.normal = true ∧
      (s.state ≠ DL_State.Communicated_LCD → s.state ≠ DL_State.Communicated_PB →
        RxOnly E s s9) := by
  cases hst : s.state with
  | Unknown => rw [hst] at hn; cases hn
  | DBG_Halt => rw [hst] at hn; cases hn
  | Communicating_PB => rw [hst] at hn; cases hn
  | Inited =>
    refine ⟨by simp [DL_Start_iter, hst], ?_⟩
    intro s9 w9 h
    simp only [DL_Start_iter, hst] at h
    injection h with h
    injection h with hs hw
    subst hs
    exact ⟨rfl, fun _ _ => RxOnly_state E s _⟩
  | Synced_PB =>
    refine ⟨by simp [DL_Start_iter, hst], ?_⟩
    intro s9 w9 h
    simp only [DL_Start_iter, hst] at h
    injection h with h
    injection h with hs hw
    subst hs
    exact ⟨rfl, fun _ _ => RxOnly_state E s _⟩
  | Synced_LCD =>
    refine ⟨by simp [DL_Start_iter, hst], ?_⟩
    intro s9 w9 h
    simp only [DL_Start_iter, hst] at h
    injection h with h
    injection h with hs hw
    subst hs
    exact ⟨rfl, fun _ _ => RxOnly_state E s _⟩
  | Idle =>
    refine ⟨by simp [DL_Start_iter, hst], ?_⟩
    intro s9 w9 h
    simp only [DL_Start_iter, hst] at h
    injection h with h
    injection h with hs hw
    subst hs
    exact ⟨rfl, fun _ _ => RxOnly_state E s _⟩
  | Communicating_LCD =>
    refine ⟨by simp [DL_Start_iter, hst], ?_⟩
    intro s9 w9 h
    simp only [DL_Start_iter, hst] at h
    injection h with h
    injection h with hs hw
    subst hs
    exact ⟨hn, fun _ _ => RxOnly_refl E s⟩
  | Communicated_LCD =>
    refine ⟨by simp [DL_Start_iter, hst], ?_⟩
    intro s9 w9 h
    simp only [DL_Start_iter, hst] at h
    injection h with h
    injection h with hs hw
    subst hs
    exact ⟨rfl, fun h1 _ => absurd rfl h1⟩
  | Communicated_PB =>
    refine ⟨by simp [DL_Start_iter, hst], ?_⟩
    intro s9 w9 h
    simp only [DL_Start_iter, hst] at h
    injection h with h
    injection h with hs hw
    subst hs
    exact ⟨rfl, fun _ h2 => absurd rfl h2⟩
  | Syncing_PB =>
    have hl := _DL_Sync_PB_loop_RxOnly E irq 101 0 s w
    simp only [DL_Start_iter, hst, _DL_Sync_PB]
    cases hr : _DL_Sync_PB_loop E irq 101 0 s w with
    | ret p =>
      obtain ⟨e, s1, w1⟩ := p
      refine ⟨by simp, ?_⟩
      intro s9 w9 h
      injection h with h
      injection h with hs hw
      subst hs
      exact ⟨rfl, fun _ _ => RxOnly_trans E _ _ _ (hl.2 e s1 w1 hr) (RxOnly_state E s1 _)⟩
    | fatal => simp
    | blocked => simp
    | halted => exact absurd hr hl.1
  | Syncing_LCD =>
    have hl := _DL_Sync_LCD_RxOnly E irq s w
    simp only [DL_Start_iter, hst]
    cases hr : _DL_Sync_LCD E irq s w with
    | ret p =>
      obtain ⟨s1, w1⟩ := p
      refine ⟨by simp, ?_⟩
      intro s9 w9 h
      injection h with h
      injection h with hs hw
      subst hs
      exact ⟨rfl, fun _ _ => RxOnly_trans E _ _ _ (hl.2 s1 w1 hr).1 (RxOnly_state E s1 _)⟩
    | fatal => simp
    | blocked => simp
    | halted => exact absurd hr hl.1
  | Communicate_LCD =>
    have hc := iter_Communicate_LCD E irq s w hst
    refine ⟨hc.1, ?_⟩
    intro s9 w9 h
    obtain ⟨h1, h2⟩ := hc.2 s9 w9 h
    refine ⟨?_, fun _ _ => h1⟩
    rcases h2 with h2 | h2 <;> rw [h2] <;> rfl
  | Communicate_PB =>
    have hl := _DL_DMA_Transfer_PB_loop_RxOnly E s.DL_SPI_Handle_PB
      ⟨BufId.TxPB, 0⟩ ⟨BufId.RxPB, 0⟩ (Or.inl rfl) (E.DL_PACKETSIZE % 65536) 0 E.uninit
      { s with
        DL_RxBuffer_PB := cpyPacket E.DL_PACKETSIZE s.DL_Buffer_Sync s.DL_RxBuffer_PB
        state := DL_State.Communicate_PB } w
      (by intro hN; have := Nat.mod_le E.DL_PACKETSIZE 65536; simp only []; omega)
    have hpre : RxOnly E s
        { s with
          DL_RxBuffer_PB := cpyPacket E.DL_PACKETSIZE s.DL_Buffer_Sync s.DL_RxBuffer_PB
          state := DL_State.Communicate_PB } :=
      RxOnly_trans E _ _ _ (RxOnly_cpy_PB E s) (RxOnly_state E _ _)
    simp only [DL_Start_iter, hst, _DL_DMA_Transfer, _DL_DMA_Transfer_PB]
    generalize _DL_DMA_Transfer_PB_loop E s.DL_SPI_Handle_PB
      ⟨BufId.TxPB, 0⟩ ⟨BufId.RxPB, 0⟩ (E.DL_PACKETSIZE % 65536) 0 E.uninit
      { s with
        DL_RxBuffer_PB := cpyPacket E.DL_PACKETSIZE s.DL_Buffer_Sync s.DL_RxBuffer_PB
        state := DL_State.Communicate_PB } w
      = r at hl
    obtain ⟨st, s2, w2⟩ := r
    simp only at hl ⊢
    split
    · simp [DL_Error_Handler]
    · refine ⟨by simp, ?_⟩
      intro s9 w9 h
      injection h with h
      injection h with hs hw
      subst hs
      exact ⟨rfl, fun _ _ => RxOnly_trans E _ _ _ hpre
        (RxOnly_trans E _ _ _ hl (RxOnly_state E s2 _))⟩

/-! ### Runs -/

/-- One operation from a state of the normal cycle never enters the halting
branch and ends in a state of the normal cycle. -/
theorem apply_normal {R : Type} (E : Env R) (op : Op) (s : Bridge) (w : World)
    (hn : s.state.normal = true) :
    op.apply E s w ≠ Outcome.halted ∧
    ∀ (s9 : Bridge) (w9 : World), op.apply E s w = Outcome.ret (s9, w9) →
      s9.state.normal = true := by
  cases op with
  | iter irq =>
    exact ⟨(iter_facts E irq s w hn).1, fun s9 w9 h => ((iter_facts E irq s w hn).2 s9 w9 h).1⟩
  | cb h =>
    refine ⟨by simp [Op.apply], ?_⟩
    intro s9 w9 h9
    simp only [Op.apply] at h9
    injection h9 with h9
    injection h9 with hs hw
    subst hs
    rcases CB_state s h with h1 | h1
    · rw [h1]; exact hn
    · rw [h1]; rfl
  | reboot =>
    refine ⟨by simp [Op.apply], ?_⟩
    intro s9 w9 h9
    simp only [Op.apply] at h9
    injection h9 with h9
    injection h9 with hs hw
    subst hs
    rfl
  | init a b =>
    refine ⟨by simp [Op.apply], ?_⟩
    intro s9 w9 h9
    simp only [Op.apply] at h9
    injection h9 with h9
    injection h9 with hs hw
    subst hs
    rfl
  | setDebug v =>
    refine ⟨by simp [Op.apply], ?_⟩
    intro s9 w9 h9
    simp only [Op.apply] at h9
    injection h9 with h9
    injection h9 with hs hw
    subst hs
    exact hn

/-- A run from a state of the normal cycle never enters the halting branch and
ends in a state of the normal cycle. -/
theorem run_normal {R : Type} (E : Env R) :
    ∀ (ops : List Op) (s : Bridge) (w : World), s.state.normal = true →
      run E ops s w ≠ Outcome.halted ∧
      ∀ (s9 : Bridge) (w9 : World), run E ops s w = Outcome.ret (s9, w9) →
        s9.state.normal = true := by
  intro ops
  induction ops with
  | nil =>
    intro s w hn
    refine ⟨by simp [run], ?_⟩
    intro s9 w9 h
    simp only [run] at h
    injection h with h
    injection h with hs hw
    subst hs
    exact hn
  | cons op ops ih =>
    intro s w hn
    have ha := apply_normal E op s w hn
    rw [run]
    cases hr : op.apply E s w with
    | ret p =>
      obtain ⟨s1, w1⟩ := p
      exact ih s1 w1 (ha.2 s1 w1 hr)
    | fatal => simp
    | blocked => simp
    | halted => exact absurd hr ha.1

theorem run_cons_ret {R : Type} (E : Env R) (op : Op) (ops : List Op)
    (s s1 : Bridge) (w w1 : World) (h : op.apply E s w = Outcome.ret (s1, w1)) :
    run E (op :: ops) s w = run E ops s1 w1 := by
  rw [run, h]

theorem run_append_ret {R : Type} (E : Env R) :
    ∀ (ops1 ops2 : List Op) (s s1 : Bridge) (w w1 : World),
      run E ops1 s w = Outcome.ret (s1, w1) →
      run E (ops1 ++ ops2) s w = run E ops2 s1 w1 := by
  intro ops1
  induction ops1 with
  | nil =>
    intro ops2 s s1 w w1 h
    simp only [run] at h
    injection h with h
    injection h with hs hw
    subst hs; subst hw
    rfl
  | cons op ops ih =>
    intro ops2 s s1 w w1 h
    rw [run] at h
    rw [List.cons_append, run]
    cases hr : op.apply E s w with
    | ret p =>
      obtain ⟨s2, w2⟩ := p
      rw [hr] at h
      exact ih ops2 s2 s1 w2 w1 h
    | fatal => rw [hr] at h; cases h
    | blocked => rw [hr] at h; cases h
    | halted => rw [hr] at h; cases h

/-- What one operation can do to the error counters: nothing, or add one
modulo 256 to one of them. -/
theorem apply_counters {R : Type} (E : Env R) (op : Op) (s s9 : Bridge) (w w9 : World)
    (h : op.apply E s w = Outcome.ret (s9, w9)) :
    (s9.DL_ChkCnt_LCD = s.DL_ChkCnt_LCD ∨ s9.DL_ChkCnt_LCD = (s.DL_ChkCnt_LCD + 1) % 256) ∧
    (s9.DL_ChkCnt_PB = s.DL_ChkCnt_PB ∨ s9.DL_ChkCnt_PB = (s.DL_ChkCnt_PB + 1) % 256) := by
  cases op with
  | iter irq =>
    simp only [Op.apply] at h
    by_cases h1 : s.state = DL_State.Communicated_LCD
    · simp only [DL_Start_iter, h1] at h
      injection h with h
      injection h with hs hw
      subst hs
      cases hc : E.checksumOK s.DL_RxBuffer_LCD <;> simp [hc]
    · by_cases h2 : s.state = DL_State.Communicated_PB
      · simp only [DL_Start_iter, h2] at h
        injection h with h
        injection h with hs hw
        subst hs
        cases hc : E.checksumOK s.DL_RxBuffer_PB <;> simp [hc]
      · by_cases hn : s.state.normal = true
        · obtain ⟨⟨_, _, _, c1, c2, _⟩, _⟩ := ((iter_facts E irq s w hn).2 s9 w9 h).2 h1 h2
          exact ⟨Or.inl c2, Or.inl c1⟩
        · have hcases : s.state = DL_State.Unknown ∨ s.state = DL_State.DBG_Halt ∨
              s.state = DL_State.Communicating_PB := by
            cases hst : s.state <;> simp [hst, DL_State.normal] at hn ⊢
          rcases hcases with hst | hst | hst
          · simp [DL_Start_iter, hst] at h
          · simp [DL_Start_iter, hst] at h
          · simp only [DL_Start_iter, hst] at h
            injection h with h
            injection h with hs hw
            subst hs
            exact ⟨Or.inl rfl, Or.inl rfl⟩
  | cb hd =>
    simp only [Op.apply] at h
    injection h with h
    injection h with hs hw
    subst hs
    obtain ⟨⟨_, _, _, c1, c2, _⟩, _⟩ := RxOnly_CB E s hd
    exact ⟨Or.inl c2, Or.inl c1⟩
  | reboot =>
    simp only [Op.apply] at h
    injection h with h
    injection h with hs hw
    subst hs
    exact ⟨Or.inl rfl, Or.inl rfl⟩
  | init a b =>
    simp only [Op.apply] at h
    injection h with h
    injection h with hs hw
    subst hs
    exact ⟨Or.inl rfl, Or.inl rfl⟩
  | setDebug v =>
    simp only [Op.apply] at h
    injection h with h
    injection h with hs hw
    subst hs
    exact ⟨Or.inl rfl, Or.inl rfl⟩

/-! ### The PB scan -/

/-- With every exchange successful and the PB on a handle of its own, one turn
of the scan of `_DL_Sync_PB`: the byte of the PB lands in byte 0 of the PB Rx
buffer; the loop is left if it is the PB marker, and otherwise, behind the
delay, the loop is left once `cnt` has reached 100 and goes round again with
`cnt + 1` if not. -/
theorem sync_PB_turn {R : Type} (E : Env R) (irq : Bool)
    (hOK : ∀ k, E.hal k = HAL_StatusTypeDef.HAL_OK)
    (fuel cnt : Nat) (s : Bridge) (w : World)
    (hne : s.DL_SPI_Handle_PB ≠ s.DL_SPI_Handle_LCD) :
    _DL_Sync_PB_loop E irq (fuel + 1) cnt s w =
      if E.pbByte w.pbPos = E.DL_PACKET_PB_START then
        Outcome.ret (SyncPB_Exit.found,
          { s with DL_RxBuffer_PB := E.pbByte w.pbPos :: s.DL_RxBuffer_PB.drop 1 },
          { w with
            pbPos := w.pbPos + 1
            calls := w.calls + 1
            trace := w.trace ++ [probeEventPB s] })
      else if cnt ≥ 100 then
        Outcome.ret (SyncPB_Exit.gaveUp,
          { s with DL_RxBuffer_PB := E.pbByte w.pbPos :: s.DL_RxBuffer_PB.drop 1 },
          { w with
            pbPos := w.pbPos + 1
            calls := w.calls + 1
            trace := w.trace ++ [probeEventPB s, Event.delay 1] })
      else
        _DL_Sync_PB_loop E irq fuel ((cnt + 1) % 256)
          { s with DL_RxBuffer_PB := E.pbByte w.pbPos :: s.DL_RxBuffer_PB.drop 1 }
          { w with
            pbPos := w.pbPos + 1
            calls := w.calls + 1
            trace := w.trace ++ [probeEventPB s, Event.delay 1] } := by
  have hr : (List.range 1).map (fun i => E.pbByte (w.pbPos + i)) = [E.pbByte w.pbPos] := by
    simp [List.range_succ]
  simp [_DL_Sync_PB_loop, _DL_DMA_Transfer, HAL_SPI_TransmitReceive_DMA, hOK, _DL_DMA_wait,
    hne, store_RxPB, hr, storeAt_zero_one, probeEventPB, Bridge.load, Bridge.buf, HAL_Delay,
    World.log]

/-- With every exchange successful and the PB on a handle of its own, the scan
of `_DL_Sync_PB` returns whatever the PB answers: it changes nothing but the PB
Rx buffer, and in the world only the PB position, the call count and the log. -/
theorem _DL_Sync_PB_loop_returns {R : Type} (E : Env R) (irq : Bool)
    (hOK : ∀ k, E.hal k = HAL_StatusTypeDef.HAL_OK) :
    ∀ (fuel cnt : Nat) (s : Bridge) (w : World),
      s.DL_SPI_Handle_PB ≠ s.DL_SPI_Handle_LCD → cnt ≤ 100 → 100 - cnt < fuel →
      ∃ (e : SyncPB_Exit) (rx : List Nat) (w1 : World),
        _DL_Sync_PB_loop E irq fuel cnt s w =
          Outcome.ret (e, { s with DL_RxBuffer_PB := rx }, w1) ∧
        w1.lcdIn = w.lcdIn ∧ w1.armed = w.armed := by
  intro fuel
  induction fuel with
  | zero =>
    intro cnt s w _ _ hf
    omega
  | succ fuel ih =>
    intro cnt s w hne hc hf
    rw [sync_PB_turn E irq hOK fuel cnt s w hne]
    split
    · exact ⟨_, _, _, rfl, rfl, rfl⟩
    · split
      · exact ⟨_, _, _, rfl, rfl, rfl⟩
      · have hc2 : (cnt + 1) % 256 = cnt + 1 := Nat.mod_eq_of_lt (by omega)
        rw [hc2]
        obtain ⟨e, rx, w1, h1, h2, h3⟩ := ih (cnt + 1)
          { s with DL_RxBuffer_PB := E.pbByte w.pbPos :: s.DL_RxBuffer_PB.drop 1 }
          { w with
            pbPos := w.pbPos + 1
            calls := w.calls + 1
            trace := w.trace ++ [probeEventPB s, Event.delay 1] }
          hne (by omega) (by omega)
        exact ⟨e, rx, w1, h1, h2, h3⟩

/-- With every exchange successful and the PB on a handle of its own, the scan
of `_DL_Sync_PB` from a count `cnt` with `cnt + m = 100`: it makes `k + 1`
probes with `k ≤ m`, whatever the bound on the turns above `m`; none of the
first `k` answers is the PB marker; either answer `k` is the marker and the
scan leaves through the `break`, or `k = m`, answer `k` is not the marker
either and the scan gives up. The last answer is in byte 0 of the PB Rx
buffer. -/
theorem _DL_Sync_PB_loop_scan {R : Type} (E : Env R) (irq : Bool)
    (hOK : ∀ k, E.hal k = HAL_StatusTypeDef.HAL_OK) :
    ∀ (m cnt : Nat) (s : Bridge) (w : World),
      s.DL_SPI_Handle_PB ≠ s.DL_SPI_Handle_LCD → cnt + m = 100 →
      ∃ (e : SyncPB_Exit) (k : Nat), k ≤ m ∧
        (∀ fuel, m < fuel →
          _DL_Sync_PB_loop E irq fuel cnt s w =
            Outcome.ret (e,
              { s with
                DL_RxBuffer_PB := E.pbByte (w.pbPos + k) :: s.DL_RxBuffer_PB.drop 1 },
              { w with
                pbPos := w.pbPos + (k + 1)
                calls := w.calls + (k + 1)
                trace := w.trace ++ scanLogPB (probeEventPB s) k e })) ∧
        (∀ i, i < k → E.pbByte (w.pbPos + i) ≠ E.DL_PACKET_PB_START) ∧
        (e = SyncPB_Exit.found ∧ E.pbByte (w.pbPos + k) = E.DL_PACKET_PB_START ∨
         e = SyncPB_Exit.gaveUp ∧ k = m ∧
           E.pbByte (w.pbPos + k) ≠ E.DL_PACKET_PB_START) := by
  intro m
  induction m with
  | zero =>
    intro cnt s w hne hc
    by_cases hb : E.pbByte w.pbPos = E.DL_PACKET_PB_START
    · refine ⟨SyncPB_Exit.found, 0, Nat.le_refl 0, ?_, ?_, Or.inl ⟨rfl, hb⟩⟩
      · intro fuel hf
        obtain ⟨f, rfl⟩ : ∃ f, fuel = f + 1 := ⟨fuel - 1, by omega⟩
        rw [sync_PB_turn E irq hOK f cnt s w hne, if_pos hb]
        rfl
      · intro i hi
        omega
    · refine ⟨SyncPB_Exit.gaveUp, 0, Nat.le_refl 0, ?_, ?_, Or.inr ⟨rfl, rfl, hb⟩⟩
      · intro fuel hf
        obtain ⟨f, rfl⟩ : ∃ f, fuel = f + 1 := ⟨fuel - 1, by omega⟩
        have hge : cnt ≥ 100 := by omega
        rw [sync_PB_turn E irq hOK f cnt s w hne, if_neg hb, if_pos hge]
        rfl
      · intro i hi
        omega
  | succ m ih =>
    intro cnt s w hne hc
    by_cases hb : E.pbByte w.pbPos = E.DL_PACKET_PB_START
    · refine ⟨SyncPB_Exit.found, 0, Nat.zero_le _, ?_, ?_, Or.inl ⟨rfl, hb⟩⟩
      · intro fuel hf
        obtain ⟨f, rfl⟩ : ∃ f, fuel = f + 1 := ⟨fuel - 1, by omega⟩
        rw [sync_PB_turn E irq hOK f cnt s w hne, if_pos hb]
        rfl
      · intro i hi
        omega
    · obtain ⟨e, k, hk, hrun, hmiss, hlast⟩ := ih (cnt + 1)
        { s with DL_RxBuffer_PB := E.pbByte w.pbPos :: s.DL_RxBuffer_PB.drop 1 }
        { w with
          pbPos := w.pbPos + 1
          calls := w.calls + 1
          trace := w.trace ++ [probeEventPB s, Event.delay 1] }
        hne (by omega)
      have hpos : ∀ j, w.pbPos + 1 + j = w.pbPos + (j + 1) := fun j => by omega
      have hcalls : w.calls + 1 + (k + 1) = w.calls + (k + 1 + 1) := by omega
      simp only [hpos] at hrun hmiss hlast
      refine ⟨e, k + 1, by omega, ?_, ?_, ?_⟩
      · intro fuel hf
        obtain ⟨f, rfl⟩ : ∃ f, fuel = f + 1 := ⟨fuel - 1, by omega⟩
        have hlt : ¬ cnt ≥ 100 := by omega
        have hc2 : (cnt + 1) % 256 = cnt + 1 := Nat.mod_eq_of_lt (by omega)
        rw [sync_PB_turn E irq hOK f cnt s w hne, if_neg hb, if_neg hlt, hc2,
          hrun f (by omega), hcalls]
        simp [scanLogPB, probeEventPB]
      · intro i hi
        cases i with
        | zero => exact hb
        | succ j => exact hmiss j (by omega)
      · rcases hlast with ⟨h1, h2⟩ | ⟨h1, h2, h3⟩
        · exact Or.inl ⟨h1, h2⟩
        · exact Or.inr ⟨h1, by omega, h3⟩

/-! ### The LCD scan on another bridge with the same stream -/

/-- With every exchange successful, whether the scan of `_DL_Sync_LCD` returns
depends only on the LCD stream and the LCD Rx buffer. -/
theorem _DL_Sync_LCD_loop_returns_congr {R : Type} (E : Env R) (irq : Bool)
    (hOK : ∀ k, E.hal k = HAL_StatusTypeDef.HAL_OK) :
    ∀ (fuel : Nat) (s t : Bridge) (w v : World),
      s.state = DL_State.Syncing_LCD → t.state = DL_State.Syncing_LCD →
      t.DL_RxBuffer_LCD = s.DL_RxBuffer_LCD → v.lcdIn = w.lcdIn →
      (∃ r, _DL_Sync_LCD_loop E irq fuel s w = Outcome.ret r) →
      ∃ r, _DL_Sync_LCD_loop E irq fuel t v = Outcome.ret r := by
  intro fuel
  induction fuel with
  | zero =>
    intro s t w v _ _ _ _ h
    obtain ⟨r, hr⟩ := h
    simp [_DL_Sync_LCD_loop] at hr
  | succ fuel ih =>
    intro s t w v hs ht hrx hin h
    obtain ⟨r, hr⟩ := h
    cases hw : w.lcdIn with
    | nil =>
      rw [sync_LCD_turn_nil E irq hOK fuel s w hw] at hr
      cases hr
    | cons c rest =>
      have hv : v.lcdIn = c :: rest := hin.trans hw
      by_cases hc : c = E.DL_PACKET_LCD_START
      · subst hc
        by_cases hshort : rest.length < u16 ((E.DL_PACKETSIZE : Int) - 1)
        · rw [sync_LCD_turn_short E irq hOK fuel s w rest hs hw hshort] at hr
          cases hr
        · rw [sync_LCD_turn_marker E irq hOK fuel s w rest _ hs hw rfl (by omega)] at hr
          rw [sync_LCD_turn_marker E irq hOK fuel t v rest _ ht hv rfl (by omega)]
          rw [hrx]
          split
          · exact ⟨_, rfl⟩
          · next hbad =>
            rw [if_neg hbad] at hr
            exact ih _ _ _ _ (by exact hs) (by exact ht) (by rfl) (by rfl) ⟨r, hr⟩
      · rw [sync_LCD_turn_noise E irq hOK fuel s w c rest hs hw hc] at hr
        rw [sync_LCD_turn_noise E irq hOK fuel t v c rest ht hv hc]
        exact ih _ _ _ _ (by exact hs) (by exact ht) (by simp [hrx]) (by rfl) ⟨r, hr⟩

/-! ### Steps of the cycle when every exchange succeeds -/

theorem run_snoc_ret {R : Type} (E : Env R) (ops : List Op) (op : Op)
    (s s1 s2 : Bridge) (w w1 w2 : World)
    (h1 : run E ops s w = Outcome.ret (s1, w1))
    (h2 : op.apply E s1 w1 = Outcome.ret (s2, w2)) :
    run E (ops ++ [op]) s w = Outcome.ret (s2, w2) := by
  rw [run_append_ret E ops [op] s s1 w w1 h1, run, h2]
  rfl

/-- The scan of `_DL_Sync_LCD` on `noise ++ marker :: rest ++ tail` with a valid
frame `marker :: rest`, as an equation. -/
theorem _DL_Sync_LCD_finds {R : Type} (E : Env R) (irq : Bool) (s : Bridge) (w : World)
    (noise rest tail : List Nat)
    (hOK : ∀ k, E.hal k = HAL_StatusTypeDef.HAL_OK)
    (hN2 : E.DL_PACKETSIZE ≤ 65536)
    (hrx : s.DL_RxBuffer_LCD.length = E.DL_PACKETSIZE)
    (hin : w.lcdIn = noise ++ E.DL_PACKET_LCD_START :: rest ++ tail)
    (hnoise : E.DL_PACKET_LCD_START ∉ noise)
    (hrest : rest.length + 1 = E.DL_PACKETSIZE)
    (hvalid : E.checksumOK (E.DL_PACKET_LCD_START :: rest) = true) :
    _DL_Sync_LCD E irq s w =
      Outcome.ret
        ({ s with
           state := DL_State.Synced_LCD
           DL_RxBuffer_LCD := E.DL_PACKET_LCD_START :: rest },
         { w with
           lcdIn := tail
           calls := w.calls + noise.length + 2
           armed := none
           trace := w.trace ++ List.replicate (noise.length + 1) (probeEvent s)
             ++ [restEvent s (E.DL_PACKETSIZE - 1)] }) := by
  have hloop := _DL_Sync_LCD_loop_candidate E irq hOK hN2 rest tail hrest
    (rest.length + tail.length + 1) noise (w.lcdIn.length + 1)
    { s with state := DL_State.Syncing_LCD } w rfl hrx hin hnoise
    (by rw [hin]; simp; omega)
  rw [if_pos hvalid] at hloop
  unfold _DL_Sync_LCD
  rw [hloop]
  rfl

/-- The `Syncing_PB` turn with every exchange successful and the PB on a handle
of its own: it returns in state `Synced_PB`, whichever way `_DL_Sync_PB` left
its loop, having changed nothing but the PB Rx buffer and, in the world, the PB
position, the call count and the log. -/
theorem iter_Syncing_PB_ok {R : Type} (E : Env R) (irq : Bool) (s : Bridge) (w : World)
    (hOK : ∀ k, E.hal k = HAL_StatusTypeDef.HAL_OK)
    (hst : s.state = DL_State.Syncing_PB)
    (hne : s.DL_SPI_Handle_PB ≠ s.DL_SPI_Handle_LCD) :
    ∃ (e : SyncPB_Exit) (rx : List Nat) (w1 : World),
      _DL_Sync_PB E irq s w = Outcome.ret (e, { s with DL_RxBuffer_PB := rx }, w1) ∧
      DL_Start_iter E irq s w =
        Outcome.ret ({ s with DL_RxBuffer_PB := rx, state := DL_State.Synced_PB }, w1) ∧
      w1.lcdIn = w.lcdIn ∧ w1.armed = w.armed := by
  obtain ⟨e, rx, w1, h1, h2, h3⟩ :=
    _DL_Sync_PB_loop_returns E irq hOK 101 0 s w hne (by omega) (by omega)
  refine ⟨e, rx, w1, h1, ?_, h2, h3⟩
  simp only [DL_Start_iter, hst, _DL_Sync_PB]
  rw [h1]

/-- The `Communicate_LCD` turn when the exchange is accepted and the LCD clocks
a whole frame. -/
theorem iter_Communicate_LCD_ok {R : Type} (E : Env R) (irq : Bool) (s : Bridge) (w : World)
    (hst : s.state = DL_State.Communicate_LCD)
    (hok : E.hal w.calls = HAL_StatusTypeDef.HAL_OK)
    (hbytes : E.DL_PACKETSIZE % 65536 ≤ w.lcdIn.length) :
    ∃ (s1 : Bridge) (w1 : World),
      DL_Start_iter E irq s w = Outcome.ret (s1, w1) ∧
      s1.state = (if irq then DL_State.Communicated_LCD else DL_State.Communicating_LCD) ∧
      w1.calls = w.calls + 1 := by
  have hlen : ¬ w.lcdIn.length < E.DL_PACKETSIZE % 65536 := by omega
  cases irq
  · simp only [DL_Start_iter, hst, HAL_SPI_TransmitReceive_DMA, hok, _DL_DMA_wait, hlen,
      if_true, if_false, ne_eq, not_true_eq_false, Bool.false_eq_true]
    exact ⟨_, _, rfl, rfl, rfl⟩
  · simp only [DL_Start_iter, hst, HAL_SPI_TransmitReceive_DMA, hok, _DL_DMA_wait, hlen,
      if_true, if_false, ne_eq, not_true_eq_false]
    refine ⟨_, _, rfl, ?_, rfl⟩
    simp [DL_TransferCompletedCB, Bridge.store, Bridge.setBuf]

/-- The `Communicated_LCD` turn always returns, in state `Communicate_PB`,
without touching the world. -/
theorem iter_Communicated_LCD_ok {R : Type} (E : Env R) (irq : Bool) (s : Bridge) (w : World)
    (hst : s.state = DL_State.Communicated_LCD) :
    ∃ s1 : Bridge, DL_Start_iter E irq s w = Outcome.ret (s1, w) ∧
      s1.state = DL_State.Communicate_PB := by
  simp [DL_Start_iter, hst]

/-- The `Communicated_PB` turn always returns, in state `Idle`, without
touching the world. -/
theorem iter_Communicated_PB_ok {R : Type} (E : Env R) (irq : Bool) (s : Bridge) (w : World)
    (hst : s.state = DL_State.Communicated_PB) :
    ∃ s1 : Bridge, DL_Start_iter E irq s w = Outcome.ret (s1, w) ∧
      s1.state = DL_State.Idle := by
  simp [DL_Start_iter, hst]

/-- The `Communicate_PB` turn with every exchange successful and a frame of at
least one byte: it returns in state `Communicated_PB`. -/
theorem iter_Communicate_PB_ok {R : Type} (E : Env R) (irq : Bool) (s : Bridge) (w : World)
    (hOK : ∀ k, E.hal k = HAL_StatusTypeDef.HAL_OK)
    (hst : s.state = DL_State.Communicate_PB)
    (hN : E.DL_PACKETSIZE % 65536 ≠ 0) :
    ∃ (s1 : Bridge) (w1 : World),
      DL_Start_iter E irq s w = Outcome.ret (s1, w1) ∧
      s1.state = DL_State.Communicated_PB := by
  obtain ⟨s2, w2, hloop, _, _, _⟩ :=
    _DL_DMA_Transfer_PB_loop_ok E s.DL_SPI_Handle_PB ⟨BufId.TxPB, 0⟩ ⟨BufId.RxPB, 0⟩ hOK
      (by decide) (E.DL_PACKETSIZE % 65536) 0 E.uninit
      { s with
        DL_RxBuffer_PB := cpyPacket E.DL_PACKETSIZE s.DL_Buffer_Sync s.DL_RxBuffer_PB
        state := DL_State.Communicate_PB } w
  refine ⟨{ s2 with state := DL_State.Communicated_PB }, w2, ?_, rfl⟩
  simp only [DL_Start_iter, hst, _DL_DMA_Transfer, _DL_DMA_Transfer_PB, Nat.mod_mod]
  rw [hloop]
  simp [hN]

/-- The cycle from `Inited` when every exchange succeeds, the PB has a handle
of its own and the LCD sends noise, a valid frame and at least one more frame's
worth of bytes: a run of turns of the main loop for every state of the cycle
but the unused `Communicating_PB`. -/
theorem cycle_reaches {R : Type} (E : Env R) (s : Bridge) (w : World)
    (noise rest tail : List Nat)
    (hOK : ∀ k, E.hal k = HAL_StatusTypeDef.HAL_OK)
    (hst : s.state = DL_State.Inited)
    (hne : s.DL_SPI_Handle_PB ≠ s.DL_SPI_Handle_LCD)
    (hN : E.DL_PACKETSIZE < 65536)
    (hrx : s.DL_RxBuffer_LCD.length = E.DL_PACKETSIZE)
    (hin : w.lcdIn = noise ++ E.DL_PACKET_LCD_START :: rest ++ tail)
    (hnoise : E.DL_PACKET_LCD_START ∉ noise)
    (hrest : rest.length + 1 = E.DL_PACKETSIZE)
    (hvalid : E.checksumOK (E.DL_PACKET_LCD_START :: rest) = true)
    (htail : E.DL_PACKETSIZE ≤ tail.length) :
    ∀ target : DL_State, target.normal = true →
      ∃ ops : List Op, (∀ op ∈ ops, op.isMain = true) ∧
        ∃ (s9 : Bridge) (w9 : World),
          run E ops s w = Outcome.ret (s9, w9) ∧ s9.state = target := by
  have hmod : E.DL_PACKETSIZE % 65536 = E.DL_PACKETSIZE := Nat.mod_eq_of_lt hN
  -- turn 1
  have r0 : run E [] s w = Outcome.ret (s, w) := rfl
  have a1 : (Op.iter true).apply E s w =
      Outcome.ret ({ s with state := DL_State.Syncing_PB }, w) := by
    simp [Op.apply, DL_Start_iter, hst]
  have r1 := run_snoc_ret E _ _ _ _ _ _ _ _ r0 a1
  -- turn 2
  obtain ⟨e, rx, w2, _, a2, hl2, _⟩ := iter_Syncing_PB_ok E true
    { s with state := DL_State.Syncing_PB } w hOK rfl hne
  have r2 := run_snoc_ret E _ (Op.iter true) _ _ _ _ _ _ r1 a2
  -- turn 3
  have a3 : (Op.iter true).apply E
      { s with DL_RxBuffer_PB := rx, state := DL_State.Synced_PB } w2 =
      Outcome.ret ({ s with DL_RxBuffer_PB := rx, state := DL_State.Syncing_LCD }, w2) := by
    simp [Op.apply, DL_Start_iter]
  have r3 := run_snoc_ret E _ (Op.iter true) _ _ _ _ _ _ r2 a3
  -- turn 4
  have hfind := _DL_Sync_LCD_finds E true
    { s with DL_RxBuffer_PB := rx, state := DL_State.Syncing_LCD } w2 noise rest tail
    hOK (by omega) hrx (hl2.trans hin) hnoise hrest hvalid
  have a4 : ∃ p : Bridge × World,
      (Op.iter true).apply E
        { s with DL_RxBuffer_PB := rx, state := DL_State.Syncing_LCD } w2 =
        Outcome.ret p ∧ p.1.state = DL_State.Synced_LCD ∧ p.2.lcdIn = tail := by
    simp only [Op.apply, DL_Start_iter]
    rw [hfind]
    exact ⟨_, rfl, rfl, rfl⟩
  obtain ⟨⟨s4, w4⟩, a4, hs4, hl4⟩ := a4
  simp only at hs4 hl4
  have r4 := run_snoc_ret E _ (Op.iter true) _ _ _ _ _ _ r3 a4
  -- turn 5
  have a5 : (Op.iter true).apply E s4 w4 =
      Outcome.ret ({ s4 with state := DL_State.Communicate_LCD }, w4) := by
    simp [Op.apply, DL_Start_iter, hs4]
  have r5 := run_snoc_ret E _ (Op.iter true) _ _ _ _ _ _ r4 a5
  -- turn 6, with and without the completion signal
  have hbytes : E.DL_PACKETSIZE % 65536 ≤ w4.lcdIn.length := by
    rw [hl4, hmod]; exact htail
  obtain ⟨s6f, w6f, a6f, hs6f, _⟩ := iter_Communicate_LCD_ok E false
    { s4 with state := DL_State.Communicate_LCD } w4 rfl (hOK _) hbytes
  have r6f := run_snoc_ret E _ (Op.iter false) _ _ _ _ _ _ r5 a6f
  obtain ⟨s6, w6, a6, hs6, _⟩ := iter_Communicate_LCD_ok E true
    { s4 with state := DL_State.Communicate_LCD } w4 rfl (hOK _) hbytes
  have r6 := run_snoc_ret E _ (Op.iter true) _ _ _ _ _ _ r5 a6
  -- turn 7
  obtain ⟨s7, a7, hs7⟩ := iter_Communicated_LCD_ok E true s6 w6 hs6
  have r7 := run_snoc_ret E _ (Op.iter true) _ _ _ _ _ _ r6 a7
  -- turn 8
  obtain ⟨s8, w8, a8, hs8⟩ := iter_Communicate_PB_ok E true s7 w6 hOK hs7
    (by rw [hmod]; omega)
  have r8 := run_snoc_ret E _ (Op.iter true) _ _ _ _ _ _ r7 a8
  -- turn 9
  obtain ⟨s9, a9, hs9⟩ := iter_Communicated_PB_ok E true s8 w8 hs8
  have r9 := run_snoc_ret E _ (Op.iter true) _ _ _ _ _ _ r8 a9
  intro target htarget
  cases target with
  | Unknown => cases htarget
  | DBG_Halt => cases htarget
  | Communicating_PB => cases htarget
  | Inited => exact ⟨_, by decide, _, _, r0, hst⟩
  | Syncing_PB => exact ⟨_, by decide, _, _, r1, rfl⟩
  | Synced_PB => exact ⟨_, by decide, _, _, r2, rfl⟩
  | Syncing_LCD => exact ⟨_, by decide, _, _, r3, rfl⟩
  | Synced_LCD => exact ⟨_, by decide, _, _, r4, hs4⟩
  | Communicate_LCD => exact ⟨_, by decide, _, _, r5, rfl⟩
  | Communicating_LCD => exact ⟨_, by decide, _, _, r6f, hs6f⟩
  | Communicated_LCD => exact ⟨_, by decide, _, _, r6, hs6⟩
  | Communicate_PB => exact ⟨_, by decide, _, _, r7, hs7⟩
  | Communicated_PB => exact ⟨_, by decide, _, _, r8, hs8⟩
  | Idle => exact ⟨_, by decide, _, _, r9, hs9⟩

/-! ### The debug flag is never read -/

theorem setDebug_handle_LCD (s : Bridge) (d : Int) :
    (DL_Set_Debug s d).DL_SPI_Handle_LCD = s.DL_SPI_Handle_LCD := rfl

theorem setDebug_handle_PB (s : Bridge) (d : Int) :
    (DL_Set_Debug s d).DL_SPI_Handle_PB = s.DL_SPI_Handle_PB := rfl

theorem setDebug_state (s : Bridge) (d : Int) :
    (DL_Set_Debug s d).state = s.state := rfl

theorem setDebug_RxLCD (s : Bridge) (d : Int) :
    (DL_Set_Debug s d).DL_RxBuffer_LCD = s.DL_RxBuffer_LCD := rfl

theorem setDebug_RxPB (s : Bridge) (d : Int) :
    (DL_Set_Debug s d).DL_RxBuffer_PB = s.DL_RxBuffer_PB := rfl

theorem setDebug_load (s : Bridge) (d : Int) (p : Ptr) (n : Nat) :
    (DL_Set_Debug s d).load p n = s.load p n := by
  obtain ⟨b, off⟩ := p
  cases b <;> rfl

theorem setDebug_store (s : Bridge) (d : Int) (p : Ptr) (bytes : List Nat) :
    (DL_Set_Debug s d).store p bytes = DL_Set_Debug (s.store p bytes) d := by
  obtain ⟨b, off⟩ := p
  cases b <;> rfl

theorem setDebug_CB (s : Bridge) (d : Int) (h : Nat) :
    DL_TransferCompletedCB (DL_Set_Debug s d) h = DL_Set_Debug (DL_TransferCompletedCB s h) d := by
  unfold DL_TransferCompletedCB
  by_cases h1 : h = s.DL_SPI_Handle_LCD <;>
    by_cases h2 : s.state = DL_State.Communicating_LCD <;>
    simp [DL_Set_Debug, h1, h2]

theorem setDebug_HAL {R : Type} (E : Env R) (s : Bridge) (d : Int) (w : World)
    (hspi : Nat) (pTx pRx : Ptr) (n : Nat) :
    HAL_SPI_TransmitReceive_DMA E (DL_Set_Debug s d) w hspi pTx pRx n =
      ((HAL_SPI_TransmitReceive_DMA E s w hspi pTx pRx n).1,
       DL_Set_Debug (HAL_SPI_TransmitReceive_DMA E s w hspi pTx pRx n).2.1 d,
       (HAL_SPI_TransmitReceive_DMA E s w hspi pTx pRx n).2.2) := by
  unfold HAL_SPI_TransmitReceive_DMA
  simp only [setDebug_load, setDebug_store, setDebug_handle_LCD]
  cases E.hal w.calls
  · simp only []
    by_cases hl : hspi = s.DL_SPI_Handle_LCD
    · simp only [hl, if_true]
    · simp only [hl, if_false]
  all_goals rfl

theorem setDebug_wait (irq : Bool) (s : Bridge) (d : Int) (w : World) (h : Nat) :
    _DL_DMA_wait irq (DL_Set_Debug s d) w h =
      Outcome.map (withDebug d) (_DL_DMA_wait irq s w h) := by
  unfold _DL_DMA_wait
  by_cases hl : h = s.DL_SPI_Handle_LCD
  · have hl2 : h = (DL_Set_Debug s d).DL_SPI_Handle_LCD := hl
    rw [if_pos hl, if_pos hl2]
    cases w.armed with
    | none => rfl
    | some pl =>
      obtain ⟨p, len⟩ := pl
      simp only []
      split
      · rfl
      · cases irq
        · simp only [setDebug_store, Outcome.map, withDebug, Bool.false_eq_true, if_false]
        · simp only [setDebug_store, setDebug_CB, Outcome.map, withDebug, if_true]
  · have hl2 : ¬ h = (DL_Set_Debug s d).DL_SPI_Handle_LCD := hl
    rw [if_neg hl, if_neg hl2]
    rfl

theorem setDebug_PB_loop {R : Type} (E : Env R) (d : Int) (hspi : Nat) (pTx pRx : Ptr) :
    ∀ (left i : Nat) (st : HAL_StatusTypeDef) (s : Bridge) (w : World),
      _DL_DMA_Transfer_PB_loop E hspi pTx pRx left i st (DL_Set_Debug s d) w =
        withDebugT d (_DL_DMA_Transfer_PB_loop E hspi pTx pRx left i st s w) := by
  intro left
  induction left with
  | zero =>
    intro i st s w
    rfl
  | succ left ih =>
    intro i st s w
    simp only [_DL_DMA_Transfer_PB_loop, setDebug_HAL]
    generalize HAL_SPI_TransmitReceive_DMA E s w hspi (pTx.add i) (pRx.add i) 1 = r
    obtain ⟨st1, s1, w1⟩ := r
    simp only []
    split
    · rfl
    · exact ih (i + 1) st1 s1 (HAL_Delay w1 1)

theorem setDebug_Transfer {R : Type} (E : Env R) (d : Int) (s : Bridge) (w : World)
    (hspi : Nat) (pTx pRx : Ptr) (size : Nat) (mode : DL_DMA_MODE) :
    _DL_DMA_Transfer E (DL_Set_Debug s d) w hspi pTx pRx size mode =
      withDebugT d (_DL_DMA_Transfer E s w hspi pTx pRx size mode) := by
  cases mode
  · simp only [_DL_DMA_Transfer, setDebug_HAL]
    rfl
  · simp only [_DL_DMA_Transfer, _DL_DMA_Transfer_LCD, _DL_DMA_Transfer_PB, setDebug_HAL,
      setDebug_PB_loop, setDebug_handle_LCD]
    split <;> rfl
  · simp only [_DL_DMA_Transfer, _DL_DMA_Transfer_LCD, setDebug_HAL]
    rfl
  · simp only [_DL_DMA_Transfer, _DL_DMA_Transfer_PB, setDebug_PB_loop]

theorem setDebug_Sync_LCD_loop {R : Type} (E : Env R) (irq : Bool) (d : Int) :
    ∀ (fuel : Nat) (s : Bridge) (w : World),
      _DL_Sync_LCD_loop E irq fuel (DL_Set_Debug s d) w =
        Outcome.map (withDebug d) (_DL_Sync_LCD_loop E irq fuel s w) := by
  intro fuel
  induction fuel with
  | zero =>
    intro s w
    rfl
  | succ fuel ih =>
    intro s w
    simp only [_DL_Sync_LCD_loop, setDebug_HAL, setDebug_handle_LCD]
    generalize HAL_SPI_TransmitReceive_DMA E s w s.DL_SPI_Handle_LCD
      ⟨BufId.Sync, 0⟩ ⟨BufId.RxLCD, 0⟩ 1 = r
    obtain ⟨st, s1, w1⟩ := r
    simp only [setDebug_wait, setDebug_handle_LCD]
    split
    · rfl
    · cases _DL_DMA_wait irq s1 w1 s1.DL_SPI_Handle_LCD with
      | ret p =>
        obtain ⟨s2, w2⟩ := p
        simp only [Outcome.map, withDebug, setDebug_RxLCD, setDebug_HAL, setDebug_handle_LCD]
        split
        · generalize HAL_SPI_TransmitReceive_DMA E s2 w2 s2.DL_SPI_Handle_LCD
            ⟨BufId.Sync, 0⟩ ⟨BufId.RxLCD, 1⟩ (u16 ((E.DL_PACKETSIZE : Int) - 1)) = r2
          obtain ⟨st3, s3, w3⟩ := r2
          simp only [setDebug_wait, setDebug_handle_LCD]
          split
          · rfl
          · cases _DL_DMA_wait irq s3 w3 s3.DL_SPI_Handle_LCD with
            | ret p2 =>
              obtain ⟨s4, w4⟩ := p2
              simp only [Outcome.map, withDebug, setDebug_RxLCD]
              split
              · rfl
              · exact ih s4 w4
            | fatal => rfl
            | blocked => rfl
            | halted => rfl
        · exact ih s2 w2
      | fatal => rfl
      | blocked => rfl
      | halted => rfl

theorem setDebug_Sync_LCD {R : Type} (E : Env R) (irq : Bool) (d : Int) (s : Bridge) (w : World) :
    _DL_Sync_LCD E irq (DL_Set_Debug s d) w =
      Outcome.map (withDebug d) (_DL_Sync_LCD E irq s w) := by
  unfold _DL_Sync_LCD
  have h := setDebug_Sync_LCD_loop E irq d (w.lcdIn.length + 1)
    { s with state := DL_State.Syncing_LCD } w
  have hs : ({ DL_Set_Debug s d with state := DL_State.Syncing_LCD } : Bridge) =
      DL_Set_Debug { s with state := DL_State.Syncing_LCD } d := rfl
  rw [hs, h]
  cases _DL_Sync_LCD_loop E irq (w.lcdIn.length + 1)
      { s with state := DL_State.Syncing_LCD } w with
  | ret p => rfl
  | fatal => rfl
  | blocked => rfl
  | halted => rfl

theorem setDebug_Sync_PB_loop {R : Type} (E : Env R) (irq : Bool) (d : Int) :
    ∀ (fuel cnt : Nat) (s : Bridge) (w : World),
      _DL_Sync_PB_loop E irq fuel cnt (DL_Set_Debug s d) w =
        Outcome.map (withDebugX d) (_DL_Sync_PB_loop E irq fuel cnt s w) := by
  intro fuel
  induction fuel with
  | zero =>
    intro cnt s w
    rfl
  | succ fuel ih =>
    intro cnt s w
    simp only [_DL_Sync_PB_loop, setDebug_Transfer, setDebug_handle_PB]
    generalize _DL_DMA_Transfer E s w s.DL_SPI_Handle_PB
      ⟨BufId.Sync, 0⟩ ⟨BufId.RxPB, 0⟩ 1 DL_DMA_MODE.Sync_First = r
    obtain ⟨st, s1, w1⟩ := r
    simp only [withDebugT, setDebug_wait, setDebug_handle_PB]
    split
    · rfl
    · cases _DL_DMA_wait irq s1 w1 s1.DL_SPI_Handle_PB with
      | ret p =>
        obtain ⟨s2, w2⟩ := p
        simp only [Outcome.map, withDebug, setDebug_RxPB]
        split
        · rfl
        · split
          · rfl
          · exact ih _ s2 _
      | fatal => rfl
      | blocked => rfl
      | halted => rfl

/-- One turn of the main loop commutes with setting the debug flag: the flag is
carried along and nothing else depends on it. -/
theorem setDebug_iter {R : Type} (E : Env R) (irq : Bool) (d : Int) (s : Bridge) (w : World) :
    DL_Start_iter E irq (DL_Set_Debug s d) w =
      Outcome.map (withDebug d) (DL_Start_iter E irq s w) := by
  cases hst : s.state with
  | Unknown => simp only [DL_Start_iter, setDebug_state, hst]; rfl
  | DBG_Halt => simp only [DL_Start_iter, setDebug_state, hst]; rfl
  | Communicating_PB => simp only [DL_Start_iter, setDebug_state, hst]; rfl
  | Inited => simp only [DL_Start_iter, setDebug_state, hst]; rfl
  | Synced_PB => simp only [DL_Start_iter, setDebug_state, hst]; rfl
  | Synced_LCD => simp only [DL_Start_iter, setDebug_state, hst]; rfl
  | Idle => simp only [DL_Start_iter, setDebug_state, hst]; rfl
  | Communicating_LCD => simp only [DL_Start_iter, setDebug_state, hst]; rfl
  | Communicated_LCD =>
    simp only [DL_Start_iter, setDebug_state, hst, setDebug_RxLCD]
    cases E.checksumOK s.DL_RxBuffer_LCD <;> rfl
  | Communicated_PB =>
    simp only [DL_Start_iter, setDebug_state, hst, setDebug_RxPB]
    cases E.checksumOK s.DL_RxBuffer_PB <;> rfl
  | Syncing_PB =>
    simp only [DL_Start_iter, setDebug_state, hst, _DL_Sync_PB, setDebug_Sync_PB_loop]
    cases _DL_Sync_PB_loop E irq 101 0 s w with
    | ret p => rfl
    | fatal => rfl
    | blocked => rfl
    | halted => rfl
  | Syncing_LCD =>
    simp only [DL_Start_iter, setDebug_state, hst, setDebug_Sync_LCD]
    cases _DL_Sync_LCD E irq s w with
    | ret p => rfl
    | fatal => rfl
    | blocked => rfl
    | halted => rfl
  | Communicate_LCD =>
    have hpro : ∀ t : Bridge, t.state = DL_State.Communicate_LCD →
        DL_Start_iter E irq t w =
          (if (HAL_SPI_TransmitReceive_DMA E (Communicate_LCD_prologue E t) w
                t.DL_SPI_Handle_LCD ⟨BufId.TxLCD, 0⟩ ⟨BufId.RxLCD, 0⟩ E.DL_PACKETSIZE).1
              ≠ HAL_StatusTypeDef.HAL_OK then DL_Error_Handler
           else _DL_DMA_wait irq
             { (HAL_SPI_TransmitReceive_DMA E (Communicate_LCD_prologue E t) w
                  t.DL_SPI_Handle_LCD ⟨BufId.TxLCD, 0⟩ ⟨BufId.RxLCD, 0⟩
                  E.DL_PACKETSIZE).2.1 with
               pkgcount := (HAL_SPI_TransmitReceive_DMA E (Communicate_LCD_prologue E t) w
                  t.DL_SPI_Handle_LCD ⟨BufId.TxLCD, 0⟩ ⟨BufId.RxLCD, 0⟩
                  E.DL_PACKETSIZE).2.1.pkgcount + 1 }
             (HAL_SPI_TransmitReceive_DMA E (Communicate_LCD_prologue E t) w
                t.DL_SPI_Handle_LCD ⟨BufId.TxLCD, 0⟩ ⟨BufId.RxLCD, 0⟩ E.DL_PACKETSIZE).2.2
             (HAL_SPI_TransmitReceive_DMA E (Communicate_LCD_prologue E t) w
                t.DL_SPI_Handle_LCD ⟨BufId.TxLCD, 0⟩ ⟨BufId.RxLCD, 0⟩
                E.DL_PACKETSIZE).2.1.DL_SPI_Handle_LCD) := by
      intro t ht
      simp only [DL_Start_iter, ht]
      rfl
    rw [hpro s hst, hpro (DL_Set_Debug s d) hst]
    have hp : Communicate_LCD_prologue E (DL_Set_Debug s d) =
        DL_Set_Debug (Communicate_LCD_prologue E s) d := rfl
    rw [hp, setDebug_HAL, setDebug_handle_LCD]
    generalize HAL_SPI_TransmitReceive_DMA E (Communicate_LCD_prologue E s) w
      s.DL_SPI_Handle_LCD ⟨BufId.TxLCD, 0⟩ ⟨BufId.RxLCD, 0⟩ E.DL_PACKETSIZE = r
    obtain ⟨st, s3, w3⟩ := r
    simp only []
    split
    · rfl
    · exact setDebug_wait irq { s3 with pkgcount := s3.pkgcount + 1 } d w3 _
  | Communicate_PB =>
    have hpro : ∀ t : Bridge, t.state = DL_State.Communicate_PB →
        DL_Start_iter E irq t w =
          (if (_DL_DMA_Transfer E
                { t with DL_RxBuffer_PB :=
                    cpyPacket E.DL_PACKETSIZE t.DL_Buffer_Sync t.DL_RxBuffer_PB } w
                t.DL_SPI_Handle_PB ⟨BufId.TxPB, 0⟩ ⟨BufId.RxPB, 0⟩ E.DL_PACKETSIZE
                DL_DMA_MODE.PB).1 ≠ HAL_StatusTypeDef.HAL_OK then DL_Error_Handler
           else Outcome.ret
             ({ (_DL_DMA_Transfer E
                  { t with DL_RxBuffer_PB :=
                      cpyPacket E.DL_PACKETSIZE t.DL_Buffer_Sync t.DL_RxBuffer_PB } w
                  t.DL_SPI_Handle_PB ⟨BufId.TxPB, 0⟩ ⟨BufId.RxPB, 0⟩ E.DL_PACKETSIZE
                  DL_DMA_MODE.PB).2.1 with state := DL_State.Communicated_PB },
              (_DL_DMA_Transfer E
                  { t with DL_RxBuffer_PB :=
                      cpyPacket E.DL_PACKETSIZE t.DL_Buffer_Sync t.DL_RxBuffer_PB } w
                  t.DL_SPI_Handle_PB ⟨BufId.TxPB, 0⟩ ⟨BufId.RxPB, 0⟩ E.DL_PACKETSIZE
                  DL_DMA_MODE.PB).2.2)) := by
      intro t ht
      simp only [DL_Start_iter, ht]
    rw [hpro s hst, hpro (DL_Set_Debug s d) hst]
    have hp :
        ({ DL_Set_Debug s d with
            DL_RxBuffer_PB :=
              cpyPacket E.DL_PACKETSIZE (DL_Set_Debug s d).DL_Buffer_Sync
                (DL_Set_Debug s d).DL_RxBuffer_PB } : Bridge) =
        DL_Set_Debug
          { s with
            DL_RxBuffer_PB := cpyPacket E.DL_PACKETSIZE s.DL_Buffer_Sync s.DL_RxBuffer_PB }
          d := rfl
    rw [hp, setDebug_Transfer, setDebug_handle_PB]
    generalize _DL_DMA_Transfer E
      { s with DL_RxBuffer_PB :=
          cpyPacket E.DL_PACKETSIZE s.DL_Buffer_Sync s.DL_RxBuffer_PB } w
      s.DL_SPI_Handle_PB ⟨BufId.TxPB, 0⟩ ⟨BufId.RxPB, 0⟩ E.DL_PACKETSIZE DL_DMA_MODE.PB = r
    obtain ⟨st, s3, w3⟩ := r
    simp only [withDebugT]
    split <;> rfl

/-! ### What a turn of the main loop does to the Tx buffers -/

/-- One turn of the main loop keeps the Rx and sync buffers frame-sized, and
the only writes into the Tx buffers are the two relay copies: the PB Tx buffer
in state `Communicated_LCD` with a valid LCD frame, the LCD Tx buffer in state
`Communicated_PB` with a valid PB frame. -/
theorem iter_Tx {R : Type} (E : Env R) (irq : Bool) (s s9 : Bridge) (w w9 : World)
    (h : DL_Start_iter E irq s w = Outcome.ret (s9, w9)) :
    (s.sized E → s9.sized E) ∧
    (s9.DL_TxBuffer_PB = s.DL_TxBuffer_PB ∨
      (s.state = DL_State.Communicated_LCD ∧ E.checksumOK s.DL_RxBuffer_LCD = true ∧
        s9.DL_TxBuffer_PB = E.DLO_apply_overwrites
          (cpyPacket E.DL_PACKETSIZE s.DL_RxBuffer_LCD s.DL_TxBuffer_PB) E.DLO_Buffer_PB)) ∧
    (s9.DL_TxBuffer_LCD = s.DL_TxBuffer_LCD ∨
      (s.state = DL_State.Communicated_PB ∧ E.checksumOK s.DL_RxBuffer_PB = true ∧
        s9.DL_TxBuffer_LCD = E.DLO_apply_overwrites
          (cpyPacket E.DL_PACKETSIZE s.DL_RxBuffer_PB s.DL_TxBuffer_LCD) E.DLO_Buffer_LCD)) := by
  by_cases h1 : s.state = DL_State.Communicated_LCD
  · simp only [DL_Start_iter, h1] at h
    injection h with h
    injection h with hs hw
    subst hs
    cases hc : E.checksumOK s.DL_RxBuffer_LCD
    · simp only [hc]
      exact ⟨id, Or.inl rfl, Or.inl rfl⟩
    · simp only [hc]
      exact ⟨id, Or.inr ⟨h1, trivial, rfl⟩, Or.inl rfl⟩
  · by_cases h2 : s.state = DL_State.Communicated_PB
    · simp only [DL_Start_iter, h2] at h
      injection h with h
      injection h with hs hw
      subst hs
      cases hc : E.checksumOK s.DL_RxBuffer_PB
      · simp only [hc]
        exact ⟨id, Or.inl rfl, Or.inl rfl⟩
      · simp only [hc]
        exact ⟨id, Or.inl rfl, Or.inr ⟨h2, trivial, rfl⟩⟩
    · by_cases hn : s.state.normal = true
      · obtain ⟨⟨_, c2, c3, _⟩, hz⟩ := ((iter_facts E irq s w hn).2 s9 w9 h).2 h1 h2
        exact ⟨hz, Or.inl c2, Or.inl c3⟩
      · have hcases : s.state = DL_State.Unknown ∨ s.state = DL_State.DBG_Halt ∨
            s.state = DL_State.Communicating_PB := by
          cases hst : s.state <;> simp [hst, DL_State.normal] at hn ⊢
        rcases hcases with hst | hst | hst
        · simp [DL_Start_iter, hst] at h
        · simp [DL_Start_iter, hst] at h
        · simp only [DL_Start_iter, hst] at h
          injection h with h
          injection h with hs hw
          subst hs
          exact ⟨id, Or.inl rfl, Or.inl rfl⟩

/-! ### Checksum-valid frames -/

/-- Storing the checksum in the last byte of a frame makes the frame valid. -/
theorem set_checksum_valid {R : Type} (E : Env R) (buf : List Nat)
    (hdep : ∀ f g : List Nat, f.take (E.DL_PACKETSIZE - 1) = g.take (E.DL_PACKETSIZE - 1) →
      E.checksum f = E.checksum g)
    (hok : ∀ f : List Nat, E.checksumOK f = true ↔
      f.getD (E.DL_PACKETSIZE - 1) 0 = E.checksum f)
    (hN : 1 ≤ E.DL_PACKETSIZE) (hlen : E.DL_PACKETSIZE ≤ buf.length) :
    E.checksumOK (buf.set (E.DL_PACKETSIZE - 1) (E.checksum buf)) = true := by
  rw [hok]
  have htake : (buf.set (E.DL_PACKETSIZE - 1) (E.checksum buf)).take (E.DL_PACKETSIZE - 1)
      = buf.take (E.DL_PACKETSIZE - 1) := by
    apply List.ext_getElem?
    intro i
    simp only [List.getElem?_take, List.getElem?_set]
    split
    · rename_i hi
      have : ¬ (E.DL_PACKETSIZE - 1 = i) := by omega
      simp [this]
    · rfl
  rw [hdep _ _ htake]
  have hlt : E.DL_PACKETSIZE - 1 < buf.length := by omega
  simp [List.getD_eq_getElem?_getD, List.getElem?_set, hlt]

/-- The copy of a valid frame is a valid frame. -/
theorem cpyPacket_valid {R : Type} (E : Env R) (src dst : List Nat)
    (hdep : ∀ f g : List Nat, f.take (E.DL_PACKETSIZE - 1) = g.take (E.DL_PACKETSIZE - 1) →
      E.checksum f = E.checksum g)
    (hok : ∀ f : List Nat, E.checksumOK f = true ↔
      f.getD (E.DL_PACKETSIZE - 1) 0 = E.checksum f)
    (hN : 1 ≤ E.DL_PACKETSIZE) (hlen : E.DL_PACKETSIZE ≤ src.length)
    (hsrc : E.checksumOK src = true) :
    E.checksumOK (cpyPacket E.DL_PACKETSIZE src dst) = true := by
  rw [hok] at hsrc ⊢
  have htake : (cpyPacket E.DL_PACKETSIZE src dst).take (E.DL_PACKETSIZE - 1)
      = src.take (E.DL_PACKETSIZE - 1) := by
    unfold cpyPacket
    rw [List.take_append_of_le_length (by simp; omega), List.take_take]
    congr 1
    omega
  have hget : (cpyPacket E.DL_PACKETSIZE src dst).getD (E.DL_PACKETSIZE - 1) 0
      = src.getD (E.DL_PACKETSIZE - 1) 0 := by
    unfold cpyPacket
    simp only [List.getD_eq_getElem?_getD]
    rw [List.getElem?_append_left (by simp; omega)]
    rw [List.getElem?_take_of_lt (by omega)]
  rw [hget, hdep _ _ htake]
  exact hsrc

/-- Every operation keeps the Tx buffers valid, when the checksum byte is the
last byte of the frame and the overwrite hook keeps valid frames valid. -/
theorem apply_txValid {R : Type} (E : Env R)
    (hdep : ∀ f g : List Nat, f.take (E.DL_PACKETSIZE - 1) = g.take (E.DL_PACKETSIZE - 1) →
      E.checksum f = E.checksum g)
    (hok : ∀ f : List Nat, E.checksumOK f = true ↔
      f.getD (E.DL_PACKETSIZE - 1) 0 = E.checksum f)
    (hhook : ∀ (f : List Nat) (r : R), E.checksumOK f = true →
      E.checksumOK (E.DLO_apply_overwrites f r) = true)
    (hN : 1 ≤ E.DL_PACKETSIZE)
    (op : Op) (s s9 : Bridge) (w w9 : World)
    (hv : s.txValid E) (h : op.apply E s w = Outcome.ret (s9, w9)) :
    s9.txValid E := by
  obtain ⟨v1, v2, v3⟩ := hv
  cases op with
  | iter irq =>
    simp only [Op.apply] at h
    obtain ⟨hz, hpb, hlcd⟩ := iter_Tx E irq s s9 w w9 h
    refine ⟨?_, ?_, hz v3⟩
    · rcases hpb with hpb | ⟨_, hc, hpb⟩
      · rw [hpb]; exact v1
      · rw [hpb]
        exact hhook _ _ (cpyPacket_valid E _ _ hdep hok hN v3.2.2 hc)
    · rcases hlcd with hlcd | ⟨_, hc, hlcd⟩
      · rw [hlcd]; exact v2
      · rw [hlcd]
        exact hhook _ _ (cpyPacket_valid E _ _ hdep hok hN v3.2.1 hc)
  | cb hd =>
    simp only [Op.apply] at h
    injection h with h
    injection h with hs hw
    subst hs
    obtain ⟨⟨_, c2, c3, _⟩, hz⟩ := RxOnly_CB E s hd
    exact ⟨by rw [c2]; exact v1, by rw [c3]; exact v2, hz v3⟩
  | reboot =>
    simp only [Op.apply] at h
    injection h with h
    injection h with hs hw
    subst hs
    exact ⟨v1, v2, v3⟩
  | init a b =>
    simp only [Op.apply] at h
    injection h with h
    injection h with hs hw
    subst hs
    exact ⟨v1, v2, v3⟩
  | setDebug v =>
    simp only [Op.apply] at h
    injection h with h
    injection h with hs hw
    subst hs
    exact ⟨v1, v2, v3⟩

theorem run_txValid {R : Type} (E : Env R)
    (hdep : ∀ f g : List Nat, f.take (E.DL_PACKETSIZE - 1) = g.take (E.DL_PACKETSIZE - 1) →
      E.checksum f = E.checksum g)
    (hok : ∀ f : List Nat, E.checksumOK f = true ↔
      f.getD (E.DL_PACKETSIZE - 1) 0 = E.checksum f)
    (hhook : ∀ (f : List Nat) (r : R), E.checksumOK f = true →
      E.checksumOK (E.DLO_apply_overwrites f r) = true)
    (hN : 1 ≤ E.DL_PACKETSIZE) :
    ∀ (ops : List Op) (s s9 : Bridge) (w w9 : World),
      s.txValid E → run E ops s w = Outcome.ret (s9, w9) → s9.txValid E := by
  intro ops
  induction ops with
  | nil =>
    intro s s9 w w9 hv h
    simp only [run] at h
    injection h with h
    injection h with hs hw
    subst hs
    exact hv
  | cons op ops ih =>
    intro s s9 w w9 hv h
    rw [run] at h
    cases hr : op.apply E s w with
    | ret p =>
      obtain ⟨s1, w1⟩ := p
      rw [hr] at h
      exact ih s1 s9 w1 w9 (apply_txValid E hdep hok hhook hN op s s1 w w1 hv hr) h
    | fatal => rw [hr] at h; cases h
    | blocked => rw [hr] at h; cases h
    | halted => rw [hr] at h; cases h

/-- The statements of `DL_Start` ahead of its loop make both Tx buffers
valid. -/
theorem init_txValid {R : Type} (E : Env R) (s : Bridge)
    (hdep : ∀ f g : List Nat, f.take (E.DL_PACKETSIZE - 1) = g.take (E.DL_PACKETSIZE - 1) →
      E.checksum f = E.checksum g)
    (hok : ∀ f : List Nat, E.checksumOK f = true ↔
      f.getD (E.DL_PACKETSIZE - 1) 0 = E.checksum f)
    (hN : 1 ≤ E.DL_PACKETSIZE) (hsz : s.sized E)
    (hpb : E.DL_PACKETSIZE ≤ s.DL_TxBuffer_PB.length)
    (hlcd : E.DL_PACKETSIZE ≤ s.DL_TxBuffer_LCD.length) :
    (DL_Start_init E s).txValid E := by
  refine ⟨set_checksum_valid E _ hdep hok hN hpb, set_checksum_valid E _ hdep hok hN hlcd, ?_⟩
  obtain ⟨h1, h2, h3⟩ := hsz
  refine ⟨h1, ?_, ?_⟩
  · show E.DL_PACKETSIZE ≤ (s.DL_RxBuffer_PB.set _ _).length
    rw [List.length_set]; exact h2
  · show E.DL_PACKETSIZE ≤ (s.DL_RxBuffer_LCD.set _ _).length
    rw [List.length_set]; exact h3

/-! ## The relay steps -/

/-- C1: in state `Communicated_LCD` with a checksum-valid LCD Rx buffer (all
buffers frame-sized), one turn of the main loop returns, copies the LCD Rx
buffer exactly into the PB Tx buffer and applies the overwrite hook with the PB
ruleset to it; both error counters and the LCD Tx buffer keep their values, the
world is untouched and the state becomes `Communicate_PB`. -/
theorem C1_LCDReceived_valid {R : Type} (E : Env R) (irq : Bool) (s : Bridge) (w : World)
    (hstate : s.state = DL_State.Communicated_LCD)
    (hok : E.checksumOK s.DL_RxBuffer_LCD = true)
    (hrx : s.DL_RxBuffer_LCD.length = E.DL_PACKETSIZE)
    (htx : s.DL_TxBuffer_PB.length = E.DL_PACKETSIZE) :
    ∃ s1 : Bridge, DL_Start_iter E irq s w = Outcome.ret (s1, w) ∧
      cpyPacket E.DL_PACKETSIZE s.DL_RxBuffer_LCD s.DL_TxBuffer_PB = s.DL_RxBuffer_LCD ∧
      s1.DL_TxBuffer_PB = E.DLO_apply_overwrites s.DL_RxBuffer_LCD E.DLO_Buffer_PB ∧
      s1.DL_ChkCnt_LCD = s.DL_ChkCnt_LCD ∧
      s1.DL_ChkCnt_PB = s.DL_ChkCnt_PB ∧
      s1.DL_TxBuffer_LCD = s.DL_TxBuffer_LCD ∧
      s1.state = DL_State.Communicate_PB := by
  have hcp := cpyPacket_exact E.DL_PACKETSIZE _ _ hrx htx
  refine ⟨{ s with
      DL_TxBuffer_PB := E.DLO_apply_overwrites s.DL_RxBuffer_LCD E.DLO_Buffer_PB
      state := DL_State.Communicate_PB }, ?_, hcp, rfl, rfl, rfl, rfl, rfl⟩
  simp [DL_Start_iter, hstate, hok, hcp]

/-- C1 at the example environment: the boot-time bridge holding a valid LCD
frame. -/
theorem C1_LCDReceived_valid_witness :
    ∃ s1 : Bridge,
      DL_Start_iter (exampleEnv (fun _ => 0)) true
          { exampleBridge with
            state := DL_State.Communicated_LCD, DL_RxBuffer_LCD := goodLCD }
          (exampleWorld []) = Outcome.ret (s1, exampleWorld []) ∧
      s1.DL_TxBuffer_PB = [0xB0, 0x01, 0x80, 0x0A, 0x13, 0x03, 0x27, 0xF0, 0x75, 0x00, 0x31] ∧
      s1.state = DL_State.Communicate_PB := by
  obtain ⟨s1, h1, _, h3, _, _, _, h7⟩ :=
    C1_LCDReceived_valid (exampleEnv (fun _ => 0)) true
      { exampleBridge with
        state := DL_State.Communicated_LCD, DL_RxBuffer_LCD := goodLCD }
      (exampleWorld []) rfl (by decide) (by decide) (by decide)
  exact ⟨s1, h1, by rw [h3]; decide, h7⟩

/-- C2: in state `Communicated_LCD` with an LCD Rx buffer that fails the
checksum, one turn of the main loop returns with the PB Tx buffer unchanged,
the LCD error counter one higher (modulo 256), the PB error counter unchanged
and the state `Communicate_PB`; the result is the same whatever the overwrite
hook is, so the hook plays no part in it. -/
theorem C2_LCDReceived_invalid {R : Type} (E : Env R) (irq : Bool) (s : Bridge) (w : World)
    (hstate : s.state = DL_State.Communicated_LCD)
    (hbad : E.checksumOK s.DL_RxBuffer_LCD = false) :
    (∃ s1 : Bridge, DL_Start_iter E irq s w = Outcome.ret (s1, w) ∧
      s1.DL_TxBuffer_PB = s.DL_TxBuffer_PB ∧
      s1.DL_ChkCnt_LCD = (s.DL_ChkCnt_LCD + 1) % 256 ∧
      s1.DL_ChkCnt_PB = s.DL_ChkCnt_PB ∧
      s1.state = DL_State.Communicate_PB) ∧
    ∀ hook : List Nat → R → List Nat,
      DL_Start_iter { E with DLO_apply_overwrites := hook } irq s w
        = DL_Start_iter E irq s w := by
  refine ⟨⟨{ s with
      DL_ChkCnt_LCD := (s.DL_ChkCnt_LCD + 1) % 256
      state := DL_State.Communicate_PB }, ?_, rfl, rfl, rfl, rfl⟩, ?_⟩
  · simp [DL_Start_iter, hstate, hbad]
  · intro hook
    simp [DL_Start_iter, hstate, hbad]

/-- C2 at the example environment: a marker-led frame with a wrong checksum
byte, with the LCD counter at 255 (so the increment wraps to 0). -/
theorem C2_LCDReceived_invalid_witness :
    ∃ s1 : Bridge,
      DL_Start_iter (exampleEnv (fun _ => 0)) true
          { exampleBridge with
            state := DL_State.Communicated_LCD, DL_RxBuffer_LCD := badLCD,
            DL_ChkCnt_LCD := 255 }
          (exampleWorld []) = Outcome.ret (s1, exampleWorld []) ∧
      s1.DL_TxBuffer_PB = exampleBridge.DL_TxBuffer_PB ∧
      s1.DL_ChkCnt_LCD = 0 ∧
      s1.state = DL_State.Communicate_PB := by
  obtain ⟨⟨s1, h1, h2, h3, _, h5⟩, _⟩ :=
    C2_LCDReceived_invalid (exampleEnv (fun _ => 0)) true
      { exampleBridge with
        state := DL_State.Communicated_LCD, DL_RxBuffer_LCD := badLCD,
        DL_ChkCnt_LCD := 255 }
      (exampleWorld []) rfl (by decide)
  exact ⟨s1, h1, h2, h3, h5⟩

/-- C3: in state `Communicated_PB` with a checksum-valid PB Rx buffer (all
buffers frame-sized), one turn of the main loop returns, copies the PB Rx
buffer exactly into the LCD Tx buffer and applies the overwrite hook with the
LCD ruleset to it; both error counters and the PB Tx buffer keep their values,
the world is untouched and the state becomes `Idle`. -/
theorem C3_PBReceived_valid {R : Type} (E : Env R) (irq : Bool) (s : Bridge) (w : World)
    (hstate : s.state = DL_State.Communicated_PB)
    (hok : E.checksumOK s.DL_RxBuffer_PB = true)
    (hrx : s.DL_RxBuffer_PB.length = E.DL_PACKETSIZE)
    (htx : s.DL_TxBuffer_LCD.length = E.DL_PACKETSIZE) :
    ∃ s1 : Bridge, DL_Start_iter E irq s w = Outcome.ret (s1, w) ∧
      cpyPacket E.DL_PACKETSIZE s.DL_RxBuffer_PB s.DL_TxBuffer_LCD = s.DL_RxBuffer_PB ∧
      s1.DL_TxBuffer_LCD = E.DLO_apply_overwrites s.DL_RxBuffer_PB E.DLO_Buffer_LCD ∧
      s1.DL_ChkCnt_LCD = s.DL_ChkCnt_LCD ∧
      s1.DL_ChkCnt_PB = s.DL_ChkCnt_PB ∧
      s1.DL_TxBuffer_PB = s.DL_TxBuffer_PB ∧
      s1.state = DL_State.Idle := by
  have hcp := cpyPacket_exact E.DL_PACKETSIZE _ _ hrx htx
  refine ⟨{ s with
      DL_TxBuffer_LCD := E.DLO_apply_overwrites s.DL_RxBuffer_PB E.DLO_Buffer_LCD
      state := DL_State.Idle }, ?_, hcp, rfl, rfl, rfl, rfl, rfl⟩
  simp [DL_Start_iter, hstate, hok, hcp]

/-- C3 at the example environment: the boot-time bridge holding a valid PB
frame. -/
theorem C3_PBReceived_valid_witness :
    ∃ s1 : Bridge,
      DL_Start_iter (exampleEnv (fun _ => 0)) true
          { exampleBridge with
            state := DL_State.Communicated_PB, DL_RxBuffer_PB := goodPB }
          (exampleWorld []) = Outcome.ret (s1, exampleWorld []) ∧
      s1.DL_TxBuffer_LCD = goodPB ∧
      s1.state = DL_State.Idle := by
  obtain ⟨s1, h1, _, h3, _, _, _, h7⟩ :=
    C3_PBReceived_valid (exampleEnv (fun _ => 0)) true
      { exampleBridge with
        state := DL_State.Communicated_PB, DL_RxBuffer_PB := goodPB }
      (exampleWorld []) rfl (by decide) (by decide) (by decide)
  exact ⟨s1, h1, by rw [h3]; decide, h7⟩

/-- C4: in state `Communicated_PB` with a PB Rx buffer that fails the checksum,
one turn of the main loop returns with the LCD Tx buffer unchanged, the PB
error counter one higher (modulo 256), the LCD error counter unchanged and the
state `Idle`. -/
theorem C4_PBReceived_invalid {R : Type} (E : Env R) (irq : Bool) (s : Bridge) (w : World)
    (hstate : s.state = DL_State.Communicated_PB)
    (hbad : E.checksumOK s.DL_RxBuffer_PB = false) :
    ∃ s1 : Bridge, DL_Start_iter E irq s w = Outcome.ret (s1, w) ∧
      s1.DL_TxBuffer_LCD = s.DL_TxBuffer_LCD ∧
      s1.DL_ChkCnt_PB = (s.DL_ChkCnt_PB + 1) % 256 ∧
      s1.DL_ChkCnt_LCD = s.DL_ChkCnt_LCD ∧
      s1.state = DL_State.Idle := by
  refine ⟨{ s with
      DL_ChkCnt_PB := (s.DL_ChkCnt_PB + 1) % 256
      state := DL_State.Idle }, ?_, rfl, rfl, rfl, rfl⟩
  simp [DL_Start_iter, hstate, hbad]

/-- C4 at the example environment: the PB answered nothing but zeros, which
fails the checksum. -/
theorem C4_PBReceived_invalid_witness :
    ∃ s1 : Bridge,
      DL_Start_iter (exampleEnv (fun _ => 0)) true
          { exampleBridge with state := DL_State.Communicated_PB }
          (exampleWorld []) = Outcome.ret (s1, exampleWorld []) ∧
      s1.DL_TxBuffer_LCD = exampleBridge.DL_TxBuffer_LCD ∧
      s1.DL_ChkCnt_PB = 1 ∧
      s1.state = DL_State.Idle := by
  obtain ⟨s1, h1, h2, h3, _, h5⟩ :=
    C4_PBReceived_invalid (exampleEnv (fun _ => 0)) true
      { exampleBridge with state := DL_State.Communicated_PB }
      (exampleWorld []) rfl (by decide)
  exact ⟨s1, h1, h2, h3, h5⟩

/-! ## The completion signal and the soft reset -/

/-- C5: `DL_TransferCompletedCB` moves the state to `Communicated_LCD` exactly
when the handle is the one bound as LCD and the state is `Communicating_LCD`;
in every other case the state keeps its value. Buffers, error counters and
every other variable are unchanged in all cases. -/
theorem C5_stale_signal_guard (s : Bridge) (spi_handle : Nat) :
    DL_TransferCompletedCB s spi_handle =
      { s with state :=
          if spi_handle = s.DL_SPI_Handle_LCD ∧ s.state = DL_State.Communicating_LCD
          then DL_State.Communicated_LCD else s.state } ∧
    (DL_TransferCompletedCB s spi_handle).DL_TxBuffer_PB = s.DL_TxBuffer_PB ∧
    (DL_TransferCompletedCB s spi_handle).DL_TxBuffer_LCD = s.DL_TxBuffer_LCD ∧
    (DL_TransferCompletedCB s spi_handle).DL_RxBuffer_PB = s.DL_RxBuffer_PB ∧
    (DL_TransferCompletedCB s spi_handle).DL_RxBuffer_LCD = s.DL_RxBuffer_LCD ∧
    (DL_TransferCompletedCB s spi_handle).DL_ChkCnt_PB = s.DL_ChkCnt_PB ∧
    (DL_TransferCompletedCB s spi_handle).DL_ChkCnt_LCD = s.DL_ChkCnt_LCD := by
  obtain ⟨b0, b1, b2, b3, b4, c0, c1, d, st, hp, hl, lb, pk⟩ := s
  unfold DL_TransferCompletedCB
  by_cases h1 : spi_handle = hl <;> by_cases h2 : st = DL_State.Communicating_LCD <;>
    simp [h1, h2]

/-- C6: `DL_Soft_Reboot` and `DL_Test_Btn` set the state to `Inited`, whatever
it was, and change nothing else: the bridge after the call is the bridge before
it with only `state` replaced, so the buffers, both error counters, the debug
flag and the bound handles keep their values. -/
theorem C6_soft_reset_frame (s : Bridge) :
    DL_Soft_Reboot s = { s with state := DL_State.Inited } ∧
    DL_Test_Btn s = DL_Soft_Reboot s ∧
    (DL_Soft_Reboot s).state = DL_State.Inited ∧
    (DL_Soft_Reboot s).DL_TxBuffer_PB = s.DL_TxBuffer_PB ∧
    (DL_Soft_Reboot s).DL_TxBuffer_LCD = s.DL_TxBuffer_LCD ∧
    (DL_Soft_Reboot s).DL_RxBuffer_PB = s.DL_RxBuffer_PB ∧
    (DL_Soft_Reboot s).DL_RxBuffer_LCD = s.DL_RxBuffer_LCD ∧
    (DL_Soft_Reboot s).DL_ChkCnt_PB = s.DL_ChkCnt_PB ∧
    (DL_Soft_Reboot s).DL_ChkCnt_LCD = s.DL_ChkCnt_LCD ∧
    (DL_Soft_Reboot s).debug_enabled = s.debug_enabled ∧
    (DL_Soft_Reboot s).DL_SPI_Handle_PB = s.DL_SPI_Handle_PB ∧
    (DL_Soft_Reboot s).DL_SPI_Handle_LCD = s.DL_SPI_Handle_LCD := by
  simp [DL_Soft_Reboot, DL_Test_Btn]

/-! ## Frame synchronisation -/

/-- C7: with every exchange successful, frame-sized buffers and an LCD stream
`noise ++ marker :: rest ++ tail` in which `noise` holds no marker byte and
`marker :: rest` is a checksum-valid frame of `DL_PACKETSIZE` bytes,
`_DL_Sync_LCD` returns with exactly that frame in the LCD Rx buffer, with
exactly `|noise| + DL_PACKETSIZE` bytes taken off the stream (`tail` is what is
left), after `|noise| + 1` one-byte probes and one exchange of the remaining
`DL_PACKETSIZE - 1` bytes, and with the state `Synced_LCD`. -/
theorem C7_SyncLCD_finds_frame {R : Type} (E : Env R) (irq : Bool) (s : Bridge) (w : World)
    (noise rest tail : List Nat)
    (hOK : ∀ k, E.hal k = HAL_StatusTypeDef.HAL_OK)
    (hN2 : E.DL_PACKETSIZE ≤ 65536)
    (hrx : s.DL_RxBuffer_LCD.length = E.DL_PACKETSIZE)
    (hin : w.lcdIn = noise ++ E.DL_PACKET_LCD_START :: rest ++ tail)
    (hnoise : E.DL_PACKET_LCD_START ∉ noise)
    (hrest : rest.length + 1 = E.DL_PACKETSIZE)
    (hvalid : E.checksumOK (E.DL_PACKET_LCD_START :: rest) = true) :
    ∃ (s1 : Bridge) (w1 : World),
      _DL_Sync_LCD E irq s w = Outcome.ret (s1, w1) ∧
      s1.DL_RxBuffer_LCD = E.DL_PACKET_LCD_START :: rest ∧
      w1.lcdIn = tail ∧
      w.lcdIn.length = noise.length + E.DL_PACKETSIZE + w1.lcdIn.length ∧
      w1.trace = w.trace ++ List.replicate (noise.length + 1) (probeEvent s)
        ++ [restEvent s (E.DL_PACKETSIZE - 1)] ∧
      s1.state = DL_State.Synced_LCD := by
  have hloop := _DL_Sync_LCD_loop_candidate E irq hOK hN2 rest tail hrest
    (rest.length + tail.length + 1) noise (w.lcdIn.length + 1)
    { s with state := DL_State.Syncing_LCD } w rfl hrx hin hnoise
    (by rw [hin]; simp; omega)
  rw [if_pos hvalid] at hloop
  refine ⟨{ s with
      state := DL_State.Synced_LCD
      DL_RxBuffer_LCD := E.DL_PACKET_LCD_START :: rest },
    { w with
      lcdIn := tail
      calls := w.calls + noise.length + 2
      armed := none
      trace := w.trace ++ List.replicate (noise.length + 1) (probeEvent s)
        ++ [restEvent s (E.DL_PACKETSIZE - 1)] }, ?_, rfl, rfl, ?_, rfl, rfl⟩
  · unfold _DL_Sync_LCD
    rw [hloop]
    rfl
  · rw [hin]
    simp
    omega

/-- C7 at the example environment: three bytes of noise, a valid frame, two
bytes of the next frame. -/
theorem C7_SyncLCD_finds_frame_witness :
    ∃ (s1 : Bridge) (w1 : World),
      _DL_Sync_LCD (exampleEnv (fun _ => 0)) true exampleBridge
          (exampleWorld ([1, 2, 3] ++ goodLCD ++ [0xB0, 9])) = Outcome.ret (s1, w1) ∧
      s1.DL_RxBuffer_LCD = goodLCD ∧
      w1.lcdIn = [0xB0, 9] ∧
      s1.state = DL_State.Synced_LCD := by
  obtain ⟨s1, w1, h1, h2, h3, _, _, h6⟩ :=
    C7_SyncLCD_finds_frame (exampleEnv (fun _ => 0)) true exampleBridge
      (exampleWorld ([1, 2, 3] ++ goodLCD ++ [0xB0, 9]))
      [1, 2, 3] goodLCD.tail [0xB0, 9]
      (fun _ => rfl) (by decide) (by decide) (by decide) (by decide) (by decide) (by decide)
  exact ⟨s1, w1, h1, h2, h3, h6⟩

/-- C8: with every exchange successful, whatever `_DL_Sync_LCD` returns has the
LCD marker in byte 0 of the LCD Rx buffer and passes `checksumOK`; and when the
stream is `noise ++ marker :: rest ++ tail` with `marker :: rest` a frame-sized
candidate that fails the checksum, the call behaves as a scan started afresh
(one-byte probe first) on `tail`, the stream right behind the candidate, with
the discarded candidate left in the Rx buffer. -/
theorem C8_SyncLCD_never_invalid {R : Type} (E : Env R) (irq : Bool) (s : Bridge) (w : World)
    (hOK : ∀ k, E.hal k = HAL_StatusTypeDef.HAL_OK) :
    (∀ (s1 : Bridge) (w1 : World), _DL_Sync_LCD E irq s w = Outcome.ret (s1, w1) →
      s1.DL_RxBuffer_LCD.getD 0 0 = E.DL_PACKET_LCD_START ∧
        E.checksumOK s1.DL_RxBuffer_LCD = true) ∧
    (∀ noise rest tail : List Nat,
      E.DL_PACKETSIZE ≤ 65536 →
      s.DL_RxBuffer_LCD.length = E.DL_PACKETSIZE →
      w.lcdIn = noise ++ E.DL_PACKET_LCD_START :: rest ++ tail →
      E.DL_PACKET_LCD_START ∉ noise →
      rest.length + 1 = E.DL_PACKETSIZE →
      E.checksumOK (E.DL_PACKET_LCD_START :: rest) = false →
      _DL_Sync_LCD E irq s w =
        _DL_Sync_LCD E irq
          { s with DL_RxBuffer_LCD := E.DL_PACKET_LCD_START :: rest }
          { w with
            lcdIn := tail
            calls := w.calls + noise.length + 2
            armed := none
            trace := w.trace ++ List.replicate (noise.length + 1) (probeEvent s)
              ++ [restEvent s (E.DL_PACKETSIZE - 1)] }) := by
  constructor
  · intro s1 w1 h
    unfold _DL_Sync_LCD at h
    cases hl : _DL_Sync_LCD_loop E irq (w.lcdIn.length + 1)
        { s with state := DL_State.Syncing_LCD } w with
    | ret p =>
      obtain ⟨s2, w2⟩ := p
      rw [hl] at h
      injection h with h
      injection h with hs hw
      subst hs
      exact _DL_Sync_LCD_loop_valid E irq hOK _ _ _ s2 w2 rfl hl
    | fatal => rw [hl] at h; cases h
    | blocked => rw [hl] at h; cases h
    | halted => rw [hl] at h; cases h
  · intro noise rest tail hN2 hrx hin hnoise hrest hbad
    have hloop := _DL_Sync_LCD_loop_candidate E irq hOK hN2 rest tail hrest
      (rest.length + tail.length + 1) noise (w.lcdIn.length + 1)
      { s with state := DL_State.Syncing_LCD } w rfl hrx hin hnoise
      (by rw [hin]; simp; omega)
    rw [hbad] at hloop
    simp only [Bool.false_eq_true, if_false] at hloop
    have hfuel := _DL_Sync_LCD_loop_fuel E irq hOK tail.length
      { s with state := DL_State.Syncing_LCD, DL_RxBuffer_LCD := E.DL_PACKET_LCD_START :: rest }
      { w with
        lcdIn := tail
        calls := w.calls + noise.length + 2
        armed := none
        trace := w.trace ++ List.replicate (noise.length + 1) (probeEvent s)
          ++ [restEvent s (E.DL_PACKETSIZE - 1)] }
      (rest.length + tail.length + 1) (tail.length + 1) rfl (le_refl _)
      (by simp only []; omega) (by simp only []; omega)
    unfold _DL_Sync_LCD
    rw [hloop]
    simp only [probeEvent, restEvent] at hfuel ⊢
    rw [hfuel]

/-- C8 at the example environment: two bytes of noise, a marker-led candidate
with a wrong checksum, one stray byte, a valid frame. The call returns the
valid frame, and it equals the scan started afresh behind the candidate. -/
theorem C8_SyncLCD_never_invalid_witness :
    (∃ (s1 : Bridge) (w1 : World),
      _DL_Sync_LCD (exampleEnv (fun _ => 0)) true exampleBridge
          (exampleWorld ([1, 2] ++ badLCD ++ [7] ++ goodLCD)) = Outcome.ret (s1, w1) ∧
      s1.DL_RxBuffer_LCD.getD 0 0 = 0xB0 ∧
      (exampleEnv (fun _ => 0)).checksumOK s1.DL_RxBuffer_LCD = true) ∧
    _DL_Sync_LCD (exampleEnv (fun _ => 0)) true exampleBridge
        (exampleWorld ([1, 2] ++ badLCD ++ [7] ++ goodLCD)) =
      _DL_Sync_LCD (exampleEnv (fun _ => 0)) true
        { exampleBridge with DL_RxBuffer_LCD := badLCD }
        { exampleWorld ([7] ++ goodLCD) with
          calls := 4
          trace := List.replicate 3 (probeEvent exampleBridge)
            ++ [restEvent exampleBridge 10] } := by
  have h := C8_SyncLCD_never_invalid (exampleEnv (fun _ => 0)) true exampleBridge
    (exampleWorld ([1, 2] ++ badLCD ++ [7] ++ goodLCD)) (fun _ => rfl)
  refine ⟨?_, h.2 [1, 2] badLCD.tail ([7] ++ goodLCD)
    (by decide) (by decide) (by decide) (by decide) (by decide) (by decide)⟩
  cases hr : _DL_Sync_LCD (exampleEnv (fun _ => 0)) true exampleBridge
      (exampleWorld ([1, 2] ++ badLCD ++ [7] ++ goodLCD)) with
  | ret p =>
    obtain ⟨s1, w1⟩ := p
    obtain ⟨h1, h2⟩ := h.1 s1 w1 hr
    exact ⟨s1, w1, rfl, h1, h2⟩
  | fatal => exact absurd hr (by decide)
  | blocked => exact absurd hr (by decide)
  | halted => exact absurd hr (by decide)

set_option maxRecDepth 100000 in
/-- C9, evaluated where it fails: a PB whose first 100 bytes are not the PB
marker and whose 101st byte is. `_DL_Sync_PB` makes a 101st probe, sees the
marker and leaves through the marker-found exit after 101 exchanges, instead of
giving up after the 100 misses. -/
theorem C9_SyncPB_marker_at_probe_101 :
    (∀ k, k < 100 →
      (exampleEnv (fun k => if k = 100 then 0x0B else 0)).pbByte k ≠
        (exampleEnv (fun k => if k = 100 then 0x0B else 0)).DL_PACKET_PB_START) ∧
    ∃ (s1 : Bridge) (w1 : World),
      _DL_Sync_PB (exampleEnv (fun k => if k = 100 then 0x0B else 0)) true
          exampleBridge (exampleWorld []) = Outcome.ret (SyncPB_Exit.found, s1, w1) ∧
      w1.calls = 101 ∧ w1.pbPos = 101 ∧ s1.DL_RxBuffer_PB.getD 0 0 = 0x0B := by
  refine ⟨by decide, ?_⟩
  cases hr : _DL_Sync_PB (exampleEnv (fun k => if k = 100 then 0x0B else 0)) true
      exampleBridge (exampleWorld []) with
  | ret p =>
    obtain ⟨e, s1, w1⟩ := p
    have hall : (match _DL_Sync_PB (exampleEnv (fun k => if k = 100 then 0x0B else 0)) true
          exampleBridge (exampleWorld []) with
        | Outcome.ret (e, s1, w1) =>
          decide (e = SyncPB_Exit.found ∧ w1.calls = 101 ∧ w1.pbPos = 101 ∧
            s1.DL_RxBuffer_PB.getD 0 0 = 0x0B)
        | _ => false) = true := by decide
    rw [hr] at hall
    simp only [decide_eq_true_eq] at hall
    obtain ⟨h1, h2, h3, h4⟩ := hall
    subst h1
    exact ⟨s1, w1, rfl, h2, h3, h4⟩
  | fatal => exact absurd hr (by decide)
  | blocked => exact absurd hr (by decide)
  | halted => exact absurd hr (by decide)

/-! ## The transfer engine -/

/-- C10: in `PB` mode, for a size `N` with `1 ≤ N` (and `N` a `uint16_t`), a Tx
buffer that is not the Rx buffer, and every raw exchange successful,
`_DL_DMA_Transfer` returns `HAL_OK` after exactly `N` raw exchanges, each of
length 1, in index order `0 .. N-1`, the `i`-th sending Tx byte `i` and
receiving into Rx byte `i`, each followed by the delay of 1 ms. -/
theorem C10_paced_exchange_success {R : Type} (E : Env R) (s : Bridge) (w : World)
    (hspi : Nat) (pTx pRx : Ptr) (N : Nat)
    (hOK : ∀ k, E.hal k = HAL_StatusTypeDef.HAL_OK)
    (hN1 : 1 ≤ N) (hN2 : N < 65536) (halias : pTx.buf ≠ pRx.buf) :
    ∃ (s1 : Bridge) (w1 : World),
      _DL_DMA_Transfer E s w hspi pTx pRx N DL_DMA_MODE.PB =
        (HAL_StatusTypeDef.HAL_OK, s1, w1) ∧
      w1.trace = w.trace ++ (List.range N).flatMap (fun i =>
        [Event.xfer hspi (s.load (pTx.add i) 1) (pRx.add i) 1, Event.delay 1]) ∧
      w1.calls = w.calls + N := by
  obtain ⟨s1, w1, hloop, htr, hcalls, _⟩ :=
    _DL_DMA_Transfer_PB_loop_ok E hspi pTx pRx hOK halias N 0 E.uninit s w
  have hN0 : N ≠ 0 := by omega
  refine ⟨s1, w1, ?_, ?_, hcalls⟩
  · simp only [_DL_DMA_Transfer, _DL_DMA_Transfer_PB, Nat.mod_eq_of_lt hN2, hloop, hN0, if_false]
  · rw [htr]
    simp

/-- C10 at the example environment: the boot-time PB Tx buffer sent to the PB
(handle 1) in 11 paced exchanges. -/
theorem C10_paced_exchange_success_witness :
    ∃ (s1 : Bridge) (w1 : World),
      _DL_DMA_Transfer (exampleEnv (fun k => goodPB.getD k 0)) exampleBridge (exampleWorld [])
          1 ⟨BufId.TxPB, 0⟩ ⟨BufId.RxPB, 0⟩ 11 DL_DMA_MODE.PB =
        (HAL_StatusTypeDef.HAL_OK, s1, w1) ∧
      w1.calls = 11 ∧
      w1.trace.take 4 =
        [Event.xfer 1 [0xB0] ⟨BufId.RxPB, 0⟩ 1, Event.delay 1,
         Event.xfer 1 [0x00] ⟨BufId.RxPB, 1⟩ 1, Event.delay 1] ∧
      w1.trace.length = 22 := by
  obtain ⟨s1, w1, h1, h2, h3⟩ :=
    C10_paced_exchange_success (exampleEnv (fun k => goodPB.getD k 0)) exampleBridge
      (exampleWorld []) 1 ⟨BufId.TxPB, 0⟩ ⟨BufId.RxPB, 0⟩ 11
      (fun _ => rfl) (by decide) (by decide) (by decide)
  exact ⟨s1, w1, h1, h3, by rw [h2]; decide, by rw [h2]; decide⟩

/-- C11, as stated, fails when the last byte is the one that fails: with
`N = 11` and the exchange for byte 10 failing, the call returns the failure
after 11 raw exchanges, which is not fewer than `N`. -/
theorem C11_last_byte_fails_counterexample :
    (_DL_DMA_Transfer (exampleEnvFailAt 10 (fun _ => 0)) exampleBridge (exampleWorld [])
        1 ⟨BufId.TxPB, 0⟩ ⟨BufId.RxPB, 0⟩ 11 DL_DMA_MODE.PB).1 = HAL_StatusTypeDef.HAL_ERROR ∧
    (_DL_DMA_Transfer (exampleEnvFailAt 10 (fun _ => 0)) exampleBridge (exampleWorld [])
        1 ⟨BufId.TxPB, 0⟩ ⟨BufId.RxPB, 0⟩ 11 DL_DMA_MODE.PB).2.2.calls = 11 ∧
    ¬ ((_DL_DMA_Transfer (exampleEnvFailAt 10 (fun _ => 0)) exampleBridge (exampleWorld [])
        1 ⟨BufId.TxPB, 0⟩ ⟨BufId.RxPB, 0⟩ 11 DL_DMA_MODE.PB).2.2.calls < 11) := by
  decide

/-- C11 (amended): in `PB` mode, for a size `N` (a `uint16_t`), an index
`k < N` and a Tx buffer that is not the Rx buffer, if the raw exchanges for
bytes `0 .. k-1` succeed and the one for byte `k` fails, `_DL_DMA_Transfer`
returns the status of that exchange at once, after exactly `k + 1` raw
exchanges (`k` successful ones with their delays, then the failing one, with no
delay behind it); nothing is exchanged for bytes `k+1 .. N-1`, so at most `N`
exchanges are made, and fewer than `N` when `k < N - 1`. -/
theorem C11_paced_exchange_abort {R : Type} (E : Env R) (s : Bridge) (w : World)
    (hspi : Nat) (pTx pRx : Ptr) (N k : Nat)
    (hN2 : N < 65536) (hk : k < N)
    (hpre : ∀ j, j < k → E.hal (w.calls + j) = HAL_StatusTypeDef.HAL_OK)
    (hbad : E.hal (w.calls + k) ≠ HAL_StatusTypeDef.HAL_OK)
    (halias : pTx.buf ≠ pRx.buf) :
    ∃ (s1 : Bridge) (w1 : World),
      _DL_DMA_Transfer E s w hspi pTx pRx N DL_DMA_MODE.PB =
        (E.hal (w.calls + k), s1, w1) ∧
      w1.calls = w.calls + k + 1 ∧
      w1.trace = w.trace ++ (List.range k).flatMap (fun j =>
          [Event.xfer hspi (s.load (pTx.add j) 1) (pRx.add j) 1, Event.delay 1])
        ++ [Event.xfer hspi (s.load (pTx.add k) 1) (pRx.add k) 1] ∧
      w1.calls ≤ w.calls + N ∧
      (k + 1 < N → w1.calls < w.calls + N) := by
  obtain ⟨s1, w1, hloop, htr, hcalls⟩ :=
    _DL_DMA_Transfer_PB_loop_fails E hspi pTx pRx halias k N 0 E.uninit s w hk hpre hbad
  refine ⟨s1, w1, ?_, hcalls, ?_, by omega, fun h => by omega⟩
  · simp only [_DL_DMA_Transfer, _DL_DMA_Transfer_PB, Nat.mod_eq_of_lt hN2, hloop]
  · rw [htr]
    simp

/-- C11 at the example environment with the exchange for byte 3 failing. -/
theorem C11_paced_exchange_abort_witness :
    ∃ (s1 : Bridge) (w1 : World),
      _DL_DMA_Transfer (exampleEnvFailAt 3 (fun _ => 0)) exampleBridge (exampleWorld [])
          1 ⟨BufId.TxPB, 0⟩ ⟨BufId.RxPB, 0⟩ 11 DL_DMA_MODE.PB =
        (HAL_StatusTypeDef.HAL_ERROR, s1, w1) ∧
      w1.calls = 4 ∧
      w1.trace =
        [Event.xfer 1 [0xB0] ⟨BufId.RxPB, 0⟩ 1, Event.delay 1,
         Event.xfer 1 [0x00] ⟨BufId.RxPB, 1⟩ 1, Event.delay 1,
         Event.xfer 1 [0x80] ⟨BufId.RxPB, 2⟩ 1, Event.delay 1,
         Event.xfer 1 [0x0A] ⟨BufId.RxPB, 3⟩ 1] := by
  obtain ⟨s1, w1, h1, h2, h3, _, _⟩ :=
    C11_paced_exchange_abort (exampleEnvFailAt 3 (fun _ => 0)) exampleBridge
      (exampleWorld []) 1 ⟨BufId.TxPB, 0⟩ ⟨BufId.RxPB, 0⟩ 11 3
      (by decide) (by decide) (by decide) (by decide) (by decide)
  exact ⟨s1, w1, h1, h2, by rw [h3]; decide⟩

/-- C12, evaluated where it fails: in `Sync_First` mode `_DL_DMA_Transfer` makes
exactly one raw exchange of length 1, whatever the size argument, but the byte
it sends is the first byte of the Tx buffer it was given, not `0x00`: with the
boot-time PB Tx buffer the byte on the wire is `0xB0`. -/
theorem C12_probe_sends_first_tx_byte {R : Type} (E : Env R) (s : Bridge) (w : World)
    (hspi : Nat) (pTx pRx : Ptr) (size : Nat) :
    (_DL_DMA_Transfer E s w hspi pTx pRx size DL_DMA_MODE.Sync_First).2.2.trace =
      w.trace ++ [Event.xfer hspi (s.load pTx 1) pRx 1] ∧
    (_DL_DMA_Transfer E s w hspi pTx pRx size DL_DMA_MODE.Sync_First).2.2.calls =
      w.calls + 1 ∧
    (_DL_DMA_Transfer (exampleEnv (fun _ => 0)) exampleBridge (exampleWorld [])
        1 ⟨BufId.TxPB, 0⟩ ⟨BufId.RxPB, 0⟩ 1 DL_DMA_MODE.Sync_First).2.2.trace =
      [Event.xfer 1 [0xB0] ⟨BufId.RxPB, 0⟩ 1] := by
  refine ⟨?_, ?_, by decide⟩
  · simp only [_DL_DMA_Transfer, HAL_SPI_TransmitReceive_DMA]
    cases E.hal w.calls
    · simp only []
      split <;> rfl
    all_goals rfl
  · simp only [_DL_DMA_Transfer, HAL_SPI_TransmitReceive_DMA]
    cases E.hal w.calls
    · simp only []
      split <;> rfl
    all_goals rfl

/-! ## Waiting for the LCD -/

/-- The statements of the `Communicate_LCD` case, run in order, are the
`Communicate_LCD` branch of a turn of the main loop. -/
theorem execStmts_Communicate_LCD {R : Type} (E : Env R) (irq : Bool) (s : Bridge) (w : World)
    (hst : s.state = DL_State.Communicate_LCD) :
    DL_Start_iter E irq s w = execStmts E irq Communicate_LCD_stmts s w := by
  simp only [DL_Start_iter, hst, Communicate_LCD_stmts, execStmts, CaseStmt.exec,
    HAL_SPI_TransmitReceive_DMA]
  cases E.hal w.calls
  · simp only [if_true, ne_eq, not_true_eq_false, if_false, execStmts, CaseStmt.exec]
    cases _DL_DMA_wait irq _ _ _ <;> rfl
  all_goals simp [DL_Error_Handler]

/-- The six ways of cutting the statements of the `Communicate_LCD` case in
two. -/
theorem Communicate_LCD_stmts_split (pre post : List CaseStmt)
    (h : pre ++ post = Communicate_LCD_stmts) :
    (pre = [] ∧ post = Communicate_LCD_stmts) ∨
    (pre = [.setState] ∧ post = [.cpySync, .issue, .count, .wait]) ∨
    (pre = [.setState, .cpySync] ∧ post = [.issue, .count, .wait]) ∨
    (pre = [.setState, .cpySync, .issue] ∧ post = [.count, .wait]) ∨
    (pre = [.setState, .cpySync, .issue, .count] ∧ post = [.wait]) ∨
    (pre = Communicate_LCD_stmts ∧ post = []) := by
  rcases pre with _ | ⟨a, _ | ⟨b, _ | ⟨c, _ | ⟨d, _ | ⟨e, pre⟩⟩⟩⟩⟩ <;>
    simp_all [Communicate_LCD_stmts]

/-- The order of the statements is visible to `execWithIrq`: were `state`
assigned behind the issue of the exchange, a completion callback right behind
the issue would find the old state and do nothing, and the case would end in
`Communicating_LCD` with the completion signal lost. -/
theorem execWithIrq_late_assignment {R : Type} (E : Env R) (s : Bridge) (w : World)
    (hst : s.state = DL_State.Communicate_LCD)
    (hok : E.hal w.calls = HAL_StatusTypeDef.HAL_OK)
    (hbytes : E.DL_PACKETSIZE % 65536 ≤ w.lcdIn.length) :
    execWithIrq E [.cpySync, .issue] [.setState, .count, .wait] s w =
      Outcome.ret (DL_State.Communicate_LCD,
        Communicate_LCD_done E s (w.lcdIn.take (E.DL_PACKETSIZE % 65536))
          DL_State.Communicating_LCD,
        { w with
          lcdIn := w.lcdIn.drop (E.DL_PACKETSIZE % 65536)
          calls := w.calls + 1
          armed := none
          trace := w.trace ++ [burstEvent E s] }) := by
  have hlen : ¬ w.lcdIn.length < E.DL_PACKETSIZE % 65536 := by omega
  simp [execWithIrq, execStmts, CaseStmt.exec, HAL_SPI_TransmitReceive_DMA, hok,
    _DL_DMA_wait, hlen, DL_TransferCompletedCB, hst, Bridge.store, Bridge.setBuf, Bridge.buf,
    Bridge.load, Communicate_LCD_done, burstEvent]

/-- C17: in the `Communicate_LCD` case, whose five statements in source order
are the `Communicate_LCD` branch of a turn of the main loop, the statements
ahead of the one that issues the exchange leave the state `Communicating_LCD`
and issue no exchange themselves; the issue then logs the exchange of the LCD
Tx buffer and arms it. Hence, when the exchange is accepted and the LCD clocks
the whole frame: a completion callback that comes in between two statements,
anywhere behind the issue (right behind it, behind `pkgcount++` or behind the
wait), finds the state `Communicating_LCD`, and the case ends in
`Communicated_LCD`; so does the turn when the callback is delivered on
completion inside the wait; and the turn ends in `Communicating_LCD` when no
callback comes. In all cases the frame of the LCD is in the LCD Rx buffer,
`pkgcount` is one up and the log has grown by the one exchange. -/
theorem C17_state_set_before_exchange {R : Type} (E : Env R) (s : Bridge) (w : World)
    (hst : s.state = DL_State.Communicate_LCD)
    (hok : E.hal w.calls = HAL_StatusTypeDef.HAL_OK)
    (hbytes : E.DL_PACKETSIZE % 65536 ≤ w.lcdIn.length) :
    (∀ irq : Bool, DL_Start_iter E irq s w = execStmts E irq Communicate_LCD_stmts s w) ∧
    (∀ pre post : List CaseStmt, pre ++ CaseStmt.issue :: post = Communicate_LCD_stmts →
      execStmts E false pre s w = Outcome.ret (Communicate_LCD_prologue E s, w) ∧
      (Communicate_LCD_prologue E s).state = DL_State.Communicating_LCD ∧
      CaseStmt.exec E false CaseStmt.issue (Communicate_LCD_prologue E s) w =
        Outcome.ret (Communicate_LCD_prologue E s,
          { w with
            calls := w.calls + 1
            armed := some (⟨BufId.RxLCD, 0⟩, E.DL_PACKETSIZE % 65536)
            trace := w.trace ++ [burstEvent E s] })) ∧
    (∀ pre post : List CaseStmt, pre ++ post = Communicate_LCD_stmts →
      CaseStmt.issue ∈ pre →
      execWithIrq E pre post s w =
        Outcome.ret (DL_State.Communicating_LCD,
          Communicate_LCD_done E s (w.lcdIn.take (E.DL_PACKETSIZE % 65536))
            DL_State.Communicated_LCD,
          { w with
            lcdIn := w.lcdIn.drop (E.DL_PACKETSIZE % 65536)
            calls := w.calls + 1
            armed := none
            trace := w.trace ++ [burstEvent E s] })) ∧
    DL_Start_iter E true s w =
      Outcome.ret (Communicate_LCD_done E s (w.lcdIn.take (E.DL_PACKETSIZE % 65536))
          DL_State.Communicated_LCD,
        { w with
          lcdIn := w.lcdIn.drop (E.DL_PACKETSIZE % 65536)
          calls := w.calls + 1
          armed := none
          trace := w.trace ++ [burstEvent E s] }) ∧
    DL_Start_iter E false s w =
      Outcome.ret (Communicate_LCD_done E s (w.lcdIn.take (E.DL_PACKETSIZE % 65536))
          DL_State.Communicating_LCD,
        { w with
          lcdIn := w.lcdIn.drop (E.DL_PACKETSIZE % 65536)
          calls := w.calls + 1
          armed := none
          trace := w.trace ++ [burstEvent E s] }) := by
  have hlen : ¬ w.lcdIn.length < E.DL_PACKETSIZE % 65536 := by omega
  refine ⟨fun irq => execStmts_Communicate_LCD E irq s w hst, ?_, ?_, ?_, ?_⟩
  · intro pre post h
    have hpre : pre = [CaseStmt.setState, CaseStmt.cpySync] := by
      rcases Communicate_LCD_stmts_split pre (CaseStmt.issue :: post) h with
        ⟨_, h2⟩ | ⟨_, h2⟩ | ⟨h1, _⟩ | ⟨_, h2⟩ | ⟨_, h2⟩ | ⟨_, h2⟩
      · simp [Communicate_LCD_stmts] at h2
      · simp at h2
      · exact h1
      · simp at h2
      · simp at h2
      · simp at h2
    subst hpre
    refine ⟨rfl, rfl, ?_⟩
    simp [CaseStmt.exec, Communicate_LCD_prologue, HAL_SPI_TransmitReceive_DMA, hok,
      burstEvent, Bridge.load, Bridge.buf]
  · intro pre post h hmem
    rcases Communicate_LCD_stmts_split pre post h with
      ⟨rfl, _⟩ | ⟨rfl, _⟩ | ⟨rfl, _⟩ | ⟨rfl, rfl⟩ | ⟨rfl, rfl⟩ | ⟨rfl, rfl⟩
    · simp at hmem
    · simp at hmem
    · simp at hmem
    · simp [execWithIrq, execStmts, CaseStmt.exec, HAL_SPI_TransmitReceive_DMA, hok,
        _DL_DMA_wait, hlen, DL_TransferCompletedCB, Bridge.store, Bridge.setBuf, Bridge.buf,
        Bridge.load, Communicate_LCD_done, burstEvent]
    · simp [execWithIrq, execStmts, CaseStmt.exec, HAL_SPI_TransmitReceive_DMA, hok,
        _DL_DMA_wait, hlen, DL_TransferCompletedCB, Bridge.store, Bridge.setBuf, Bridge.buf,
        Bridge.load, Communicate_LCD_done, burstEvent]
    · simp [execWithIrq, Communicate_LCD_stmts, execStmts, CaseStmt.exec,
        HAL_SPI_TransmitReceive_DMA, hok,
        _DL_DMA_wait, hlen, DL_TransferCompletedCB, Bridge.store, Bridge.setBuf, Bridge.buf,
        Bridge.load, Communicate_LCD_done, burstEvent]
  · simp [DL_Start_iter, hst, HAL_SPI_TransmitReceive_DMA, hok, _DL_DMA_wait, hlen,
      DL_TransferCompletedCB, Bridge.store, Bridge.setBuf, Bridge.buf, Bridge.load,
      Communicate_LCD_done, burstEvent]
  · simp [DL_Start_iter, hst, HAL_SPI_TransmitReceive_DMA, hok, _DL_DMA_wait, hlen,
      Bridge.store, Bridge.setBuf, Bridge.buf, Bridge.load, Communicate_LCD_done, burstEvent]

/-- C17 at the example environment: the LCD clocks a whole valid frame and the
completion callback comes in right behind the issue of the exchange. It finds
the state `Communicating_LCD`, and the case ends in `Communicated_LCD` with the
frame in the LCD Rx buffer and the one exchange of the LCD Tx buffer logged. -/
theorem C17_state_set_before_exchange_witness :
    execWithIrq (exampleEnv (fun _ => 0))
        [CaseStmt.setState, CaseStmt.cpySync, CaseStmt.issue] [CaseStmt.count, CaseStmt.wait]
        { exampleBridge with state := DL_State.Communicate_LCD } (exampleWorld goodLCD) =
      Outcome.ret (DL_State.Communicating_LCD,
        { exampleBridge with
          state := DL_State.Communicated_LCD
          DL_RxBuffer_LCD := goodLCD
          pkgcount := 1 },
        { lcdIn := []
          pbPos := 0
          calls := 1
          armed := none
          trace := [Event.xfer 2 [0x0B, 0x00, 0x00, 0x00, 0xD3, 0x00, 0x48, 0x07, 0x00, 0x00, 0xFF]
            ⟨BufId.RxLCD, 0⟩ 11] }) :=
  (C17_state_set_before_exchange (exampleEnv (fun _ => 0))
    { exampleBridge with state := DL_State.Communicate_LCD }
    (exampleWorld goodLCD) rfl rfl (by decide)).2.2.1
      [CaseStmt.setState, CaseStmt.cpySync, CaseStmt.issue] [CaseStmt.count, CaseStmt.wait]
      rfl (by decide)

/-- C18: in state `Communicating_LCD` a turn of the main loop returns at once
with the bridge (state, buffers, counters and all) and the world (so no
exchange, no delay) exactly as they were. Of the operations of the main path,
turns of the main loop and completion callbacks, only the callback with the
handle bound as LCD changes the state, and it changes it to
`Communicated_LCD`. -/
theorem C18_awaiting_left_by_signal_only {R : Type} (E : Env R) (s : Bridge) (w : World)
    (hst : s.state = DL_State.Communicating_LCD) :
    (∀ irq : Bool, DL_Start_iter E irq s w = Outcome.ret (s, w)) ∧
    (∀ (op : Op) (s1 : Bridge) (w1 : World), op.isMain = true →
      op.apply E s w = Outcome.ret (s1, w1) →
      (s1.state ≠ DL_State.Communicating_LCD ↔ op = Op.cb s.DL_SPI_Handle_LCD) ∧
      (s1.state ≠ DL_State.Communicating_LCD → s1.state = DL_State.Communicated_LCD)) := by
  have hiter : ∀ irq : Bool, DL_Start_iter E irq s w = Outcome.ret (s, w) := by
    intro irq
    simp [DL_Start_iter, hst]
  refine ⟨hiter, ?_⟩
  intro op s1 w1 hmain happ
  cases op with
  | iter irq =>
    simp only [Op.apply, hiter] at happ
    injection happ with happ
    injection happ with h1 h2
    subst h1
    simp [hst]
  | cb h =>
    simp only [Op.apply] at happ
    injection happ with happ
    injection happ with h1 h2
    subst h1
    by_cases hh : h = s.DL_SPI_Handle_LCD
    · simp [DL_TransferCompletedCB, hh, hst]
    · simp [DL_TransferCompletedCB, hh, hst]
  | reboot => simp [Op.isMain] at hmain
  | init a b => simp [Op.isMain] at hmain
  | setDebug v => simp [Op.isMain] at hmain

/-- C18 at the example environment: the bridge waiting for the LCD. -/
theorem C18_awaiting_left_by_signal_only_witness :
    DL_Start_iter (exampleEnv (fun _ => 0)) true
        { exampleBridge with state := DL_State.Communicating_LCD } (exampleWorld goodLCD) =
      Outcome.ret ({ exampleBridge with state := DL_State.Communicating_LCD },
        exampleWorld goodLCD) :=
  (C18_awaiting_left_by_signal_only (exampleEnv (fun _ => 0))
    { exampleBridge with state := DL_State.Communicating_LCD } (exampleWorld goodLCD) rfl).1 true

/-! ## Reachable states and counters -/

/-- C14: from state `Inited`, no finite sequence of turns of the main loop,
completion callbacks, soft resets (and calls of `DL_Init` and `DL_Set_Debug`)
enters the halting branch of `DL_Start`, and whenever such a sequence has run
to its end the state is neither `DBG_Halt` nor `Unknown` (values outside the
enumeration have no place in the type), so that the next turn of the main loop
does not halt either. -/
theorem C14_halt_unreachable {R : Type} (E : Env R) (ops : List Op) (s : Bridge) (w : World)
    (hst : s.state = DL_State.Inited) :
    run E ops s w ≠ Outcome.halted ∧
    ∀ (s9 : Bridge) (w9 : World), run E ops s w = Outcome.ret (s9, w9) →
      s9.state ≠ DL_State.DBG_Halt ∧ s9.state ≠ DL_State.Unknown ∧
      ∀ irq : Bool, DL_Start_iter E irq s9 w9 ≠ Outcome.halted := by
  have hn : s.state.normal = true := by rw [hst]; rfl
  have hrun := run_normal E ops s w hn
  refine ⟨hrun.1, ?_⟩
  intro s9 w9 h
  have h9 := hrun.2 s9 w9 h
  refine ⟨?_, ?_, fun irq => (iter_facts E irq s9 w9 h9).1⟩
  · intro hc; rw [hc] at h9; cases h9
  · intro hc; rw [hc] at h9; cases h9

/-- C14 at the example environment: start-up, a soft reset in the middle of
it, a stray callback and a further turn. -/
theorem C14_halt_unreachable_witness :
    run (exampleEnv (fun _ => 0))
        [Op.iter true, Op.iter true, Op.iter true, Op.iter true, Op.iter true,
         Op.reboot, Op.cb 2, Op.iter true]
        exampleBridge (exampleWorld ([1, 2, 3] ++ goodLCD)) ≠ Outcome.halted :=
  (C14_halt_unreachable (exampleEnv (fun _ => 0))
    [Op.iter true, Op.iter true, Op.iter true, Op.iter true, Op.iter true,
     Op.reboot, Op.cb 2, Op.iter true]
    exampleBridge (exampleWorld ([1, 2, 3] ++ goodLCD)) rfl).1

/-- C15, as stated, fails when a counter is at 255: a turn of the main loop in
state `Communicated_LCD` with an invalid LCD frame takes `DL_ChkCnt_LCD` from
255 to 0. -/
theorem C15_counter_wraps_counterexample :
    ∃ s9 : Bridge,
      (Op.iter true).apply (exampleEnv (fun _ => 0))
          { exampleBridge with
            state := DL_State.Communicated_LCD, DL_RxBuffer_LCD := badLCD,
            DL_ChkCnt_LCD := 255 }
          (exampleWorld []) = Outcome.ret (s9, exampleWorld []) ∧
      s9.DL_ChkCnt_LCD = 0 ∧
      ¬ (s9.DL_ChkCnt_LCD ≥ 255) :=
  ⟨{ exampleBridge with
      state := DL_State.Communicate_PB, DL_RxBuffer_LCD := badLCD, DL_ChkCnt_LCD := 0 },
    by decide, rfl, by decide⟩

/-- C15 (amended): for every bridge state and every operation (a turn of the
main loop, `DL_TransferCompletedCB`, `DL_Soft_Reboot`, `DL_Init`,
`DL_Set_Debug`) that returns, each error counter afterwards is its value before
or that value plus one modulo 256; so it is at least its value before whenever
that value is below 255. -/
theorem C15_counters_step {R : Type} (E : Env R) (op : Op) (s s9 : Bridge) (w w9 : World)
    (h : op.apply E s w = Outcome.ret (s9, w9)) :
    (s9.DL_ChkCnt_LCD = s.DL_ChkCnt_LCD ∨ s9.DL_ChkCnt_LCD = (s.DL_ChkCnt_LCD + 1) % 256) ∧
    (s9.DL_ChkCnt_PB = s.DL_ChkCnt_PB ∨ s9.DL_ChkCnt_PB = (s.DL_ChkCnt_PB + 1) % 256) ∧
    (s.DL_ChkCnt_LCD < 255 → s.DL_ChkCnt_LCD ≤ s9.DL_ChkCnt_LCD) ∧
    (s.DL_ChkCnt_PB < 255 → s.DL_ChkCnt_PB ≤ s9.DL_ChkCnt_PB) := by
  obtain ⟨h1, h2⟩ := apply_counters E op s s9 w w9 h
  refine ⟨h1, h2, ?_, ?_⟩
  · intro hlt
    rcases h1 with h1 | h1 <;> rw [h1]
    rw [Nat.mod_eq_of_lt (by omega)]
    omega
  · intro hlt
    rcases h2 with h2 | h2 <;> rw [h2]
    rw [Nat.mod_eq_of_lt (by omega)]
    omega

/-- C15 (amended) at the example environment: an invalid PB frame with the PB
counter at 7. -/
theorem C15_counters_step_witness :
    ∃ s9 : Bridge,
      (Op.iter true).apply (exampleEnv (fun _ => 0))
          { exampleBridge with state := DL_State.Communicated_PB, DL_ChkCnt_PB := 7 }
          (exampleWorld []) = Outcome.ret (s9, exampleWorld []) ∧
      (s9.DL_ChkCnt_PB = 7 ∨ s9.DL_ChkCnt_PB = (7 + 1) % 256) ∧
      7 ≤ s9.DL_ChkCnt_PB :=
  have h0 : (Op.iter true).apply (exampleEnv (fun _ => 0))
      { exampleBridge with state := DL_State.Communicated_PB, DL_ChkCnt_PB := 7 }
      (exampleWorld []) =
      Outcome.ret ({ exampleBridge with state := DL_State.Idle, DL_ChkCnt_PB := 8 },
        exampleWorld []) := by decide
  ⟨_, h0, (C15_counters_step _ _ _ _ _ _ h0).2.1,
    (C15_counters_step _ _ _ _ _ _ h0).2.2.2 (by decide)⟩

/-- C13, as stated, fails for `Communicating_PB`: whatever the environment, the
bridge in state `Inited` and the world, no finite sequence of operations ends
in state `Communicating_PB` (no statement of the module assigns it). -/
theorem C13_Communicating_PB_unreachable_counterexample :
    ¬ ∃ (R : Type) (E : Env R) (s : Bridge) (w : World) (ops : List Op)
        (s9 : Bridge) (w9 : World),
      s.state = DL_State.Inited ∧ run E ops s w = Outcome.ret (s9, w9) ∧
      s9.state = DL_State.Communicating_PB := by
  rintro ⟨R, E, s, w, ops, s9, w9, hst, hrun, h9⟩
  have hn : s.state.normal = true := by rw [hst]; rfl
  have := (run_normal E ops s w hn).2 s9 w9 hrun
  rw [h9] at this
  cases this

/-- C13 (amended): with every exchange successful, the PB on a handle of its
own, a frame-sized LCD Rx buffer and an LCD that sends noise without marker,
a checksum-valid frame and at least one more frame's worth of bytes, each of
the states `Inited`, `Syncing_PB`, `Synced_PB`, `Syncing_LCD`, `Synced_LCD`,
`Idle`, `Communicate_LCD`, `Communicating_LCD`, `Communicated_LCD`,
`Communicate_PB` and `Communicated_PB` is reached from `Inited` by a finite
sequence of turns of the main loop and completion callbacks; the state
`Communicating_PB` is reached by no sequence of operations. -/
theorem C13_reachability {R : Type} (E : Env R) (s : Bridge) (w : World)
    (noise rest tail : List Nat)
    (hOK : ∀ k, E.hal k = HAL_StatusTypeDef.HAL_OK)
    (hst : s.state = DL_State.Inited)
    (hne : s.DL_SPI_Handle_PB ≠ s.DL_SPI_Handle_LCD)
    (hN : E.DL_PACKETSIZE < 65536)
    (hrx : s.DL_RxBuffer_LCD.length = E.DL_PACKETSIZE)
    (hin : w.lcdIn = noise ++ E.DL_PACKET_LCD_START :: rest ++ tail)
    (hnoise : E.DL_PACKET_LCD_START ∉ noise)
    (hrest : rest.length + 1 = E.DL_PACKETSIZE)
    (hvalid : E.checksumOK (E.DL_PACKET_LCD_START :: rest) = true)
    (htail : E.DL_PACKETSIZE ≤ tail.length) :
    (∀ target ∈ [DL_State.Inited, DL_State.Syncing_PB, DL_State.Synced_PB,
        DL_State.Syncing_LCD, DL_State.Synced_LCD, DL_State.Idle,
        DL_State.Communicate_LCD, DL_State.Communicating_LCD, DL_State.Communicated_LCD,
        DL_State.Communicate_PB, DL_State.Communicated_PB],
      ∃ ops : List Op, (∀ op ∈ ops, op.isMain = true) ∧
        ∃ (s9 : Bridge) (w9 : World),
          run E ops s w = Outcome.ret (s9, w9) ∧ s9.state = target) ∧
    (∀ (ops : List Op) (s9 : Bridge) (w9 : World),
      run E ops s w = Outcome.ret (s9, w9) → s9.state ≠ DL_State.Communicating_PB) := by
  constructor
  · intro target htarget
    apply cycle_reaches E s w noise rest tail hOK hst hne hN hrx hin hnoise hrest hvalid htail
    simp only [List.mem_cons, List.mem_singleton, List.not_mem_nil, or_false] at htarget
    rcases htarget with h | h | h | h | h | h | h | h | h | h | h <;> rw [h] <;> rfl
  · intro ops s9 w9 hrun h9
    have hn : s.state.normal = true := by rw [hst]; rfl
    have := (run_normal E ops s w hn).2 s9 w9 hrun
    rw [h9] at this
    cases this

/-- C13 (amended) at the example environment: three bytes of noise, a valid
frame, and a second frame for the first exchange of the cycle; `Idle` is
reached. -/
theorem C13_reachability_witness :
    ∃ ops : List Op, (∀ op ∈ ops, op.isMain = true) ∧
      ∃ (s9 : Bridge) (w9 : World),
        run (exampleEnv (fun k => goodPB.getD k 0)) ops exampleBridge
            (exampleWorld ([1, 2, 3] ++ goodLCD ++ goodLCD)) = Outcome.ret (s9, w9) ∧
        s9.state = DL_State.Idle :=
  (C13_reachability (exampleEnv (fun k => goodPB.getD k 0)) exampleBridge
    (exampleWorld ([1, 2, 3] ++ goodLCD ++ goodLCD)) [1, 2, 3] goodLCD.tail goodLCD
    (fun _ => rfl) rfl (by decide) (by decide) (by decide) (by decide) (by decide)
    (by decide) (by decide) (by decide)).1 DL_State.Idle (by decide)

/-! ## Start-up -/

/-- C16: from state `Inited`, with every exchange successful, the PB on a
handle of its own and an LCD stream on which `_DL_Sync_LCD` returns, five
successive turns of the main loop go through `Syncing_PB`, `Synced_PB`,
`Syncing_LCD`, `Synced_LCD` and `Communicate_LCD` in this order. The second
turn is `_DL_Sync_PB` followed by `state = Synced_PB`, whichever exit `e`
`_DL_Sync_PB` took; the fourth turn is `_DL_Sync_LCD`; the other three turns
change the state only and leave the world (so the buses) alone. -/
theorem C16_startup_sequence {R : Type} (E : Env R) (irq : Bool) (s : Bridge) (w : World)
    (hOK : ∀ k, E.hal k = HAL_StatusTypeDef.HAL_OK)
    (hst : s.state = DL_State.Inited)
    (hne : s.DL_SPI_Handle_PB ≠ s.DL_SPI_Handle_LCD)
    (hsync : ∃ r, _DL_Sync_LCD E irq s w = Outcome.ret r) :
    ∃ (e : SyncPB_Exit) (rx : List Nat) (w2 : World) (s4 : Bridge) (w4 : World),
      _DL_Sync_PB E irq { s with state := DL_State.Syncing_PB } w =
        Outcome.ret (e, { s with state := DL_State.Syncing_PB, DL_RxBuffer_PB := rx }, w2) ∧
      _DL_Sync_LCD E irq { s with state := DL_State.Syncing_LCD, DL_RxBuffer_PB := rx } w2 =
        Outcome.ret (s4, w4) ∧
      DL_Start_iter E irq s w =
        Outcome.ret ({ s with state := DL_State.Syncing_PB }, w) ∧
      DL_Start_iter E irq { s with state := DL_State.Syncing_PB } w =
        Outcome.ret ({ s with state := DL_State.Synced_PB, DL_RxBuffer_PB := rx }, w2) ∧
      DL_Start_iter E irq { s with state := DL_State.Synced_PB, DL_RxBuffer_PB := rx } w2 =
        Outcome.ret ({ s with state := DL_State.Syncing_LCD, DL_RxBuffer_PB := rx }, w2) ∧
      DL_Start_iter E irq { s with state := DL_State.Syncing_LCD, DL_RxBuffer_PB := rx } w2 =
        Outcome.ret ({ s4 with state := DL_State.Synced_LCD }, w4) ∧
      DL_Start_iter E irq { s4 with state := DL_State.Synced_LCD } w4 =
        Outcome.ret ({ s4 with state := DL_State.Communicate_LCD }, w4) ∧
      run E (List.replicate 5 (Op.iter irq)) s w =
        Outcome.ret ({ s4 with state := DL_State.Communicate_LCD }, w4) := by
  obtain ⟨e, rx, w2, hpb, a2, hl2, _⟩ := iter_Syncing_PB_ok E irq
    { s with state := DL_State.Syncing_PB } w hOK rfl hne
  -- the LCD scan returns on the bridge and world that the PB scan leaves
  have hloop : ∃ r, _DL_Sync_LCD_loop E irq (w.lcdIn.length + 1)
      { s with state := DL_State.Syncing_LCD } w = Outcome.ret r := by
    obtain ⟨r, hr⟩ := hsync
    unfold _DL_Sync_LCD at hr
    cases hl : _DL_Sync_LCD_loop E irq (w.lcdIn.length + 1)
        { s with state := DL_State.Syncing_LCD } w with
    | ret p => exact ⟨p, rfl⟩
    | fatal => rw [hl] at hr; cases hr
    | blocked => rw [hl] at hr; cases hr
    | halted => rw [hl] at hr; cases hr
  obtain ⟨⟨s3, w3⟩, hloop2⟩ := _DL_Sync_LCD_loop_returns_congr E irq hOK (w.lcdIn.length + 1)
    { s with state := DL_State.Syncing_LCD }
    { s with state := DL_State.Syncing_LCD, DL_RxBuffer_PB := rx } w w2 rfl rfl rfl hl2 hloop
  have hlcd : _DL_Sync_LCD E irq
      { s with state := DL_State.Syncing_LCD, DL_RxBuffer_PB := rx } w2 =
      Outcome.ret ({ s3 with state := DL_State.Synced_LCD }, w3) := by
    unfold _DL_Sync_LCD
    rw [hl2]
    exact congrArg (fun o => match o with
      | Outcome.ret (s1, w1) => Outcome.ret ({ s1 with state := DL_State.Synced_LCD }, w1)
      | Outcome.fatal => Outcome.fatal
      | Outcome.blocked => Outcome.blocked
      | Outcome.halted => Outcome.halted) hloop2
  have a1 : DL_Start_iter E irq s w =
      Outcome.ret ({ s with state := DL_State.Syncing_PB }, w) := by
    simp [DL_Start_iter, hst]
  have a3 : DL_Start_iter E irq
      { s with state := DL_State.Synced_PB, DL_RxBuffer_PB := rx } w2 =
      Outcome.ret ({ s with state := DL_State.Syncing_LCD, DL_RxBuffer_PB := rx }, w2) := by
    simp [DL_Start_iter]
  have a4 : DL_Start_iter E irq
      { s with state := DL_State.Syncing_LCD, DL_RxBuffer_PB := rx } w2 =
      Outcome.ret ({ s3 with state := DL_State.Synced_LCD }, w3) := by
    simp only [DL_Start_iter]
    rw [hlcd]
  have a5 : DL_Start_iter E irq { s3 with state := DL_State.Synced_LCD } w3 =
      Outcome.ret ({ s3 with state := DL_State.Communicate_LCD }, w3) := by
    simp [DL_Start_iter]
  refine ⟨e, rx, w2, { s3 with state := DL_State.Synced_LCD }, w3,
    hpb, hlcd, a1, a2, a3, a4, a5, ?_⟩
  simp only [List.replicate, run, Op.apply, a1, a2, a3, a4, a5]

/-- C16 at the example environment: a PB that never shows its marker (so
`_DL_Sync_PB` gives up) and an LCD that sends noise and a valid frame. -/
theorem C16_startup_sequence_witness :
    ∃ (s5 : Bridge) (w5 : World),
      run (exampleEnv (fun _ => 0)) (List.replicate 5 (Op.iter true)) exampleBridge
          (exampleWorld ([1, 2, 3] ++ goodLCD)) = Outcome.ret (s5, w5) ∧
      s5.state = DL_State.Communicate_LCD := by
  have hsync : ∃ r, _DL_Sync_LCD (exampleEnv (fun _ => 0)) true exampleBridge
      (exampleWorld ([1, 2, 3] ++ goodLCD)) = Outcome.ret r := by
    cases hr : _DL_Sync_LCD (exampleEnv (fun _ => 0)) true exampleBridge
        (exampleWorld ([1, 2, 3] ++ goodLCD)) with
    | ret p => exact ⟨p, rfl⟩
    | fatal => exact absurd hr (by decide)
    | blocked => exact absurd hr (by decide)
    | halted => exact absurd hr (by decide)
  obtain ⟨_, _, _, s4, w4, _, _, _, _, _, _, _, hrun⟩ :=
    C16_startup_sequence (exampleEnv (fun _ => 0)) true exampleBridge
      (exampleWorld ([1, 2, 3] ++ goodLCD)) (fun _ => rfl) rfl (by decide) hsync
  exact ⟨_, _, hrun, rfl⟩

/-! ## The debug flag -/

/-- C19: `DL_Set_Debug` changes the debug flag and nothing else; and when two
bridges `s` and `t` differ in the debug flag only, one turn of the main loop on
the same world ends the same way for both, and if it returns it returns the
same world, state, four buffers and two error counters (the bridge returned for
`t` is the one returned for `s` with the flag of `t`). Moreover a turn of the
main loop writes the LCD Tx buffer only in state `Communicated_PB` with a valid
PB frame, where it is the relay copy with the overwrite hook applied: the debug
hook never writes it. -/
theorem C19_debug_toggle_no_effect {R : Type} (E : Env R) (irq : Bool) (s t : Bridge)
    (w : World) (hdiff : t = DL_Set_Debug s t.debug_enabled) :
    (∀ d : Int, DL_Set_Debug s d = { s with debug_enabled := d }) ∧
    DL_Start_iter E irq t w =
      Outcome.map (withDebug t.debug_enabled) (DL_Start_iter E irq s w) ∧
    (∀ (s9 : Bridge) (w9 : World), DL_Start_iter E irq s w = Outcome.ret (s9, w9) →
      ∃ t9 : Bridge, DL_Start_iter E irq t w = Outcome.ret (t9, w9) ∧
        t9.state = s9.state ∧
        t9.DL_TxBuffer_PB = s9.DL_TxBuffer_PB ∧
        t9.DL_TxBuffer_LCD = s9.DL_TxBuffer_LCD ∧
        t9.DL_RxBuffer_PB = s9.DL_RxBuffer_PB ∧
        t9.DL_RxBuffer_LCD = s9.DL_RxBuffer_LCD ∧
        t9.DL_ChkCnt_PB = s9.DL_ChkCnt_PB ∧
        t9.DL_ChkCnt_LCD = s9.DL_ChkCnt_LCD) ∧
    (∀ (s9 : Bridge) (w9 : World), DL_Start_iter E irq s w = Outcome.ret (s9, w9) →
      s9.DL_TxBuffer_LCD = s.DL_TxBuffer_LCD ∨
      (s.state = DL_State.Communicated_PB ∧ E.checksumOK s.DL_RxBuffer_PB = true ∧
        s9.DL_TxBuffer_LCD = E.DLO_apply_overwrites
          (cpyPacket E.DL_PACKETSIZE s.DL_RxBuffer_PB s.DL_TxBuffer_LCD) E.DLO_Buffer_LCD)) := by
  have hcomm := setDebug_iter E irq t.debug_enabled s w
  rw [← hdiff] at hcomm
  refine ⟨fun _ => rfl, hcomm, ?_, ?_⟩
  · intro s9 w9 h9
    rw [h9] at hcomm
    exact ⟨DL_Set_Debug s9 t.debug_enabled, hcomm, rfl, rfl, rfl, rfl, rfl, rfl, rfl⟩
  · intro s9 w9 h9
    exact (iter_Tx E irq s s9 w w9 h9).2.2

/-- C19 at the example environment: the same valid LCD frame relayed with the
debug flag off and on. -/
theorem C19_debug_toggle_no_effect_witness :
    DL_Start_iter (exampleEnv (fun _ => 0)) true
        (DL_Set_Debug { exampleBridge with
          state := DL_State.Communicated_LCD, DL_RxBuffer_LCD := goodLCD } 1)
        (exampleWorld []) =
      Outcome.map (withDebug 1)
        (DL_Start_iter (exampleEnv (fun _ => 0)) true
          { exampleBridge with
            state := DL_State.Communicated_LCD, DL_RxBuffer_LCD := goodLCD }
          (exampleWorld [])) :=
  (C19_debug_toggle_no_effect (exampleEnv (fun _ => 0)) true
    { exampleBridge with state := DL_State.Communicated_LCD, DL_RxBuffer_LCD := goodLCD }
    (DL_Set_Debug { exampleBridge with
      state := DL_State.Communicated_LCD, DL_RxBuffer_LCD := goodLCD } 1)
    (exampleWorld []) rfl).2.1

/-! ## Valid frames in the Tx buffers -/

/-- C20: assume that `checksum` depends only on bytes `0 .. N-2`, that
`checksumOK f` holds exactly when byte `N-1` of `f` is `checksum f`, and that
the overwrite hook maps checksum-valid frames to checksum-valid frames; let the
frame have at least one byte and all five buffers hold at least a frame. Then
behind the statements of `DL_Start` ahead of its loop both Tx buffers pass
`checksumOK`, and they still do at the end of every finite sequence of turns of
the main loop, completion callbacks and soft resets (and calls of `DL_Init` and
`DL_Set_Debug`). -/
theorem C20_tx_buffers_valid {R : Type} (E : Env R) (s : Bridge) (w : World) (ops : List Op)
    (hdep : ∀ f g : List Nat, f.take (E.DL_PACKETSIZE - 1) = g.take (E.DL_PACKETSIZE - 1) →
      E.checksum f = E.checksum g)
    (hok : ∀ f : List Nat, E.checksumOK f = true ↔
      f.getD (E.DL_PACKETSIZE - 1) 0 = E.checksum f)
    (hhook : ∀ (f : List Nat) (r : R), E.checksumOK f = true →
      E.checksumOK (E.DLO_apply_overwrites f r) = true)
    (hN : 1 ≤ E.DL_PACKETSIZE) (hsz : s.sized E)
    (hpb : E.DL_PACKETSIZE ≤ s.DL_TxBuffer_PB.length)
    (hlcd : E.DL_PACKETSIZE ≤ s.DL_TxBuffer_LCD.length) :
    E.checksumOK (DL_Start_init E s).DL_TxBuffer_PB = true ∧
    E.checksumOK (DL_Start_init E s).DL_TxBuffer_LCD = true ∧
    ∀ (s9 : Bridge) (w9 : World), run E ops (DL_Start_init E s) w = Outcome.ret (s9, w9) →
      E.checksumOK s9.DL_TxBuffer_PB = true ∧ E.checksumOK s9.DL_TxBuffer_LCD = true := by
  have h0 := init_txValid E s hdep hok hN hsz hpb hlcd
  refine ⟨h0.1, h0.2.1, ?_⟩
  intro s9 w9 h9
  have h := run_txValid E hdep hok hhook hN ops _ s9 w w9 h0 h9
  exact ⟨h.1, h.2.1⟩

/-- C20 at the example environment with the identity hook: start-up on noise
and a valid frame, one exchange with the LCD and the relay of what it sent. -/
theorem C20_tx_buffers_valid_witness :
    (exampleEnvId (fun _ => 0)).checksumOK
        (DL_Start_init (exampleEnvId (fun _ => 0)) exampleBridge).DL_TxBuffer_LCD = true ∧
    ∀ (s9 : Bridge) (w9 : World),
      run (exampleEnvId (fun _ => 0))
          [Op.iter true, Op.iter true, Op.iter true, Op.iter true, Op.iter true,
           Op.iter true, Op.iter true]
          (DL_Start_init (exampleEnvId (fun _ => 0)) exampleBridge)
          (exampleWorld ([1, 2, 3] ++ goodLCD ++ goodLCD)) = Outcome.ret (s9, w9) →
      (exampleEnvId (fun _ => 0)).checksumOK s9.DL_TxBuffer_PB = true ∧
      (exampleEnvId (fun _ => 0)).checksumOK s9.DL_TxBuffer_LCD = true :=
  have h := C20_tx_buffers_valid (exampleEnvId (fun _ => 0)) exampleBridge
    (exampleWorld ([1, 2, 3] ++ goodLCD ++ goodLCD))
    [Op.iter true, Op.iter true, Op.iter true, Op.iter true, Op.iter true,
     Op.iter true, Op.iter true]
    (by
      intro f g hfg
      show ((f.take 10).sum + 0x55) % 256 = ((g.take 10).sum + 0x55) % 256
      have h10 : f.take 10 = g.take 10 := hfg
      rw [h10])
    (by
      intro f
      show (f.getD 10 0 == ((f.take 10).sum + 0x55) % 256) = true ↔
        f.getD 10 0 = ((f.take 10).sum + 0x55) % 256
      exact beq_iff_eq)
    (fun _ _ h => h) (by decide) ⟨by decide, by decide, by decide⟩ (by decide) (by decide)
  ⟨h.2.1, h.2.2⟩

/-! ## The probe budget of the PB scan -/

/-- C21: with every exchange successful and the PB on a handle of its own,
`_DL_Sync_PB` returns, and so does its loop under every bound on the turns of
at least 101, with the same result. It makes `k + 1` one-byte probes of the PB
with `k + 1 ≤ 101` (the log grows by these probes, a delay of one millisecond
behind every miss); none of the first `k` answers is the PB marker and the last
answer is left in byte 0 of the PB Rx buffer. If the last answer is the marker
the function leaves through the `break`; otherwise it has made exactly 101
probes, none of the 101 answers is the marker, and it leaves through the early
`return`. -/
theorem C21_SyncPB_probe_budget {R : Type} (E : Env R) (irq : Bool)
    (hOK : ∀ k, E.hal k = HAL_StatusTypeDef.HAL_OK) (s : Bridge) (w : World)
    (hne : s.DL_SPI_Handle_PB ≠ s.DL_SPI_Handle_LCD) :
    ∃ (e : SyncPB_Exit) (k : Nat), k + 1 ≤ 101 ∧
      _DL_Sync_PB E irq s w =
        Outcome.ret (e,
          { s with
            DL_RxBuffer_PB := E.pbByte (w.pbPos + k) :: s.DL_RxBuffer_PB.drop 1 },
          { w with
            pbPos := w.pbPos + (k + 1)
            calls := w.calls + (k + 1)
            trace := w.trace ++ scanLogPB (probeEventPB s) k e }) ∧
      (∀ fuel, 101 ≤ fuel →
        _DL_Sync_PB_loop E irq fuel 0 s w = _DL_Sync_PB E irq s w) ∧
      (∀ i, i < k → E.pbByte (w.pbPos + i) ≠ E.DL_PACKET_PB_START) ∧
      (e = SyncPB_Exit.found ∧ E.pbByte (w.pbPos + k) = E.DL_PACKET_PB_START ∨
       e = SyncPB_Exit.gaveUp ∧ k + 1 = 101 ∧
         ∀ i, i < 101 → E.pbByte (w.pbPos + i) ≠ E.DL_PACKET_PB_START) := by
  obtain ⟨e, k, hk, hrun, hmiss, hlast⟩ :=
    _DL_Sync_PB_loop_scan E irq hOK 100 0 s w hne (by omega)
  have h101 := hrun 101 (by omega)
  refine ⟨e, k, by omega, ?_, ?_, hmiss, ?_⟩
  · simpa only [_DL_Sync_PB] using h101
  · intro fuel hf
    simp only [_DL_Sync_PB]
    rw [hrun fuel (by omega), h101]
  · rcases hlast with ⟨h1, h2⟩ | ⟨h1, h2, h3⟩
    · exact Or.inl ⟨h1, h2⟩
    · refine Or.inr ⟨h1, by omega, ?_⟩
      intro i hi
      by_cases hik : i < k
      · exact hmiss i hik
      · have hie : i = k := by omega
        rw [hie]
        exact h3

/-- C21 at the example environment with a PB that answers the marker as its
fourth byte: the scan makes four probes and leaves through the `break` with the
marker in byte 0 of the PB Rx buffer. -/
theorem C21_SyncPB_probe_budget_witness :
    (∀ k, (exampleEnv (fun k => if k = 3 then 0x0B else 0)).hal k = HAL_StatusTypeDef.HAL_OK) ∧
    exampleBridge.DL_SPI_Handle_PB ≠ exampleBridge.DL_SPI_Handle_LCD ∧
    _DL_Sync_PB (exampleEnv (fun k => if k = 3 then 0x0B else 0)) true exampleBridge
        (exampleWorld []) =
      Outcome.ret (SyncPB_Exit.found,
        { exampleBridge with DL_RxBuffer_PB := 0x0B :: exampleBridge.DL_RxBuffer_PB.drop 1 },
        { exampleWorld [] with
          pbPos := 4
          calls := 4
          trace := scanLogPB (probeEventPB exampleBridge) 3 SyncPB_Exit.found }) := by
  refine ⟨fun _ => rfl, by decide, ?_⟩
  obtain ⟨e, k, _, hrun, _, _, hlast⟩ :=
    C21_SyncPB_probe_budget (exampleEnv (fun k => if k = 3 then 0x0B else 0)) true
      (fun _ => rfl) exampleBridge (exampleWorld []) (by decide)
  rcases hlast with ⟨he, hb⟩ | ⟨_, _, hall⟩
  · have hk3 : k = 3 := by
      by_cases h3 : k = 3
      · exact h3
      · have h0 : (exampleEnv (fun k => if k = 3 then 0x0B else 0)).pbByte
            ((exampleWorld []).pbPos + k) = 0 := by
          simp [exampleEnv, exampleWorld, h3]
        rw [h0] at hb
        exact absurd hb (by decide)
    subst he
    subst hk3
    exact hrun
  · exact absurd rfl (hall 3 (by decide))

end Delonghi
